import Mathlib

/-!
# rpeat: a verification development

Shallow embedding of parts of the `rpeat` scheduler (Go) and theorems about them.

* `job.go`     : `JState`, `isValidJobStateChange`, `setJobState`, `addHistory`
* `cron.go`    : `ParseCron`, `expandField`, `NextCronStart`, `getNextStart`
* `next.go`    : `Cron.NextStart` and its helpers
* `utils.go`   : `makerange`, `stringInSlice`
* `depends.go` : `DependencyClient.CheckDependency`

Conventions. Go `int` values are `Int`; a Go `time.Duration` is an `Int` count of
nanoseconds clamped to the signed 64-bit range where the Go library saturates.
A Go run-time panic and a call of `log.Fatal` (which exits the process) are explicit
outcomes of the functions that can reach them.
-/

namespace Rpeat

/-! ## job.go : job states -/

/-- The `JState` enumeration of `job.go` (values 1100 .. 1129 in the source), and `J0`, the
zero value of the type, which a job record holds until a state is assigned. -/
inductive JState where
  | J0
  | JRunning | JHold | JStopped | JStarted | JFailed | JReady | JRetrying | JRetryWait
  | JRetryFailed | JSuccess | JEnd | JRestart | JReset | JStopping | JUnknown | JContingent
  | JWarning | JWarning2 | JWarning3 | JConfigWarning | JConfigError | JMissedWarning
  | JMissedError | JDepWarning | JDepRetry | JDepFailed | JManual | JManualSuccess
  | JUpdating | JUpdated
  deriving DecidableEq, Repr

open JState

/-- The integer value of a state: `iota + 1100`. -/
def JState.toInt : JState → Int
  | J0 => 0
  | JRunning => 1100 | JHold => 1101 | JStopped => 1102 | JStarted => 1103
  | JFailed => 1104 | JReady => 1105 | JRetrying => 1106 | JRetryWait => 1107
  | JRetryFailed => 1108 | JSuccess => 1109 | JEnd => 1110 | JRestart => 1111
  | JReset => 1112 | JStopping => 1113 | JUnknown => 1114 | JContingent => 1115
  | JWarning => 1116 | JWarning2 => 1117 | JWarning3 => 1118 | JConfigWarning => 1119
  | JConfigError => 1120 | JMissedWarning => 1121 | JMissedError => 1122
  | JDepWarning => 1123 | JDepRetry => 1124 | JDepFailed => 1125 | JManual => 1126
  | JManualSuccess => 1127 | JUpdating => 1128 | JUpdated => 1129

/-- The table `names` of `JState.String`. -/
def JState.names : List String :=
  ["running", "onhold", "stopped", "started", "failed", "ready", "retrying", "retrywait",
   "retryfailed", "success", "end", "restart", "reset", "stopping", "unknown", "contingent",
   "warning", "warning2", "warning3", "configwarning", "configerror", "missedwarning",
   "missed", "depwarning", "depretry", "depfailed", "manual", "manualsuccess", "updating",
   "updated"]

/-- `JState.String`: the name of the state, `"Unknown"` outside `JRunning .. JManualSuccess`. -/
def JState.String (jstate : JState) : String :=
  if jstate.toInt < JRunning.toInt ∨ jstate.toInt > JManualSuccess.toInt then "Unknown"
  else JState.names.getD (jstate.toInt - 1100).toNat "Unknown"

/-! ## Outcomes of Go calls -/

/-- How a call of a Go function ends: it returns, it panics (a run-time error such as an
index out of range), or it calls `log.Fatal`, which exits the process. -/
inductive Outcome (α : Type) where
  | ret (a : α)
  | panicked
  | fatal
  deriving DecidableEq, Repr

/-- Sequencing of calls: the first panic or fatal exit ends the computation. -/
def Outcome.bind {α β : Type} (x : Outcome α) (f : α → Outcome β) : Outcome β :=
  match x with
  | Outcome.ret a => f a
  | Outcome.panicked => Outcome.panicked
  | Outcome.fatal => Outcome.fatal

instance : Monad Outcome where
  pure := Outcome.ret
  bind := Outcome.bind

/-- Go indexing `xs[i]`: a panic when `i` is out of range. -/
def index {α : Type} (xs : List α) (i : Int) : Outcome α :=
  if i < 0 then Outcome.panicked
  else match xs.get? i.toNat with
    | some a => Outcome.ret a
    | none => Outcome.panicked

/-! ## Go library functions on strings (package `strings`, `strconv`, `sort`) -/

/-- `unicode.IsSpace`. -/
def isSpace (c : Char) : Bool :=
  c == ' ' || c == '\t' || c == '\n' || c == '\r' || c.toNat == 0x0B || c.toNat == 0x0C ||
  c.toNat == 0x85 || c.toNat == 0xA0 || c.toNat == 0x1680 ||
  (0x2000 ≤ c.toNat && c.toNat ≤ 0x200A) || c.toNat == 0x2028 || c.toNat == 0x2029 ||
  c.toNat == 0x202F || c.toNat == 0x205F || c.toNat == 0x3000

/-- Worker of `Fields`: `cur` is the field being read (reversed), `acc` the fields read. -/
def fieldsAux : List Char → List Char → List String → List String
  | [], cur, acc => (if cur.isEmpty then acc else String.mk cur.reverse :: acc).reverse
  | c :: cs, cur, acc =>
      if isSpace c then
        fieldsAux cs [] (if cur.isEmpty then acc else String.mk cur.reverse :: acc)
      else fieldsAux cs (c :: cur) acc

/-- `strings.Fields`: the maximal runs of non-space characters. -/
def Fields (s : String) : List String := fieldsAux s.toList [] []

/-- Worker of `Split` for a one-character separator. -/
def splitAux (sep : Char) : List Char → List Char → List String → List String
  | [], cur, acc => (String.mk cur.reverse :: acc).reverse
  | c :: cs, cur, acc =>
      if c = sep then splitAux sep cs [] (String.mk cur.reverse :: acc)
      else splitAux sep cs (c :: cur) acc

/-- `strings.Split(s, sep)` for a separator of one character: never empty. -/
def Split (s : String) (sep : Char) : List String := splitAux sep s.toList [] []

/-- The characters of `strings.Join(elems, sep)`. -/
def joinChars (sep : List Char) : List String → List Char
  | [] => []
  | [a] => a.toList
  | a :: b :: rest => a.toList ++ sep ++ joinChars sep (b :: rest)

/-- `strings.Join(elems, sep)`. -/
def Join (elems : List String) (sep : String) : String := String.mk (joinChars sep.toList elems)

/-- `strings.HasPrefix`. -/
def HasPrefix (s pre : String) : Bool := pre.toList.isPrefixOf s.toList

/-- `strings.TrimPrefix`. -/
def TrimPrefix (s pre : String) : String :=
  if HasPrefix s pre then String.mk (s.toList.drop pre.toList.length) else s

/-- `strings.ToUpper` on ASCII text (letters outside ASCII are left as they are). -/
def ToUpper (s : String) : String := String.mk (s.toList.map Char.toUpper)

/-- `strings.ContainsAny(s, chars)`. -/
def ContainsAny (s chars : String) : Bool := s.toList.any (fun c => chars.toList.contains c)

/-- `strings.Contains(s, sub)` for a one-character `sub`. -/
def Contains (s : String) (c : Char) : Bool := s.toList.contains c

/-- Worker of `Replace`: scan left to right, `fuel` bounds the number of steps. -/
def replaceAux (old new : List Char) : Nat → List Char → List Char
  | 0, s => s
  | _ + 1, [] => []
  | fuel + 1, c :: cs =>
      if old.isPrefixOf (c :: cs) then new ++ replaceAux old new fuel ((c :: cs).drop old.length)
      else c :: replaceAux old new fuel cs

/-- `strings.Replace(s, old, new, -1)` for a non-empty `old`: every non-overlapping
occurrence, left to right. -/
def Replace (s old new : String) : String :=
  String.mk (replaceAux old.toList new.toList s.toList.length s.toList)

/-- The largest value of a 64-bit Go `int` (`math.MaxInt64`). -/
def MaxInt64 : Int := 9223372036854775807

/-- The smallest value of a 64-bit Go `int`. -/
def MinInt64 : Int := -9223372036854775808

/-- The result of a sum or product of Go `int`s or `int64`s: the value modulo `2^64`, in the
signed range (an overflow wraps around). Wrapping the result of an expression once is the
same as wrapping after every operation of it. -/
def wrapInt64 (v : Int) : Int := (v - MinInt64) % 18446744073709551616 + MinInt64

/-- The value of a string of decimal digits, `none` when a character is not a digit or the
string is empty. -/
def digitsValue (cs : List Char) : Option Nat :=
  if cs.isEmpty then none
  else cs.foldl (fun acc c =>
    match acc with
    | none => none
    | some n => if c.isDigit then some (n * 10 + (c.toNat - '0'.toNat)) else none) (some 0)

/-- `strconv.Atoi`: the value and whether the error is nil. A syntax error gives 0, a value
out of the 64-bit range gives the nearest bound, both with a non-nil error. -/
def Atoi (s : String) : Int × Bool :=
  let cs := s.toList
  let (neg, ds) : Bool × List Char :=
    match cs with
    | '-' :: r => (true, r)
    | '+' :: r => (false, r)
    | _ => (false, cs)
  match digitsValue ds with
  | none => (0, false)
  | some n =>
      let v : Int := if neg then -(n : Int) else (n : Int)
      if v > MaxInt64 then (MaxInt64, false)
      else if v < MinInt64 then (MinInt64, false)
      else (v, true)

/-- `sort.Ints`: ascending order. -/
def sortInts (e : List Int) : List Int := e.insertionSort (· ≤ ·)

/-- The loop of `sort.Search` on the half-open interval `[i, j)`. -/
def searchLoop (a : List Int) (x : Int) : Nat → Nat → Nat → Nat
  | 0, i, _ => i
  | fuel + 1, i, j =>
      if i < j then
        let h := (i + j) / 2
        if a.getD h 0 ≥ x then searchLoop a x fuel i h
        else searchLoop a x fuel (h + 1) j
      else i

/-- `sort.SearchInts(a, x)`: binary search for the first index whose element is `≥ x`
(the interval halves at each step, so `len(a)` steps are enough). -/
def SearchInts (a : List Int) (x : Int) : Int := (searchLoop a x a.length 0 a.length : Nat)

/-! ## utils.go -/

/-- The loop of `makerange`: `i` is the loop variable, `acc` the slots already written
(`truelen` is its length). Writing slot `len` is an index out of range. -/
def makerangeLoop (s len step : Int) : Nat → Int → List Int → Outcome (List Int)
  | 0, _, _ => Outcome.panicked
  | fuel + 1, i, acc =>
      if i < len then
        if (acc.length : Int) < len then makerangeLoop s len step fuel (i + step) (acc ++ [s + i])
        else Outcome.panicked
      else Outcome.ret acc

/-- `makerange(s, len, step)`: `s, s+step, ...` while the offset is below `len`.
`make([]int, len)` panics for a negative `len`; a step `≤ 0` with `len > 0` never leaves
the loop and writes past the slice. Each turn fills one slot, so `len + 1` turns decide. -/
def makerange (s len step : Int) : Outcome (List Int) :=
  if len < 0 then Outcome.panicked
  else makerangeLoop s len step (len.toNat + 1) 0 []

/-- `stringInSlice`. -/
def stringInSlice (str : String) (slice : List String) : Bool :=
  slice.any (fun s => str == s)

/-! ## Go library: package `time`

Instants are counted in nanoseconds since 0001-01-01 00:00:00 UTC (the zero `time.Time`).
A location is a fixed offset east of UTC, in seconds; locations whose offset changes over
the year (daylight saving) are outside this model. -/

/-- A `time.Time`: the instant and the offset of the location it is displayed in. -/
structure Time where
  ns : Int
  off : Int
  deriving DecidableEq, Repr

/-- The variable `ZeroTime` of `next.go`, also the zero value `time.Time{}`. -/
def ZeroTime : Time := { ns := 0, off := 0 }

/-- Days from 0001-01-01 to the first day of month `m` (1..12) of year `y`, plus `d - 1`
(proleptic Gregorian calendar). -/
def daysFromCivil (y m d : Int) : Int :=
  let y1 := if m ≤ 2 then y - 1 else y
  let era := y1 / 400
  let yoe := y1 - era * 400
  let mp := if m > 2 then m - 3 else m + 9
  let doy := (153 * mp + 2) / 5 + d - 1
  let doe := yoe * 365 + yoe / 4 - yoe / 100 + doy
  era * 146097 + doe - 306

/-- The civil date (year, month, day) of a day count since 0001-01-01. -/
def civilFromDays (z0 : Int) : Int × Int × Int :=
  let z := z0 + 306
  let era := z / 146097
  let doe := z - era * 146097
  let yoe := (doe - doe / 1460 + doe / 36524 - doe / 146096) / 365
  let doy := doe - (365 * yoe + yoe / 4 - yoe / 100)
  let mp := (5 * doy + 2) / 153
  let d := doy - (153 * mp + 2) / 5 + 1
  let m := if mp < 10 then mp + 3 else mp - 9
  let y := yoe + era * 400
  (if m ≤ 2 then y + 1 else y, m, d)

/-- `time.Date(year, month, day, hour, min, sec, nsec, loc)`: values outside their usual
ranges are normalised (month 13 is January of the next year, day 0 is the last day of the
month before). -/
def goDate (year month day hour min sec nsec off : Int) : Time :=
  let m0 := month - 1
  let y := year + m0 / 12
  let m := m0 % 12 + 1
  let days := daysFromCivil y m 1 + (day - 1)
  { ns := (days * 86400 + hour * 3600 + min * 60 + sec - off) * 1000000000 + nsec, off := off }

/-- Nanoseconds since 0001-01-01 00:00:00 on the wall clock of the time's location. -/
def Time.wall (t : Time) : Int := t.ns + t.off * 1000000000

/-- `Time.Date`: year, month and day. -/
def Time.Date (t : Time) : Int × Int × Int := civilFromDays (t.wall / 86400000000000)

/-- `Time.Year`. -/
def Time.Year (t : Time) : Int := t.Date.1

/-- `Time.Month`. -/
def Time.Month (t : Time) : Int := t.Date.2.1

/-- `Time.Day`. -/
def Time.Day (t : Time) : Int := t.Date.2.2

/-- `Time.Hour`. -/
def Time.Hour (t : Time) : Int := t.wall % 86400000000000 / 3600000000000

/-- `Time.Minute`. -/
def Time.Minute (t : Time) : Int := t.wall % 3600000000000 / 60000000000

/-- `Time.Second`. -/
def Time.Second (t : Time) : Int := t.wall % 60000000000 / 1000000000

/-- `Time.Nanosecond`. -/
def Time.Nanosecond (t : Time) : Int := t.wall % 1000000000

/-- `Time.Weekday`: Sunday = 0 (0001-01-01 was a Monday). -/
def Time.Weekday (t : Time) : Int := (t.wall / 86400000000000 + 1) % 7

/-- `Time.Add`. -/
def Time.Add (t : Time) (d : Int) : Time := { t with ns := t.ns + d }

/-- `Time.AddDate`. -/
def Time.AddDate (t : Time) (years months days : Int) : Time :=
  goDate (t.Year + years) (t.Month + months) (t.Day + days)
    t.Hour t.Minute t.Second t.Nanosecond t.off

/-- `Time.Sub`: the difference as a `Duration`, saturating at the 64-bit bounds. -/
def Time.Sub (t u : Time) : Int :=
  let d := t.ns - u.ns
  if d > MaxInt64 then MaxInt64 else if d < MinInt64 then MinInt64 else d

/-- The constant `time.Millisecond`, in nanoseconds. -/
def Millisecond : Int := 1000000

/-- The constant `time.Second`, in nanoseconds. -/
def Second : Int := 1000000000

/-- Read exactly `n` decimal digits off the front of `cs`. -/
def takeDigits (n : Nat) (cs : List Char) : Option (Int × List Char) :=
  if cs.length < n then none
  else match digitsValue (cs.take n) with
    | some v => if n = 0 then none else some ((v : Int), cs.drop n)
    | none => none

/-- The helper `getnum(s, false)` of package `time`: one digit, or two when a second digit
follows. -/
def getnumFree (cs : List Char) : Option (Int × List Char) :=
  match cs with
  | a :: b :: r =>
      if a.isDigit then
        if b.isDigit then some (((a.toNat - 48) * 10 + (b.toNat - 48) : Nat), r)
        else some (((a.toNat - 48 : Nat) : Int), b :: r)
      else none
  | [a] => if a.isDigit then some (((a.toNat - 48 : Nat) : Int), []) else none
  | [] => none

/-- A fractional second after the seconds of a timestamp whose layout has none: a period or
comma and digits; at most nine digits count. The nanoseconds and the rest of the input. -/
def parseFraction (cs : List Char) : Option (Int × List Char) :=
  match cs with
  | p :: d :: r =>
      if (p == '.' || p == ',') && d.isDigit then
        let ds := (d :: r).takeWhile Char.isDigit
        let rest := (d :: r).dropWhile Char.isDigit
        let used := ds.take 9
        match digitsValue used with
        | some v => some (((v * 10 ^ (9 - used.length) : Nat) : Int), rest)
        | none => none
      else some (0, cs)
  | _ => some (0, cs)

/-- `time.ParseInLocation("20060102150405", value, loc)` for a location of offset `off`;
`none` stands for a non-nil error (Go then returns the zero `time.Time`). -/
def ParseInLocation (value : String) (off : Int) : Option Time := do
  let (year, r1) ← takeDigits 4 value.toList
  let (month, r2) ← takeDigits 2 r1
  let (day, r3) ← takeDigits 2 r2
  let (hour, r4) ← getnumFree r3
  let (min, r5) ← takeDigits 2 r4
  let (sec, r6) ← takeDigits 2 r5
  let (nsec, r7) ← parseFraction r6
  if month < 1 ∨ 12 < month then none
  else if 24 ≤ hour then none
  else if 60 ≤ min then none
  else if 60 ≤ sec then none
  else if ¬ r7.isEmpty then none
  else if day < 1 ∨ day > (goDate year (month + 1) 0 0 0 0 0 0).Day then none
  else some (goDate year month day hour min sec nsec off)

/-- `fmt.Sprintf` with the verb `%0wd` (`w = 0` is `%d`): the decimal digits, filled with
zeros to the width `w`, a minus sign counting for the width. -/
def fmtInt (w : Nat) (n : Int) : String :=
  let ds := (Nat.toDigits 10 n.natAbs)
  if n < 0 then String.mk ('-' :: (List.replicate (w - 1 - ds.length) '0' ++ ds))
  else String.mk (List.replicate (w - ds.length) '0' ++ ds)

/-- The largest value of a 32-bit integer. -/
def MaxInt32 : Int := 2147483647

/-! ## The world outside the program -/

/-- What the scheduler reads from its surroundings during one call. -/
structure Env where
  /-- The instant `time.Now()` returns. -/
  clock : Int
  /-- The environment variable `RPEAT_NOW`, `none` when it is not set. -/
  rpeatNow : Option String
  /-- The function `time.LoadLocation`: the offset of the named location, `none` for an
  error. -/
  loadLocation : String → Option Int
  /-- The function `ReadCalendar`: the dates of the named calendar found in the given
  directories, `none` for a non-nil error. -/
  readCalendar : String → List String → Option (List Int)
  /-- The function `time.ParseDuration`: nanoseconds, `none` for an error. -/
  parseDuration : String → Option Int
  /-- The random source behind `rand.Intn`, one draw per call site. -/
  rnd : Nat → Nat
  /-- The function `filepath.Abs`, the path itself where nothing else is said. -/
  abs : String → String := fun p => p

/-- `rand.Intn(n)` with the draw `seed`: a panic for `n ≤ 0`. -/
def randIntn (seed : Nat) (n : Int) : Outcome Int :=
  if n ≤ 0 then Outcome.panicked else Outcome.ret ((seed : Int) % n)

/-- The function `now(location, asof)` of `next.go`: the clock in the location (UTC when
the location does not load), replaced by `asof`, or else by `RPEAT_NOW`, when set. -/
def now (env : Env) (location asof : String) : Outcome Time :=
  let off := (env.loadLocation location).getD 0
  let t : Time := { ns := env.clock, off := off }
  let setting : Option String := if asof ≠ "" then some asof else env.rpeatNow
  match setting with
  | none => Outcome.ret t
  | some v =>
      match ParseInLocation v off with
      | some t1 => Outcome.ret t1
      | none => Outcome.fatal

/-! ## cron.go -/

/-- The constants `Wday .. Year` of type `CronFields`. -/
inductive CronFields where
  | Wday | Sec | Min | Hour | Mday | Mon | Year
  deriving DecidableEq, Repr

/-- The map `Cron.Spec`, one slice per field; a missing key reads as the empty slice. -/
structure SpecMap where
  Wday : List Int
  Sec : List Int
  Min : List Int
  Hour : List Int
  Mday : List Int
  Mon : List Int
  Year : List Int
  deriving DecidableEq, Repr

/-- The empty (or nil) map. -/
def SpecMap.empty : SpecMap :=
  { Wday := [], Sec := [], Min := [], Hour := [], Mday := [], Mon := [], Year := [] }

/-- The struct `Cron`. -/
structure Cron where
  Spec : SpecMap
  Calendar : String
  CalendarDirs : List String
  Timezone : String
  Parsed : Bool
  Null : Bool
  Dependent : Bool
  Contingent : Bool
  RequireCal : Bool
  Rollback : Bool
  EndOf : Bool
  spec : String
  at_ : String
  every : Int
  adj : String
  r : List (CronFields × Bool)
  jitter : Int
  array : Bool
  deriving DecidableEq, Repr

/-- The zero value `Cron{}`. -/
def Cron.zero : Cron :=
  { Spec := SpecMap.empty, Calendar := "", CalendarDirs := [], Timezone := "",
    Parsed := false, Null := false, Dependent := false, Contingent := false,
    RequireCal := false, Rollback := false, EndOf := false, spec := "", at_ := "",
    every := 0, adj := "", r := [], jitter := 0, array := false }

/-- The constants of type `CronException`. -/
inductive CronException where
  | IncorrectNumberOfFields | MalformedAt | MalformedEvery | UnrecognizedAt
  | ExpansionError | CalendarSyntaxError
  deriving DecidableEq, Repr

/-- The constants of type `CronType` (`job.go`). -/
inductive CronType where
  | CronStart | CronEnd | CronRestart
  deriving DecidableEq, Repr

/-- The struct `CronError`; `ParseCron` leaves `Schedule` at its zero value, `none`. -/
structure CronError where
  Spec : String
  Msg : String
  Exception : CronException
  field : Int
  Schedule : Option CronType := none
  deriving DecidableEq, Repr

/-- `Cron.Months`. -/
def Cron.Months (c : Cron) : List Int := c.Spec.Mon

/-- `Cron.Mdays`. -/
def Cron.Mdays (c : Cron) : List Int := c.Spec.Mday

/-- `Cron.Wdays`. -/
def Cron.Wdays (c : Cron) : List Int := c.Spec.Wday

/-- `Cron.Hours`. -/
def Cron.Hours (c : Cron) : List Int := c.Spec.Hour

/-- `Cron.Minutes`. -/
def Cron.Minutes (c : Cron) : List Int := c.Spec.Min

/-- `Cron.Seconds`. -/
def Cron.Seconds (c : Cron) : List Int := c.Spec.Sec

/-- `Cron.IsAt`. -/
def Cron.IsAt (c : Cron) : Bool := c.at_ != ""

/-- `Cron.IsEvery`. -/
def Cron.IsEvery (c : Cron) : Bool := decide (c.every > 0)

/-- `NullCron`. -/
def NullCron : Cron := { Cron.zero with Null := true }

/-- `Cron.IsNull`. -/
def Cron.IsNull (c : Cron) : Bool := c.Null && !c.array

/-- `DependentCron`. -/
def DependentCron : Cron := { Cron.zero with Dependent := true }

/-- `Cron.isDependent`. -/
def Cron.isDependent (c : Cron) : Bool := c.Dependent

/-- The replacements of `expandField`, in the order of the source: weekday names, then
month names, the three-letter forms before the full names. -/
def nameTable : List (String × String) :=
  [("SUN", "0"), ("MON", "1"), ("TUE", "2"), ("WED", "3"), ("THU", "4"), ("FRI", "5"),
   ("SAT", "6"), ("SUNDAY", "0"), ("MONDAY", "1"), ("TUESDAY", "2"), ("WEDNESDAY", "3"),
   ("THURSDAY", "4"), ("FRIDAY", "5"), ("SATURDAY", "6"),
   ("JAN", "1"), ("FEB", "2"), ("MAR", "3"), ("APR", "4"), ("MAY", "5"), ("JUN", "6"),
   ("JUL", "7"), ("AUG", "8"), ("SEP", "9"), ("OCT", "10"), ("NOV", "11"), ("DEC", "12"),
   ("JANUARY", "1"), ("FEBRUARY", "2"), ("MARCH", "3"), ("APRIL", "4"), ("MAY", "5"),
   ("JUNE", "6"), ("JULY", "7"), ("AUGUST", "8"), ("SEPTEMBER", "9"), ("OCTOBER", "10"),
   ("NOVEMBER", "11"), ("DECEMBER", "12")]

/-- The loop of `expandField` over the comma-separated values: a range `a-b` is expanded
with `makerange` (a bound that is not a number is fatal), any other value goes through
`Atoi` with the error dropped. -/
def expandVals (step : Int) : List String → List Int → Outcome (List Int)
  | [], e => Outcome.ret e
  | v :: vals, e =>
      if Contains v '-' then
        let r := Split v '-'
        match Atoi (r.getD 0 "") with
        | (_, false) => Outcome.fatal
        | (start, true) =>
            match Atoi (r.getD 1 "") with
            | (_, false) => Outcome.fatal
            | (end_, true) =>
                match makerange start (end_ - start + 1) step with
                | Outcome.ret rr => expandVals step vals (e ++ rr)
                | Outcome.panicked => Outcome.panicked
                | Outcome.fatal => Outcome.fatal
      else expandVals step vals (e ++ [(Atoi v).1])

/-- `expandField(field, start, end)`; `seed` is the draw of `rand.Intn` for an `R` field. -/
def expandField (field : String) (start end_ : Int) (seed : Nat) : Outcome (List Int × Bool) :=
  let field0 := ToUpper field
  let r := HasPrefix field0 "R"
  let field1 := if r then TrimPrefix field0 "R" else field0
  let field2 :=
    if field1 == "M-F" || field1 == "MF" || field1 == "WEEKDAYS" || field1 == "WEEKDAY"
    then "1-5" else field1
  let field3 := if field2 == "WEEKEND" || field2 == "WEEKENDS" then "6,0" else field2
  let field4 := if field3 == "EVERYDAY" then "*" else field3
  let field5 :=
    if ContainsAny field4 "ABCDEFGHIJKLMNOPQRSTUVWXYZ"
    then nameTable.foldl (fun f p => Replace f p.1 p.2) field4 else field4
  let fields := Split field5 '/'
  let stepO : Outcome Int :=
    if fields.length > 1 then
      match Atoi (fields.getD 1 "") with
      | (step, true) => Outcome.ret step
      | (_, false) => Outcome.fatal
    else Outcome.ret 1
  stepO.bind fun step =>
  let eO : Outcome (List Int) :=
    if fields.getD 0 "" == "*" then makerange start (end_ - start + 1) step
    else expandVals step (Split (fields.getD 0 "") ',') []
  eO.bind fun e0 =>
  let e := sortInts e0
  if r then
    (randIntn seed e.length).bind fun k =>
    (index e k).bind fun x => Outcome.ret ([x], r)
  else Outcome.ret (e, r)

/-- `NewCron(location)`: every field unrestricted. -/
def NewCron (env : Env) (location : String) : Outcome Cron :=
  (makerange 0 61 1).bind fun sec =>
  (makerange 0 60 1).bind fun min =>
  (makerange 0 24 1).bind fun hour =>
  (makerange 1 31 1).bind fun mday =>
  (makerange 1 12 1).bind fun mon =>
  (now env location "").bind fun t =>
  (makerange 0 7 1).bind fun wday =>
  Outcome.ret
    { Cron.zero with
      Spec := { Wday := wday, Sec := sec, Min := min, Hour := hour, Mday := mday, Mon := mon,
                Year := [t.Year, t.Year + 1] }
      Calendar := ""
      Timezone := location }

/-- The assignment `cron.r[k] = v`. -/
def setR (r : List (CronFields × Bool)) (k : CronFields) (v : Bool) : List (CronFields × Bool) :=
  (k, v) :: r.filter (fun p => p.1 ≠ k)

/-- `atManual`. -/
def atManual (timezone : String) : Cron := { NullCron with Timezone := timezone }

/-- `atAt`. -/
def atAt (timezone at_ : String) : Cron := { NullCron with at_ := at_, Timezone := timezone }

/-- `atEvery`: a duration that does not parse is fatal. -/
def atEvery (env : Env) (_timezone duration : String) : Outcome Cron :=
  match env.parseDuration duration with
  | none => Outcome.fatal
  | some every => Outcome.ret { NullCron with every := every }

/-- The lines shared by `atYearly`, `atQuarterly`, `atMonthly` and `atWeekly`: second 0,
minute and hour 0 unless the shortcut has exactly two arguments, which are then expanded
as the minute and the hour. -/
def atMinHour (env : Env) (timezone : String) (fields : List String) : Outcome Cron := do
  let cron ← NewCron env timezone
  let min ← if fields.length = 3 then
      (expandField (fields.getD 1 "") 0 59 (env.rnd 0)).bind fun p => Outcome.ret p.1
    else Outcome.ret [0]
  let hour ← if fields.length = 3 then
      (expandField (fields.getD 2 "") 0 23 (env.rnd 1)).bind fun p => Outcome.ret p.1
    else Outcome.ret [0]
  pure { cron with Spec := { cron.Spec with Sec := [0], Min := min, Hour := hour } }

/-- `atYearly`. -/
def atYearly (env : Env) (timezone : String) (fields : List String) : Outcome Cron := do
  let cron ← atMinHour env timezone fields
  pure { cron with Spec := { cron.Spec with Mday := [1], Mon := [1], Wday := [-1] } }

/-- `atAnnual`. -/
def atAnnual (env : Env) (timezone : String) (fields : List String) : Outcome Cron :=
  atYearly env timezone fields

/-- `atQuarterly`. -/
def atQuarterly (env : Env) (timezone : String) (fields : List String) : Outcome Cron := do
  let cron ← atMinHour env timezone fields
  pure { cron with Spec := { cron.Spec with Mday := [1], Mon := [1, 4, 7, 10], Wday := [-1] } }

/-- `atMonthly`. -/
def atMonthly (env : Env) (timezone : String) (fields : List String) : Outcome Cron := do
  let cron ← atMinHour env timezone fields
  pure { cron with Spec := { cron.Spec with Mday := [1], Wday := [-1] } }

/-- `atWeekly`. -/
def atWeekly (env : Env) (timezone : String) (fields : List String) : Outcome Cron := do
  let cron ← atMinHour env timezone fields
  pure { cron with Spec := { cron.Spec with Mday := [-1], Wday := [0] } }

/-- `atDaily`. -/
def atDaily (env : Env) (timezone : String) : Outcome Cron := do
  let cron ← NewCron env timezone
  pure { cron with Spec := { cron.Spec with Sec := [0], Min := [0], Hour := [0], Wday := [-1] } }

/-- `atMidnight`. -/
def atMidnight (env : Env) (timezone : String) : Outcome Cron := atDaily env timezone

/-- `atHourly`. -/
def atHourly (env : Env) (timezone : String) : Outcome Cron := do
  let cron ← NewCron env timezone
  pure { cron with Spec := { cron.Spec with Sec := [0], Min := [0] } }

/-- `atMinutely`. -/
def atMinutely (env : Env) (timezone : String) : Outcome Cron := do
  let cron ← NewCron env timezone
  pure { cron with Spec := { cron.Spec with Sec := [0] } }

/-- The `switch fields[0]` of `ParseCron`: the cron of a shortcut and whether it forces
`rollback`; `none` for an unrecognised shortcut. -/
def parseShortcut (env : Env) (timezone : String) (fields : List String) (rollback : Bool) :
    Outcome (Option (Cron × Bool)) :=
  let name := fields.getD 0 ""
  let endOf (c : Outcome Cron) : Outcome (Option (Cron × Bool)) :=
    c.bind fun cron => Outcome.ret (some ({ cron with EndOf := true }, true))
  let plain (c : Outcome Cron) : Outcome (Option (Cron × Bool)) :=
    c.bind fun cron => Outcome.ret (some (cron, rollback))
  if name == "@minutely" || name == "@always" then plain (atMinutely env timezone)
  else if name == "@hourly" then plain (atHourly env timezone)
  else if name == "@daily" then plain (atDaily env timezone)
  else if name == "@midnight" then plain (atMidnight env timezone)
  else if name == "@weekly" then plain (atWeekly env timezone fields)
  else if name == "@eow" then endOf (atWeekly env timezone fields)
  else if name == "@monthly" then plain (atMonthly env timezone fields)
  else if name == "@eom" then endOf (atMonthly env timezone fields)
  else if name == "@quarterly" then plain (atQuarterly env timezone fields)
  else if name == "@eoq" then endOf (atQuarterly env timezone fields)
  else if name == "@yearly" then plain (atYearly env timezone fields)
  else if name == "@eoy" then endOf (atYearly env timezone fields)
  else if name == "@annual" then plain (atAnnual env timezone fields)
  else if name == "@depends" then plain (Outcome.ret DependentCron)
  else if name == "@manual" || name == "@never" then plain (Outcome.ret (atManual timezone))
  else Outcome.ret none

/-- The numeric branch of `ParseCron` for `nfields` (5 or 6) fields. -/
def parseNumeric (env : Env) (timezone calendar : String) (calendarDirs : List String)
    (fields : List String) : Outcome Cron := do
  let nfields := fields.length
  let cron0 ← NewCron env timezone
  let cron1 := { cron0 with Calendar := calendar, CalendarDirs := calendarDirs }
  let secOffset : Nat := if nfields = 6 then 1 else 0
  let f (k : Nat) : String := fields.getD (k + secOffset) ""
  let cron2 ←
    if nfields = 6 then
      if fields.getD 0 "" != "*" then
        (expandField (fields.getD 0 "") 0 59 (env.rnd 0)).bind fun p =>
          Outcome.ret { cron1 with Spec := { cron1.Spec with Sec := p.1 },
                                   r := setR cron1.r CronFields.Sec p.2 }
      else Outcome.ret cron1
    else Outcome.ret { cron1 with Spec := { cron1.Spec with Sec := [0] } }
  let cron3 ←
    if f 0 != "*" then
      (expandField (f 0) 0 59 (env.rnd 1)).bind fun p =>
        Outcome.ret { cron2 with Spec := { cron2.Spec with Min := p.1 },
                                 r := setR cron2.r CronFields.Min p.2 }
    else Outcome.ret cron2
  let cron4 ←
    if f 1 != "*" then
      (expandField (f 1) 0 23 (env.rnd 2)).bind fun p =>
        Outcome.ret { cron3 with Spec := { cron3.Spec with Hour := p.1 },
                                 r := setR cron3.r CronFields.Hour p.2 }
    else Outcome.ret cron3
  let cron5 ←
    if f 3 != "*" then
      (expandField (f 3) 1 12 (env.rnd 3)).bind fun p =>
        Outcome.ret { cron4 with Spec := { cron4.Spec with Mon := p.1 },
                                 r := setR cron4.r CronFields.Mon p.2 }
    else Outcome.ret cron4
  if f 2 != "*" && f 4 == "*" then
    (expandField (f 2) 1 31 (env.rnd 4)).bind fun p =>
      Outcome.ret { cron5 with Spec := { cron5.Spec with Mday := p.1, Wday := [-1] },
                               r := setR cron5.r CronFields.Mday p.2 }
  else if f 2 == "*" && f 4 != "*" then
    (expandField (f 4) 0 6 (env.rnd 5)).bind fun p =>
      Outcome.ret { cron5 with Spec := { cron5.Spec with Wday := p.1, Mday := [-1] },
                               r := setR cron5.r CronFields.Wday p.2 }
  else
    (expandField (f 2) 1 31 (env.rnd 4)).bind fun p =>
    (expandField (f 4) 0 6 (env.rnd 5)).bind fun q =>
      Outcome.ret { cron5 with Spec := { cron5.Spec with Mday := p.1, Wday := q.1 },
                               r := setR (setR cron5.r CronFields.Mday p.2) CronFields.Wday q.2 }

/-- `ParseCron(spec, timezone, calendar, calendarDirs, rollback, required, jitter)`: the cron
and the error (`none` is nil). -/
def ParseCron (env : Env) (spec timezone calendar : String) (calendarDirs : List String)
    (rollback required : Bool) (jitter : Int) : Outcome (Cron × Option CronError) :=
  let finish (cron : Cron) (rb : Bool) : Outcome (Cron × Option CronError) :=
    Outcome.ret ({ cron with jitter := jitter, spec := spec, Rollback := rb,
                             RequireCal := required }, none)
  let withCal (cron : Cron) : Cron :=
    { cron with Calendar := calendar, CalendarDirs := calendarDirs }
  if spec.toList.length = 0 then Outcome.ret (atManual timezone, none)
  else if HasPrefix spec "@" then
    let fields := Fields spec
    if HasPrefix spec "@at " then
      if fields.length ≠ 2 then
        Outcome.ret (Cron.zero,
          some { Spec := spec, Msg := "malformed @at - requires a valid timestamp",
                 Exception := CronException.MalformedAt, field := 0 })
      else finish (withCal (atAt timezone (fields.getD 1 ""))) rollback
    else if HasPrefix spec "@every " then
      if fields.length ≠ 2 then
        Outcome.ret (Cron.zero,
          some { Spec := spec, Msg := "malformed @every - requires a valid duration",
                 Exception := CronException.MalformedEvery, field := 0 })
      else (atEvery env timezone (fields.getD 1 "")).bind fun cron =>
        finish (withCal cron) rollback
    else
      (index fields 0).bind fun _ =>
      (parseShortcut env timezone fields rollback).bind fun res =>
      match res with
      | none =>
          Outcome.ret (Cron.zero,
            some { Spec := spec, Msg := "unrecognized @ spec",
                   Exception := CronException.UnrecognizedAt, field := 0 })
      | some (cron, rb) =>
          let cron1 := if fields.length > 1 then { cron with adj := fields.getD 1 "" } else cron
          finish (withCal cron1) rb
  else
    let fields := Fields spec
    let nfields := fields.length
    if nfields ≠ 5 ∧ nfields ≠ 6 then
      Outcome.ret (Cron.zero,
        some { Spec := spec,
               Msg := "cron format requires 5 fields exactly (min, hour, month day, month, weekday) or 6 if seconds are specified (sec, min, hour, month day, month, weekday)",
               Exception := CronException.IncorrectNumberOfFields, field := nfields })
    else (parseNumeric env timezone calendar calendarDirs fields).bind fun cron =>
      finish cron rollback

/-! ## next.go -/

/-- `dateAsInt`: the date formatted as `20060102` and read back as a 32-bit integer
(`ParseInt` returns the nearest bound when the number does not fit). -/
def dateAsInt (t : Time) : Int :=
  let y := t.Year
  let v := if y < 0 then -((-y) * 10000 + t.Month * 100 + t.Day)
           else y * 10000 + t.Month * 100 + t.Day
  if v > MaxInt32 then MaxInt32 else if v < -MaxInt32 - 1 then -MaxInt32 - 1 else v

/-- `timeAsFloat`, in units of `10^-9`: the decimal number `hhmmss.n` where `n` is the
nanosecond printed with `%d` (no zeros in front, at most nine digits). The source reads this
decimal as a `float64` and compares it with an integer; the value is below 240000, where
the rounding to `float64` moves it by less than `10^-10`, and a fraction that is not zero
is at least `0.1`, so the comparison with an integer is the one of the exact values. -/
def timeAsFloat (t : Time) : Int :=
  let n := t.Nanosecond
  (t.Hour * 10000 + t.Minute * 100 + t.Second) * 1000000000
    + n * 10 ^ (9 - (Nat.toDigits 10 n.toNat).length)

/-- The comparison `timeAsFloat(t) > float64(lastTime)`. -/
def afterLastTime (t : Time) (lastTime : Int) : Bool :=
  decide (timeAsFloat t > lastTime * 1000000000)

/-- `dayIsIn` (also `monIsIn`): a list that starts with `-1` holds no day; the empty list
panics. -/
def dayIsIn (d : Int) (days : List Int) : Outcome Bool :=
  (index days 0).bind fun d0 =>
    if d0 = -1 then Outcome.ret false else Outcome.ret (days.any fun day => d == day)

/-- The variable `monIsIn`. -/
def monIsIn (m : Int) (mon : List Int) : Outcome Bool := dayIsIn m mon

/-- `weekdayIsIn`. -/
def weekdayIsIn (y m d : Int) (wdays : List Int) : Outcome Bool :=
  (index wdays 0).bind fun w0 =>
    if w0 = -1 then Outcome.ret false
    else
      let weekday := (goDate y m d 0 0 0 0 0).Weekday
      Outcome.ret (wdays.any fun wday => wday == weekday)

/-- The loop `for d := 1; d <= lastDay; d++` of `allDatesInMonth`, over the days left; the
date `year*10000+mon*100+d` is a sum of 64-bit integers. -/
def allDatesLoop (year mon : Int) (mday wday : List Int) (alldays : Bool) :
    List Int → List Int → Outcome (List Int)
  | [], dates => Outcome.ret dates.reverse
  | d :: ds, dates =>
      (dayIsIn d mday).bind fun b1 =>
      if b1 then
        allDatesLoop year mon mday wday alldays ds
          (wrapInt64 (year * 10000 + mon * 100 + d) :: dates)
      else
        (weekdayIsIn year mon d wday).bind fun b2 =>
        if b2 || alldays then
          allDatesLoop year mon mday wday alldays ds
            (wrapInt64 (year * 10000 + mon * 100 + d) :: dates)
        else allDatesLoop year mon mday wday alldays ds dates

/-- The integers `a, a+1, ..., b`. -/
def intRange (a b : Int) : List Int := (List.range (b - a + 1).toNat).map fun k => a + (k : Int)

/-- `allDatesInMonth`. -/
def allDatesInMonth (year mon : Int) (mday wday : List Int) : Outcome (List Int) :=
  let lastDay := ((goDate year mon 1 0 0 0 0 0).AddDate 0 1 (-1)).Day
  (index mday 0).bind fun m0 =>
  (if m0 = -1 then (index wday 0).bind fun w0 => Outcome.ret (decide (w0 = -1))
   else Outcome.ret false).bind fun alldays =>
  allDatesLoop year mon mday wday alldays (intRange 1 lastDay) []

/-- One of the month loops of `nextYearDates`: the months `ms` of `year`. The slice `dates`
is kept last element first, so `append(dates, tmp...)` puts the elements of `tmp` in front
one by one. -/
def monthsLoop (year : Int) (mday mon wday : List Int) : List Int → List Int → Outcome (List Int)
  | [], dates => Outcome.ret dates
  | m :: ms, dates =>
      (monIsIn m mon).bind fun b =>
      if b then
        (allDatesInMonth year m mday wday).bind fun tmp =>
          monthsLoop year mday mon wday ms (List.reverseAux tmp dates)
      else monthsLoop year mday mon wday ms dates

/-- The loop `for i := 1; i < maxi; i++` of `nextYearDates`, over the offsets left (`dates`
last element first). -/
def yearsLoop (y0 : Int) (mday mon wday : List Int) : List Int → List Int → Outcome (List Int)
  | [], dates => Outcome.ret dates
  | i :: is, dates =>
      (monthsLoop (y0 + i) mday mon wday (intRange 1 12) dates).bind fun dates1 =>
        yearsLoop y0 mday mon wday is dates1

/-- `nextYearDates(y0, m0, mday, mon, wday)`: the candidate dates from month `m0` of year
`y0` to month `m0` of year `y0 + 5`, in the order they are appended. -/
def nextYearDates (y0 m0 : Int) (mday mon wday : List Int) : Outcome (List Int) :=
  let maxi : Int := 5
  (monthsLoop y0 mday mon wday (intRange m0 12) []).bind fun d1 =>
  (yearsLoop y0 mday mon wday (intRange 1 (maxi - 1)) d1).bind fun d2 =>
  (monthsLoop (y0 + maxi) mday mon wday (intRange 1 m0) d2).bind fun d3 =>
  Outcome.ret d3.reverse

/-- The innermost loop of `nextDateTime`: the first second after `S`. -/
def findSec (S : Int) (secs : List Int) : Option Int := secs.find? fun sec => sec > S

/-- The loop over `mins` of `nextDateTime`: `some` is the value at `break FindTime`. -/
def findMin (hour M S sec0 : Int) (secs : List Int) : List Int → Option Int
  | [] => none
  | min :: mins =>
      if min > M then some (wrapInt64 (hour * 10000 + min * 100 + sec0))
      else if min = M then
        match findSec S secs with
        | some sec => some (wrapInt64 (hour * 10000 + min * 100 + sec))
        | none => findMin hour M S sec0 secs mins
      else findMin hour M S sec0 secs mins

/-- The loop over `hours` of `nextDateTime`. -/
def findHour (H M S min0 sec0 : Int) (mins secs : List Int) : List Int → Option Int
  | [] => none
  | hour :: hours =>
      if hour > H then some (wrapInt64 (hour * 10000 + min0 * 100 + sec0))
      else if hour = H then
        match findMin hour M S sec0 secs mins with
        | some v => some v
        | none => findHour H M S min0 sec0 mins secs hours
      else findHour H M S min0 sec0 mins secs hours

/-- `nextDateTime(d, t, hours, mins, secs)`; the sums are those of 64-bit integers. -/
def nextDateTime (d : Int) (t : Time) (hours mins secs : List Int) : Outcome Int :=
  (index hours 0).bind fun h0 =>
  (index mins 0).bind fun m0 =>
  (index secs 0).bind fun s0 =>
  let hhmmss :=
    (findHour t.Hour t.Minute t.Second m0 s0 mins secs hours).getD
      (wrapInt64 (h0 * 10000 + m0 * 100 + s0))
  Outcome.ret (wrapInt64 (d * 1000000 + hhmmss))

/-- The loop of `Cron.NextStart` that moves every candidate date to the calendar: the first
calendar date not before it, or the date itself past the end of the calendar; a date equal
to the one before it is dropped. `out` is `dates[:n]`, last element first. The result is
the new `dates` and `lastDateInCal`. -/
def calendarLoop (datesIn : List Int) : List Int → List Int → Int → List Int × Int
  | [], out, lastDateInCal => (out.reverse, lastDateInCal)
  | dt :: rest, out, lastDateInCal =>
      let i := SearchInts datesIn dt
      let caldt := if i = datesIn.length then dt else datesIn.getD i.toNat 0
      let last1 := if i = datesIn.length then lastDateInCal else caldt
      match out with
      | prev :: _ =>
          if prev = caldt then calendarLoop datesIn rest out last1
          else calendarLoop datesIn rest (caldt :: out) last1
      | [] => calendarLoop datesIn rest (caldt :: out) last1

/-- What `Cron.NextStart` returns: duration, instant, error (`none` is nil). -/
structure NextResult where
  d : Int
  next : Time
  err : Option String
  deriving DecidableEq, Repr

/-- `time.ParseInLocation` with the error dropped: the zero time on failure. -/
def parseOrZero (value : String) (off : Int) : Time := (ParseInLocation value off).getD ZeroTime

/-- The part of `Cron.NextStart` after the special forms (lines 71 to 217). -/
def nextStartMain (env : Env) (c : Cron) (asof : String) : Outcome NextResult :=
  let m := c.Months
  let d := c.Mdays
  let wd := c.Wdays
  let H := c.Hours
  let M := c.Minutes
  let S := c.Seconds
  let tz := c.Timezone
  let useCal := c.Calendar != "" && c.Calendar != "ALL"
  let rollback := c.Rollback
  let endof := c.EndOf
  (now env tz asof).bind fun t0 =>
  let current := t0.Add Millisecond
  (nextYearDates current.Year current.Month d m wd).bind fun dates0 =>
  if dates0.length = 0 then
    Outcome.ret { d := MaxInt64, next := ZeroTime, err := some "non-triggering Cron" }
  else
  (index dates0 ((dates0.length : Int) - 1)).bind fun lastDate0 =>
  let calO : Outcome (Option (List Int)) :=
    if useCal || rollback then
      if useCal then Outcome.ret (env.readCalendar c.Calendar c.CalendarDirs)
      else
        (NewCron env c.Timezone).bind fun nc =>
        (nextYearDates current.Year current.Month nc.Mdays nc.Months nc.Wdays).bind fun ds =>
          Outcome.ret (some ds)
    else Outcome.ret (some [])
  calO.bind fun calOpt =>
  match calOpt with
  | none => Outcome.ret { d := MaxInt64, next := ZeroTime, err := some "Missing Calendar" }
  | some datesIn =>
  let mapped : List Int × Int :=
    if useCal || rollback then calendarLoop datesIn dates0 [] lastDate0 else (dates0, lastDate0)
  let dates := mapped.1
  let lastDateInCal := mapped.2
  if dates.length = 0 then
    Outcome.ret { d := MaxInt64, next := ZeroTime,
                  err := some "no remaining dates - issue with calendar or cron" }
  else
  let off := (env.loadLocation tz).getD 0
  (index H 0).bind fun h0 =>
  (index M 0).bind fun m0 =>
  (index S 0).bind fun s0 =>
  let firstTime := h0 * 10000 + m0 * 100 + s0
  (index H ((H.length : Int) - 1)).bind fun hl =>
  (index M ((M.length : Int) - 1)).bind fun ml =>
  (index S ((S.length : Int) - 1)).bind fun sl =>
  let lastTime := hl * 10000 + ml * 100 + sl
  let i := SearchInts dates (dateAsInt current)
  let curDate := dateAsInt current
  (index dates i).bind fun di =>
  (if curDate = di then Outcome.ret true
   else if rollback then (index dates (i + 1)).bind fun dj => Outcome.ret (decide (curDate = dj))
   else Outcome.ret false).bind fun today =>
  let chosen : Outcome (Int × Time) :=
    if today then
      if afterLastTime current lastTime || endof then
        (index dates (i + 1)).bind fun runDate0 =>
        (if rollback then
           (index datesIn (SearchInts datesIn runDate0 - 1)).bind fun rd =>
             Outcome.ret (if rd < runDate0 then runDate0 else rd)
         else Outcome.ret runDate0).bind fun runDate =>
        Outcome.ret (runDate, parseOrZero (fmtInt 8 runDate ++ fmtInt 6 firstTime) off)
      else
        (if rollback then
           if curDate < di then index datesIn (SearchInts datesIn di - 1)
           else index datesIn (SearchInts datesIn di)
         else Outcome.ret di).bind fun runDate =>
        (nextDateTime runDate current H M S).bind fun ndt =>
        Outcome.ret (runDate, parseOrZero (fmtInt 0 ndt) off)
    else
      (if rollback || endof then
         (index datesIn (SearchInts datesIn di - 1)).bind fun rd =>
           Outcome.ret
             (if curDate > rd || ((curDate = rd && afterLastTime current lastTime) || di > rd)
              then di else rd)
       else Outcome.ret di).bind fun runDate =>
      Outcome.ret (runDate, parseOrZero (fmtInt 8 runDate ++ fmtInt 6 firstTime) off)
  chosen.bind fun p =>
  let runDate := p.1
  let nextRun0 := p.2
  let err : Option String :=
    if runDate > lastDateInCal then some ("insufficient calendar days in " ++ c.Calendar) else none
  if runDate > lastDateInCal ∧ c.RequireCal = true then
    Outcome.ret { d := MaxInt64, next := ZeroTime, err := err }
  else
  (if c.jitter > 0 then
     (randIntn (env.rnd 6) c.jitter).bind fun j => Outcome.ret (nextRun0.Add (Second * j))
   else Outcome.ret nextRun0).bind fun nextRun =>
  Outcome.ret { d := nextRun.Sub current, next := nextRun, err := err }

/-- `Cron.NextStart(asof)`. -/
def Cron.NextStart (env : Env) (c : Cron) (asof : String) : Outcome NextResult :=
  if c.IsEvery then
    (now env c.Timezone asof).bind fun t =>
      Outcome.ret { d := c.every, next := t.Add c.every, err := none }
  else if c.IsAt then
    let parsed : Outcome Time :=
      match env.loadLocation c.Timezone with
      | some off => Outcome.ret (parseOrZero c.at_ off)
      | none =>
          match ParseInLocation c.at_ 0 with
          | some _ => Outcome.panicked
          | none => Outcome.ret ZeroTime
    parsed.bind fun nextRun =>
    (now env c.Timezone asof).bind fun t =>
    let d := nextRun.Sub (t.Add Millisecond)
    if d < 0 then Outcome.ret { d := MaxInt64, next := ZeroTime, err := some "@at has passed" }
    else Outcome.ret { d := d, next := nextRun, err := none }
  else if c.IsNull || c.isDependent then
    Outcome.ret { d := MaxInt64, next := ZeroTime, err := some "non-triggering Cron" }
  else nextStartMain env c asof

/-- `getNextStart`. -/
def getNextStart (env : Env) (cron : Cron) : Outcome (Int × Time) :=
  if cron.IsEvery then
    (now env cron.Timezone "").bind fun t => Outcome.ret (cron.every, t.Add cron.every)
  else if cron.IsAt then
    (cron.NextStart env "").bind fun r => Outcome.ret (r.d, r.next)
  else if cron.IsNull || cron.isDependent then Outcome.ret (MaxInt64, ZeroTime)
  else (cron.NextStart env "").bind fun r => Outcome.ret (r.d, r.next)

/-- The loop of `NextCronStart`: `i` is the index of the head of the crons left, `acc` the
current `(d, next)`. -/
def nextCronStartLoop (env : Env) : List Cron → Nat → Int × Time → Outcome (Int × Time)
  | [], _, acc => Outcome.ret acc
  | c :: cs, i, acc =>
      (getNextStart env c).bind fun r =>
        if i = 0 ∨ acc.1 > r.1 then nextCronStartLoop env cs (i + 1) r
        else nextCronStartLoop env cs (i + 1) acc

/-- `NextCronStart(cron)`. -/
def NextCronStart (env : Env) (cron : List Cron) : Outcome (Int × Time) :=
  nextCronStartLoop env cron 0 (0, ZeroTime)

/-- The lexicographic order on times of day `(hour, minute, second)`: `a` is before `b`. -/
def lexLt (a b : Int × Int × Int) : Prop :=
  a.1 < b.1 ∨ (a.1 = b.1 ∧ (a.2.1 < b.2.1 ∨ (a.2.1 = b.2.1 ∧ a.2.2 < b.2.2)))

/-- The specification of the day filter of `allDatesInMonth`, in the words of the
specification: day `d` of the month matches when it is in the month-day set or its weekday
is in the weekday set, a set whose first element is the sentinel `-1` matching no day, and
every day matches when both sets are the sentinel. -/
def specDayMatches (year mon : Int) (mday wday : List Int) (d : Int) : Bool :=
  let mdaySentinel : Bool := mday.head? == some (-1)
  let wdaySentinel : Bool := wday.head? == some (-1)
  (!mdaySentinel && mday.contains d) ||
    (!wdaySentinel && wday.contains (goDate year mon d 0 0 0 0 0).Weekday) ||
    (mdaySentinel && wdaySentinel)

/-- The specification of `allDatesInMonth`: the days `1, 2, ...` up to the last day of the
month that match, in this order, each as the number `YYYYMMDD`. -/
def specAllDatesInMonth (year mon : Int) (mday wday : List Int) : List Int :=
  ((intRange 1 ((goDate year mon 1 0 0 0 0 0).AddDate 0 1 (-1)).Day).filter
    (specDayMatches year mon mday wday)).map fun d => year * 10000 + mon * 100 + d

/-! ## job.go : the job record -/

/-- The struct `Reason`. -/
structure Reason where
  Action : String
  Comment : String
  User : String
  Timestamp : Int
  deriving DecidableEq, Repr

/-- The zero value `Reason{}`. -/
def Reason.zero : Reason := { Action := "", Comment := "", User := "", Timestamp := 0 }

/-- The struct `Reset`. -/
structure Reset where
  Retry : String
  Missed : String
  Hold : String
  deriving DecidableEq, Repr

/-- The struct `JobsControl` (without its lock). -/
structure JobsControl where
  Delay : String
  MaxConcurrent : Int
  MaxFailures : Int
  nfailures : Int
  deriving DecidableEq, Repr

/-- The zero value `JobsControl{}`. -/
def JobsControl.zero : JobsControl :=
  { Delay := "", MaxConcurrent := 0, MaxFailures := 0, nfailures := 0 }

/-- The struct `JobLogging` (without its timer and its list of written logs; its fields
`stdoutFile` and `stderrFile` are fields of the job record here). -/
structure JobLogging where
  StdoutFile : String
  StderrFile : String
  Append : Bool
  Purge : String
  purge : Int
  deriving DecidableEq, Repr

/-- The zero value `JobLogging{}`. -/
def JobLogging.zero : JobLogging :=
  { StdoutFile := "", StderrFile := "", Append := false, Purge := "", purge := 0 }

/-- The struct `AlertActions`. The functions modelled here copy it as a whole; its content
is kept as the text of the configuration. -/
structure AlertActions where
  text : String
  deriving DecidableEq, Repr

/-- The struct `Artifacts`, copied as a whole like `AlertActions`. -/
structure Artifacts where
  text : String
  deriving DecidableEq, Repr

/-- The type `Permission`: a map from an action to the users allowed. -/
abbrev Permission := List (String × List String)

/-- The struct `Dependency`. -/
structure Dependency where
  Dependencies : List (String × String)
  Action : String
  Condition : String
  N : Int
  Trigger : String
  All : Bool
  UpdateDep : Bool
  Delay : String
  QueueJobs : Bool
  deriving DecidableEq, Repr

/-- The `JobHistory` record appended by `addHistory`. -/
structure JobHistory where
  RunUUID : String
  ExitCode : Int
  JobStateString : String
  JobStateAbb : String
  RetryAttempt : Int
  Start : String
  StartUNIX : Int
  Stop : String
  Elapsed : String
  Stdout : String
  Stderr : String
  CmdEval : String
  Unscheduled : Bool
  Reason : Reason
  deriving DecidableEq, Repr

/-- The struct `Job` (without its channels, locks, timers and process handles). The fields
from `Name` on read as the zero value when a record is written without them; `warnings`
is the list of warnings of `jve`, `_location` the offset of the loaded location. -/
structure Job where
  JobState : JState
  JobStateString : String
  PrevJobState : JState
  PrevJobStateString : String
  History : List JobHistory
  MaxHistory : Int
  modified : Int
  RetryReset : String
  MissedReset : String
  HoldDuration : String
  RunUUID : String
  ExitCode : Int
  RetryAttempt : Int
  Started : String
  StartedUNIX : Int
  PrevStop : String
  Elapsed : String
  stdoutFile : String
  stderrFile : String
  CmdEval : String
  Unscheduled : Bool
  Reason : Reason
  Name : String := ""
  Description : String := ""
  Comment : String := ""
  JobUUID : String := "00000000-0000-0000-0000-000000000000"
  Type_ : Option String := none
  Tags : List String := []
  Group : Option (List String) := none
  Disabled : Bool := false
  Inherits : Option String := none
  InheritanceChain : List String := []
  Cmd : Option String := none
  ShutdownCmd : String := ""
  ShutdownCmdEval : String := ""
  ShutdownSig : String := ""
  JobsControl : Option JobsControl := none
  Shell : String := ""
  Env : Option (List String) := none
  DateEnv : Option (List String) := none
  LocalEnv : List String := []
  LocalDateEnv : List String := []
  AlertActions : AlertActions := { text := "" }
  Timezone : String := ""
  Calendar : String := ""
  CalendarDirs : List String := []
  Rollback : Bool := false
  RequireCal : Bool := false
  StartDay : String := ""
  StartTime : String := ""
  EndDay : String := ""
  EndTime : String := ""
  CronStart : Option String := none
  CronStartArray : Option (List String) := none
  CronEnd : Option String := none
  CronEndArray : Option (List String) := none
  CronRestart : Option String := none
  StartRule : String := ""
  Jitter : Int := 0
  Dependency : List Dependency := []
  Artifacts : Artifacts := { text := "" }
  Retry : Int := 0
  RetryWait : String := ""
  MaxDuration : String := ""
  MinRuntime : String := ""
  MaxRuntime : String := ""
  Reset : Option Reset := none
  HoldOnMissed : Bool := false
  TmpDir : String := ""
  Logging : JobLogging := JobLogging.zero
  Host : String := ""
  User : String := ""
  Permissions : Option Permission := none
  Admin : List String := []
  ServerName : String := ""
  ServerKey : String := ""
  TickIntervalSecs : Int := 0
  TickMissedThresholdSecs : Int := 0
  Pid : Int := 0
  Restarting : Bool := false
  IsRunning : Bool := false
  Hold : Bool := false
  Failed : Bool := false
  Updating : Bool := false
  src : String := ""
  apiKey : String := ""
  warnings : List String := []
  cronStart : Cron := Cron.zero
  cronStartArray : List Cron := []
  cronEnd : Cron := Cron.zero
  cronEndArray : List Cron := []
  cronRestart : Cron := Cron.zero
  _location : Int := 0
  deriving DecidableEq

/-- `Job.isValidJobStateChange`: the legality table, target state `s` from `job.JobState`. -/
def isValidJobStateChange (job : Job) (s : JState) : Bool :=
  let cur := job.JobState
  match s with
  | JRestart => cur == JRunning
  | JRunning | JManual =>
      cur == JStopped || cur == JSuccess || cur == JManualSuccess || cur == JReady ||
      cur == JWarning || cur == JWarning2 || cur == JWarning3 || cur == JRetrying ||
      cur == JRetryWait || cur == JHold || cur == JContingent || cur == JEnd ||
      cur == JFailed || cur == JRestart || cur == JRetryFailed || cur == JDepWarning ||
      cur == JDepRetry || cur == JDepFailed || cur == JMissedError || cur == JMissedWarning
  | JStopping => cur == JRunning || cur == JRetrying
  | JStopped | JSuccess | JEnd | JManualSuccess =>
      cur == JStopping || cur == JRunning || cur == JManual || cur == JRetrying ||
      cur == JRetryWait || cur == JRestart || cur == JReady || cur == JSuccess ||
      cur == JEnd || cur == JManualSuccess
  | JFailed =>
      cur == JReady || cur == JRunning || cur == JStopping || cur == JRetryFailed ||
      cur == JRetryWait
  | JRetryFailed =>
      cur == JRetrying || cur == JRunning || cur == JFailed || cur == JStopping
  | JRetrying | JRetryWait =>
      cur == JFailed || cur == JRetryFailed || cur == JRetryWait
  | JHold | JReady | JContingent =>
      cur == JHold || cur == JReady || cur == JContingent || cur == JRetryFailed ||
      cur == JFailed || cur == JSuccess || cur == JManualSuccess || cur == JEnd ||
      cur == JStopped || cur == JStopping || cur == JWarning || cur == JWarning2 ||
      cur == JWarning3 || cur == JMissedError || cur == JMissedWarning ||
      cur == JDepWarning || cur == JDepFailed || cur == JUnknown
  | JReset | JMissedError | JMissedWarning | JDepWarning | JDepRetry | JDepFailed => true
  | JUnknown => cur == JRunning || cur == JRetrying
  | _ => false

/-- `Job.addHistory`: prepend a record of the current run, keep at most `MaxHistory`. -/
def addHistory (job : Job) : Job :=
  let kabb : String :=
    match job.JobState with
    | JSuccess => "S"
    | JFailed => "F"
    | JRetryFailed => "R"
    | JEnd => "E"
    | JStopped => "s"
    | JWarning => "W"
    | JHold => "H"
    | _ => ""
  let jh : JobHistory :=
    { RunUUID := job.RunUUID, ExitCode := job.ExitCode, JobStateString := job.JobStateString,
      JobStateAbb := kabb, RetryAttempt := job.RetryAttempt, Start := job.Started,
      StartUNIX := job.StartedUNIX, Stop := job.PrevStop, Elapsed := job.Elapsed,
      Stdout := job.stdoutFile, Stderr := job.stderrFile, CmdEval := job.CmdEval,
      Unscheduled := job.Unscheduled, Reason := job.Reason }
  let h := jh :: job.History
  if (h.length : Int) = job.MaxHistory + 1 then { job with History := h.dropLast }
  else { job with History := h }

/-- What `setJobState` does besides updating the job record. -/
inductive JobEffect where
  /-- A line written to the server log. -/
  | log (msg : String)
  /-- A call of `time.AfterFunc` with the duration string that was parsed. -/
  | afterFunc (duration : String)
  /-- A call of `SaveSnapshot`. -/
  | saveSnapshot
  deriving DecidableEq, Repr

/-- The outcome of `setJobState`: the job record afterwards, the returned error
(`none` is Go's `nil`) and the effects performed. -/
structure SetJobStateResult where
  job : Job
  err : Option String
  effects : List JobEffect
  deriving DecidableEq

/-- `Job.setJobState`; `unixNow` is the value of `time.Now().Unix()` at the call. -/
def setJobState (job : Job) (s : JState) (unixNow : Int) : SetJobStateResult :=
  if s = job.JobState then
    { job := job, err := none, effects := [] }
  else if !isValidJobStateChange job s then
    { job := job, err := some "unable to set job state",
      effects := [JobEffect.log "setJobState"] }
  else
    let job1 : Job :=
      { job with
        PrevJobState := job.JobState
        PrevJobStateString := job.JobStateString
        JobState := s
        JobStateString := s.String
        modified := unixNow }
    let (job2, eff) : Job × List JobEffect :=
      match s with
      | JFailed =>
          (addHistory job1,
            JobEffect.log "checking for RetryReset" ::
              (if job1.RetryReset ≠ "" then [JobEffect.afterFunc job1.RetryReset] else []))
      | JMissedWarning =>
          (addHistory job1,
            JobEffect.log "checking for MissedReset" ::
              (if job1.MissedReset ≠ "" then [JobEffect.afterFunc job1.MissedReset] else []))
      | JHold => (addHistory job1, [JobEffect.log "checking for HoldDuration"])
      | JSuccess | JManualSuccess | JEnd | JRetryFailed | JDepWarning | JDepFailed =>
          (addHistory job1, [])
      | _ => (job1, [])
    { job := job2, err := none,
      effects := eff ++ [JobEffect.saveSnapshot, JobEffect.log "State Change"] }

/-- `Job.getRetryWait(retry)`: the entry of the comma-separated `RetryWait` for this retry,
the last entry from the length of the series on; the error of `time.ParseDuration` is
dropped, which leaves the duration 0. -/
def getRetryWait (env : Env) (job : Job) (retry : Int) : Outcome Int :=
  let waitTimes := Split job.RetryWait ','
  (index waitTimes ((waitTimes.length : Int) - 1)).bind fun last =>
  (if retry < (waitTimes.length : Int) then index waitTimes (retry - 1)
   else Outcome.ret last).bind fun wait =>
  Outcome.ret ((env.parseDuration wait).getD 0)

/-! ## tik.go : the supervisor of a job

`RegisterJob` is followed through its outer loop and its retry loop. What it receives from
outside (the flags of the job read at each test, the error of `WaitForTrigger`, the exit
status sent by `runTik`, the values `reloadJobs` writes to `job.Retry`) is given in advance,
turn by turn; the execution stops where the given input ends. The field `job.Retry` is
shared with `reloadJobs` (`main.go`), which writes it holding `job.runlock`; the supervisor
holds that lock from line 94 to the end of the turn, so a reload takes place while the
supervisor waits for the trigger at the top of the outer loop, and the tests of lines 197
and 254 read the value of the last reload. The trace lists the pairs of `RetryAttempt` and
`Retry` after every write of one of the two fields, by `setRetryAttempt` or by a reload. -/

/-- What one turn of the retry loop (lines 190 to 277) reads. -/
structure RetryInput where
  /-- The flag `job.Hold` at line 194. -/
  hold : Bool
  /-- The flag `job.Restarting` at line 200. -/
  restarting : Bool
  /-- Whether `WaitForTrigger` returns an error at line 207. -/
  stopped : Bool
  /-- The status received from `job.status` at line 223. -/
  status : Int
  deriving DecidableEq, Repr

/-- What one turn of the outer loop (lines 84 to 279) reads, with the turns of its retry
loop. -/
structure Turn where
  /-- Whether `WaitForTrigger` returns an error at line 86. -/
  stopped : Bool
  /-- The flag `job.Updating` at line 100. -/
  updating : Bool
  /-- The flag `job.Hold` at line 108. -/
  hold1 : Bool
  /-- The flag `job.Hold` at line 129. -/
  hold2 : Bool
  /-- The status received from `job.status` at line 154. -/
  status : Int
  /-- The flag `job.Hold` at line 183. -/
  hold3 : Bool
  /-- The input of the retry loop of this turn. -/
  retries : List RetryInput
  /-- The values that `reloadJobs` writes to `job.Retry` (`main.go`, line 555) while the
  supervisor waits for the trigger at line 86, in order; empty when no reload updates the
  job then. -/
  reloads : List Int := []
  deriving DecidableEq, Repr

/-- The variables `retry` and `s` of `RegisterJob`, the fields `Retry` and `RetryAttempt`
of the job, and the pairs (`RetryAttempt`, `Retry`) after every write of one of the two
fields so far, the latest first. -/
structure SupState where
  retry : Int
  s : Int
  Retry : Int
  RetryAttempt : Int
  trace : List (Int × Int)
  deriving DecidableEq, Repr

/-- The call `job.setRetryAttempt(retry)`. -/
def SupState.setRetryAttempt (st : SupState) : SupState :=
  { st with RetryAttempt := st.retry, trace := (st.retry, st.Retry) :: st.trace }

/-- The assignment `job.Retry = jobs[id].Retry` of `reloadJobs`. -/
def SupState.reload (st : SupState) (R : Int) : SupState :=
  { st with Retry := R, trace := (st.RetryAttempt, R) :: st.trace }

/-- How the retry loop is left. -/
inductive LoopExit where
  /-- By `break`. -/
  | broke
  /-- By `return`, on an error of `WaitForTrigger`. -/
  | returned
  /-- The given input ended inside the loop. -/
  | pending
  deriving DecidableEq, Repr

/-- The block `if s != 0 && job.Retry > retry` of the retry loop (lines 197 to 242): one
more attempt, or a restart from attempt 0, then the run and its status. The flag tells
that `RegisterJob` returned on an error of `WaitForTrigger`. -/
def retryRun (inp : RetryInput) (st1 : SupState) : SupState × Bool :=
  if st1.s ≠ 0 ∧ st1.Retry > st1.retry then
    let st2 : SupState :=
      if inp.restarting = false then ({ st1 with retry := st1.retry + 1 }).setRetryAttempt
      else ({ st1 with retry := 0 }).setRetryAttempt
    if inp.restarting = false ∧ inp.stopped = true then (st2, true)
    else
      let st3 := { st2 with s := inp.status }
      (if st3.s = 0 then ({ st3 with retry := 0 }).setRetryAttempt else st3, false)
  else (st1, false)

/-- The retry loop of `RegisterJob` (lines 190 to 277); it runs with the run lock held, so
`job.Retry` does not change in it. -/
def retryLoop : List RetryInput → SupState → SupState × LoopExit
  | [], st => (st.setRetryAttempt, LoopExit.pending)
  | inp :: rest, st0 =>
      let st1 := st0.setRetryAttempt
      if st1.s = 0 ∨ inp.hold = true then (st1, LoopExit.broke)
      else
        let afterRun := retryRun inp st1
        if afterRun.2 then (afterRun.1, LoopExit.returned)
        else if afterRun.1.Retry = afterRun.1.retry then
          (({ afterRun.1 with retry := 0 }).setRetryAttempt, LoopExit.broke)
        else retryLoop rest afterRun.1

/-- The outer loop of `RegisterJob` (lines 84 to 279): `setRetryAttempt(retry)`, then the
wait for the trigger, during which the reloads of the turn take place. -/
def supervisorLoop : List Turn → SupState → SupState
  | [], st => st.setRetryAttempt
  | t :: ts, st0 =>
      let st1 := t.reloads.foldl SupState.reload st0.setRetryAttempt
      if t.stopped then st1
      else if t.updating then supervisorLoop ts st1
      else if t.hold1 then supervisorLoop ts st1
      else
        let st2 := if t.hold2 = false then { st1 with s := t.status } else st1
        if t.hold3 then supervisorLoop ts st2
        else
          match retryLoop t.retries st2 with
          | (st3, LoopExit.broke) => supervisorLoop ts st3
          | (st3, LoopExit.returned) => st3
          | (st3, LoopExit.pending) => st3

/-- The pairs of `RetryAttempt` and `Retry` after every write of one of them, in order, for
the `Retry` configured at the start and the given input (`retry := 0` and `s` zero at the
start; the first write is `setRetryAttempt(0)`, so the `RetryAttempt` the job starts with
has no part in it). -/
def RegisterJob (Retry : Int) (turns : List Turn) : List (Int × Int) :=
  (supervisorLoop turns
    { retry := 0, s := 0, Retry := Retry, RetryAttempt := 0, trace := [] }).trace.reverse

/-- The values that the reloads of the given turns write to `job.Retry`, in order. -/
def reloadsOf (turns : List Turn) : List Int := turns.flatMap fun t => t.reloads

/-- The invariant of the supervisor: `retry` and `RetryAttempt` are at most `Retry`, which
is not negative, and so was `RetryAttempt` after every write so far. -/
def SupState.bounded (st : SupState) : Prop :=
  st.retry ≤ st.Retry ∧ st.RetryAttempt ≤ st.Retry ∧ 0 ≤ st.Retry ∧
    ∀ p ∈ st.trace, p.1 ≤ p.2

/-! ## depends.go

A Go map with string keys is a list of key-value pairs with distinct keys; a `range` loop
over the map visits the pairs in the order of the list (Go leaves the order open, and the
list is arbitrary). -/

/-- The map read `m[k]`, with the zero value `dflt` for a missing key. -/
def mapGet {β : Type} (m : List (String × β)) (k : String) (dflt : β) : β :=
  (m.lookup k).getD dflt

/-- The map write `m[k] = v`. -/
def mapSet {β : Type} (m : List (String × β)) (k : String) (v : β) : List (String × β) :=
  if m.any (fun p => p.1 == k) then m.map (fun p => if p.1 == k then (k, v) else p)
  else m ++ [(k, v)]

/-- The struct `depEvt`; `JobUUID` is the string form of the id. -/
structure depEvt where
  JobUUID : String
  Name : String
  JobState : JState
  deriving DecidableEq, Repr

/-- The fields of the owner job (`client.job`) that the evaluator reads or writes:
`IsRunning` and `JobsControl.nfailures`. -/
structure OwnerJob where
  IsRunning : Bool
  nfailures : Int
  deriving DecidableEq, Repr

/-- The struct `DependencyClient` (without its channels). -/
structure DependencyClient where
  states : List (String × Bool)
  statenames : List (String × String)
  completed : List (String × Bool)
  run : Bool
  trigger : Bool
  contingent : Bool
  job : OwnerJob
  dependency : Dependency
  deriving DecidableEq, Repr

/-- `DependencyClientPool.AddClient`, the client it registers: every key unlatched, `N = 0`
replaced by 1 for the condition `any`. `isDependent` and `isController` are
`job.cronStart.isDependent()` and `job.isController()`; the empty `Dependencies` stands for
the nil map. (The calls `setJobState(JContingent)` and `setContingent(true)` on the owner are
effects on the job record, not on the client.) -/
def AddClient (job : OwnerJob) (dep : Dependency) (isDependent isController : Bool) :
    DependencyClient :=
  let states := dep.Dependencies.foldl (fun m p => mapSet m p.1 false) []
  let completed := dep.Dependencies.foldl (fun m p => mapSet m p.1 false) []
  let dep1 := if dep.N = 0 ∧ dep.Condition = "any" then { dep with N := 1 } else dep
  let trigger := isDependent || isController
  let contingent := !trigger && !dep.Dependencies.isEmpty
  { states := states, statenames := [], completed := completed, run := false,
    trigger := trigger, contingent := contingent, job := job, dependency := dep1 }

/-- `DependencyClient.dependenciesSatisfied`. -/
def dependenciesSatisfied (client : DependencyClient) : Bool :=
  client.states.all fun p => p.2

/-- `DependencyClient.resetDependencies`. -/
def resetDependencies (client : DependencyClient) : DependencyClient :=
  let ids := client.states.map Prod.fst
  { client with
    states := ids.foldl (fun m id => mapSet m id false) client.states
    completed := ids.foldl (fun m id => mapSet m id false) client.completed
    statenames := ids.foldl (fun m id => mapSet m id "") client.statenames
    run := false }

/-- The states that put the evaluation on the dep-not-ok path. -/
def badStates : List String :=
  ["failed", "retrying", "held", "stopped", "warning", "warning2", "warning3", "depwarning",
   "depfailed", "depretry"]

/-- The first loop of `CheckDependency`, over the pairs of `d.Dependencies` left.
`isDependencyOf` is the flag of the source; the result `none` is the early return of the
dep-not-ok path (with `isDepNotOK = true`). -/
def checkKeys (d : Dependency) (e : depEvt) (jstate : String) :
    List (String × String) → DependencyClient → Bool → DependencyClient × Option Bool
  | [], client, isDependencyOf => (client, some isDependencyOf)
  | (uuid, trigger) :: rest, client, isDependencyOf =>
      let triggers := Split trigger '|'
      if e.JobUUID == uuid || e.Name == uuid then
        if stringInSlice jstate triggers then
          let c1 :=
            if jstate == "success" && d.Action == "completed_success"
            then { client with completed := mapSet client.completed uuid true } else client
          let c2 := { c1 with statenames := mapSet c1.statenames uuid jstate,
                              states := mapSet c1.states uuid true }
          let c3 :=
            if jstate == "failed" && d.Action == "completed_failed"
            then { c2 with job := { c2.job with nfailures := c2.job.nfailures + 1 } } else c2
          let c4 :=
            if !stringInSlice jstate triggers && d.UpdateDep
            then { c3 with states := mapSet c3.states uuid false } else c3
          checkKeys d e jstate rest c4 true
        else if stringInSlice jstate badStates then
          ({ client with statenames := mapSet client.statenames uuid jstate }, none)
        else
          let c4 :=
            if !stringInSlice jstate triggers && d.UpdateDep
            then { client with states := mapSet client.states uuid false } else client
          checkKeys d e jstate rest c4 true
      else checkKeys d e jstate rest client isDependencyOf

/-- The loop of the condition `all`: the conjunction of the latches of the keys. -/
def allLoop (client : DependencyClient) : List (String × String) → Bool → Bool
  | [], isOK => isOK
  | (uuid, _) :: rest, isOK => allLoop client rest (isOK && mapGet client.states uuid false)

/-- The loop of the condition `any`: count the latches, stop with `true` as soon as the
count `N` reaches `d.N`. -/
def anyLoop (client : DependencyClient) (dN : Int) : List (String × String) → Int → Bool
  | [], _ => false
  | (uuid, _) :: rest, N =>
      let N1 := if mapGet client.states uuid false then N + 1 else N
      if N1 ≥ dN then true else anyLoop client dN rest N1

/-- What `CheckDependency` returns, and the client afterwards. -/
structure CheckResult where
  isOK : Bool
  isDepNotOK : Bool
  client : DependencyClient
  deriving DecidableEq, Repr

/-- `DependencyClient.CheckDependency(d, e)`. -/
def CheckDependency (client : DependencyClient) (d : Dependency) (e : depEvt) : CheckResult :=
  let jstate0 := e.JobState.String
  let jstate := if jstate0 == "manualsuccess" then "success" else jstate0
  let deps := d.Dependencies
  match checkKeys d e jstate deps client false with
  | (c1, none) => { isOK := false, isDepNotOK := true, client := c1 }
  | (c1, some false) => { isOK := false, isDepNotOK := false, client := c1 }
  | (c1, some true) =>
      let isOK1 :=
        if d.Condition == "all" then allLoop c1 deps true
        else if d.Condition == "any" then anyLoop c1 d.N deps 0
        else false
      let running := c1.job.IsRunning && stringInSlice d.Action ["start", "cronstart"]
      let c2 := if running && !d.QueueJobs then resetDependencies c1 else c1
      let isOK2 := if running then false else isOK1
      if d.Action == "start" && decide (c2.job.nfailures > d.N) then
        let c3 := resetDependencies c2
        { isOK := false, isDepNotOK := false,
          client := { c3 with job := { c3.job with nfailures := 0 } } }
      else { isOK := isOK2, isDepNotOK := false, client := c2 }

/-- What `watch` does to the owner job, in the order of the calls (lines of the log are not
recorded). -/
inductive WatchEffect where
  /-- A call of `time.Sleep` with the duration in nanoseconds. -/
  | sleep (d : Int)
  /-- A call of `client.job.resetTimer` with the duration in nanoseconds. -/
  | resetTimer (d : Int)
  | setHold (h : Bool)
  | setJobState (s : JState)
  | setContingent (h : Bool)
  | resetContingency
  | sendUpdate
  | stopJob (s : JState)
  /-- A `Ctl` with the given code sent on `client.job.Ctl`. -/
  | ctl (code : JState)
  deriving DecidableEq, Repr

/-- `DependencyClient.delay`: a sleep of the `Delay` of the dependency, a fatal exit when
the delay does not parse. -/
def clientDelay (env : Env) (d : DependencyClient) : Outcome (List WatchEffect) :=
  if d.dependency.Delay ≠ "" then
    match env.parseDuration d.dependency.Delay with
    | none => Outcome.fatal
    | some delay => Outcome.ret [WatchEffect.sleep delay]
  else Outcome.ret []

/-- The `switch dep.Action` of `watch` (lines 296 to 354) for a client that triggers. -/
def triggerAction (env : Env) (client : DependencyClient) (dep : Dependency) :
    Outcome (DependencyClient × List WatchEffect) :=
  if dep.Action = "start" then
    if !client.run then
      (clientDelay env client).bind fun eff =>
        Outcome.ret ({ client with run := true }, eff ++ [WatchEffect.resetTimer 0])
    else Outcome.ret (client, [])
  else if dep.Action = "cronstart" then
    if !client.run then
      Outcome.ret (client,
        [WatchEffect.setHold false, WatchEffect.setJobState JReady,
         WatchEffect.resetContingency, WatchEffect.sendUpdate])
    else Outcome.ret (client, [])
  else if dep.Action = "stop" then
    Outcome.ret ({ client with run := false },
      if client.job.IsRunning then [WatchEffect.stopJob JStopped] else [])
  else if dep.Action = "restart" then
    (clientDelay env client).bind fun eff =>
      Outcome.ret ({ client with run := true },
        eff ++ [WatchEffect.stopJob JEnd, WatchEffect.sleep Second, WatchEffect.resetTimer 0])
  else if dep.Action = "ready" then
    Outcome.ret (resetDependencies { client with run := false },
      [WatchEffect.stopJob JStopped, WatchEffect.setHold false, WatchEffect.setJobState JReady,
       WatchEffect.sendUpdate])
  else if dep.Action = "completed_failed" then
    Outcome.ret (resetDependencies client, [WatchEffect.ctl JFailed])
  else if dep.Action = "completed_stopped" then
    Outcome.ret (client, [WatchEffect.ctl JStopped])
  else if dep.Action = "completed_success" then
    Outcome.ret (client, [WatchEffect.ctl JSuccess])
  else Outcome.ret (client, [])

/-- The body of the loop of `DependencyClient.watch` for one event received on
`client.evts`: the client afterwards and the effects on the owner job. `every` is
`client.job.cronStart.every`. -/
def watchStep (env : Env) (every : Int) (client : DependencyClient) (e : depEvt) :
    Outcome (DependencyClient × List WatchEffect) :=
  let dep := client.dependency
  let r := CheckDependency client dep e
  let triggered : Outcome (DependencyClient × List WatchEffect) :=
    if r.isOK then
      let c1 := resetDependencies r.client
      if c1.trigger then
        (triggerAction env c1 dep).bind fun p =>
          Outcome.ret (p.1, p.2 ++ (if dep.QueueJobs then [WatchEffect.sleep Second] else []))
      else if c1.contingent then
        Outcome.ret (c1,
          [WatchEffect.setJobState JReady, WatchEffect.setContingent false] ++
            (if every > 0 then [WatchEffect.resetTimer every] else []) ++
            [WatchEffect.sendUpdate])
      else Outcome.ret (c1, [])
    else Outcome.ret (r.client, [])
  triggered.bind fun p =>
    if r.isDepNotOK then
      let state :=
        match e.JobState with
        | JRetrying => JDepRetry
        | JFailed => JDepFailed
        | _ => JDepWarning
      Outcome.ret (resetDependencies p.1,
        p.2 ++ [WatchEffect.setHold false, WatchEffect.setJobState state,
                WatchEffect.sendUpdate])
    else Outcome.ret p

/-- `DependencyClient.watch` on the events it receives, in order, as long as the owner job
keeps the flags the client starts with: the client and the effects when the events are
used up. -/
def watch (env : Env) (every : Int) :
    List depEvt → DependencyClient → List WatchEffect →
      Outcome (DependencyClient × List WatchEffect)
  | [], client, effects => Outcome.ret (client, effects)
  | e :: rest, client, effects =>
      (watchStep env every client e).bind fun p => watch env every rest p.1 (effects ++ p.2)

/-! ## config.go : job specifications and templates

A `*T` field of the source is an `Option`, `none` for `nil`; so is a slice or map that the
source tests against `nil`. Values behind pointers are copied: that two specifications can
share one list through a pointer (`Env`, `DateEnv`, `Dependency`) is outside this model. An id
(`uuid.UUID`) is kept in its string form. -/

/-- The string form of the zero id. -/
def zeroUUID : String := "00000000-0000-0000-0000-000000000000"

/-- The struct `JobSpec`; `J` is the type of the entries of `Jobs`. Every field has the zero
value of its Go type as default, so that `{ Name := n }` reads as `JobSpec{Name: n}`. -/
structure JobSpecOf (J : Type) where
  Name : String := ""
  Description : String := ""
  Comment : String := ""
  Type_ : Option String := none
  Tags : Option (List String) := none
  Group : Option (List String) := none
  Inherits : Option String := none
  InheritanceChain : List String := []
  Hold : Option Bool := none
  Disabled : Bool := false
  Hidden : Bool := false
  Shell : Option String := none
  Cmd : Option String := none
  ShutdownCmd : String := ""
  ShutdownSig : String := ""
  Env : Option (List String) := none
  DateEnv : Option (List String) := none
  ExitState : List String := []
  AlertActions : Option AlertActions := none
  Jobs : Option (List J) := none
  JobsControl : Option JobsControl := none
  Timezone : Option String := none
  Calendar : Option String := none
  CalendarDirs : Option (List String) := none
  Rollback : Option Bool := none
  RequireCal : Option Bool := none
  CronStart : Option (List String) := none
  CronEnd : Option (List String) := none
  CronRestart : Option String := none
  StartDay : Option String := none
  StartTime : Option String := none
  EndDay : Option String := none
  EndTime : Option String := none
  StartRule : Option String := none
  Jitter : Option Int := none
  Retry : Option Int := none
  RetryWait : Option String := none
  RetryReset : Option String := none
  MaxDuration : Option String := none
  MinRuntime : Option String := none
  MaxRuntime : Option String := none
  MissedReset : Option String := none
  Reset : Option Reset := none
  HoldOnMissed : Option Bool := none
  HoldDuration : Option String := none
  Dependency : Option (List Dependency) := none
  Artifacts : Option Artifacts := none
  TmpDir : String := ""
  Logging : Option JobLogging := none
  Host : Option String := none
  User : Option String := none
  Permissions : Option Permission := none
  Admin : Option (List String) := none
  JobUUID : String := zeroUUID
  src : String := ""

/-- The specification of a child of a controller. The source reads of the `Jobs` of a child
only whether they are `nil`, so their entries carry nothing. -/
abbrev ChildSpec := JobSpecOf Unit

/-- The specification of a top-level job: its `Jobs` are the children (the source: "max
one-level nesting"). -/
abbrev JobSpec := JobSpecOf ChildSpec

/-- `JobSpec.isTemplate`. -/
def JobSpecOf.isTemplate {J : Type} (job : JobSpecOf J) : Bool :=
  match job.Type_ with
  | none => false
  | some t => ToUpper t == "TEMPLATE"

/-- The statement `if new != nil { old = new }` on a pointer field. -/
def copyIfSet {α : Type} (new old : Option α) : Option α :=
  match new with
  | some v => some v
  | none => old

/-- The statement `if new != nil { old = *new }` on a field that the job holds by value. -/
def derefIfSet {α : Type} (new : Option α) (old : α) : α :=
  match new with
  | some v => v
  | none => old

/-- `JobSpec.copyTemplate`: the receiver `job` after the call. -/
def copyTemplate {J : Type} (job spec : JobSpecOf J) : JobSpecOf J :=
  { job with
    Tags := copyIfSet spec.Tags job.Tags
    Group :=
      match job.Group, spec.Group with
      | none, none => some [job.Name]
      | none, some g => some g
      | some _, some g => some g
      | some g0, none => some g0
    Type_ := some "template"
    Disabled := true
    Inherits := spec.Inherits
    InheritanceChain :=
      match spec.Inherits with
      | some i => job.InheritanceChain ++ [i]
      | none => job.InheritanceChain
    Cmd := copyIfSet spec.Cmd job.Cmd
    ShutdownCmd := spec.ShutdownCmd
    ShutdownSig := spec.ShutdownSig
    Shell := spec.Shell
    Env :=
      match spec.Env, job.Env with
      | none, e0 => e0
      | some e, none => some e
      | some e, some e0 => some (e0 ++ e)
    DateEnv :=
      match spec.DateEnv, job.DateEnv with
      | none, e0 => e0
      | some e, none => some e
      | some e, some e0 => some (e0 ++ e)
    AlertActions := copyIfSet spec.AlertActions job.AlertActions
    Timezone := copyIfSet spec.Timezone job.Timezone
    Calendar := copyIfSet spec.Calendar job.Calendar
    CalendarDirs := copyIfSet spec.CalendarDirs job.CalendarDirs
    Rollback := spec.Rollback
    RequireCal := spec.RequireCal
    StartDay := copyIfSet spec.StartDay job.StartDay
    StartTime := copyIfSet spec.StartTime job.StartTime
    EndDay := copyIfSet spec.EndDay job.EndDay
    EndTime := copyIfSet spec.EndTime job.EndTime
    CronStart := copyIfSet spec.CronStart job.CronStart
    CronEnd := copyIfSet spec.CronEnd job.CronEnd
    CronRestart := copyIfSet spec.CronRestart job.CronRestart
    StartRule := copyIfSet spec.StartRule job.StartRule
    Dependency := copyIfSet spec.Dependency job.Dependency
    Artifacts := copyIfSet spec.Artifacts job.Artifacts
    Hold := copyIfSet spec.Hold job.Hold
    HoldDuration := copyIfSet spec.HoldDuration job.HoldDuration
    Retry := copyIfSet spec.Retry job.Retry
    RetryWait := copyIfSet spec.RetryWait job.RetryWait
    RetryReset := copyIfSet spec.RetryReset job.RetryReset
    MissedReset := copyIfSet spec.MissedReset job.MissedReset
    Reset := copyIfSet spec.Reset job.Reset
    MaxRuntime := copyIfSet spec.MaxRuntime job.MaxRuntime
    MinRuntime := copyIfSet spec.MinRuntime job.MinRuntime
    MaxDuration := copyIfSet spec.MaxDuration job.MaxDuration
    Logging := copyIfSet spec.Logging job.Logging
    Host := copyIfSet spec.Host job.Host
    User := copyIfSet spec.User job.User
    Permissions := copyIfSet spec.Permissions job.Permissions
    Admin := copyIfSet spec.Admin job.Admin
    src := spec.src }

/-- The zero value `JobHistory{}`. -/
def JobHistory.zero : JobHistory :=
  { RunUUID := "", ExitCode := 0, JobStateString := "", JobStateAbb := "", RetryAttempt := 0,
    Start := "", StartUNIX := 0, Stop := "", Elapsed := "", Stdout := "", Stderr := "",
    CmdEval := "", Unscheduled := false, Reason := Reason.zero }

/-- The zero value `Job{}`. -/
def Job.zero : Job :=
  { JobState := J0, JobStateString := "", PrevJobState := J0, PrevJobStateString := "",
    History := [], MaxHistory := 0, modified := 0, RetryReset := "", MissedReset := "",
    HoldDuration := "", RunUUID := zeroUUID, ExitCode := 0, RetryAttempt := 0, Started := "",
    StartedUNIX := 0, PrevStop := "", Elapsed := "", stdoutFile := "", stderrFile := "",
    CmdEval := "", Unscheduled := false, Reason := Reason.zero }

/-- `Job.copyJobSpec`: the receiver `job` and the specification after the call, a panic
where the source dereferences a `nil` pointer. The `Logging` of a specification comes from
the configuration file, so its `stdoutFile` and `stderrFile` are empty. `newUUID` is the id `uuid.New()` returns when
the call asks for one. The field `Jobs` of a job, which the call leaves `nil`, is not in the
record. -/
def copyJobSpec {J : Type} (env : Env) (newUUID : String) (job : Job) (spec : JobSpecOf J) :
    Outcome (Job × JobSpecOf J) :=
  let uuid := if spec.JobUUID = zeroUUID then newUUID else spec.JobUUID
  let requireCal : Outcome Bool :=
    match spec.Rollback, spec.RequireCal with
    | none, _ => Outcome.ret job.RequireCal
    | some _, some r => Outcome.ret r
    | some _, none => Outcome.panicked
  requireCal.bind fun rc =>
  let timezone := derefIfSet spec.Timezone job.Timezone
  Outcome.ret
    ({ job with
       Name := spec.Name
       Description := spec.Description
       Comment := spec.Comment
       JobUUID := uuid
       Type_ := if spec.Jobs.isSome then some "CONTROLLER" else spec.Type_
       Tags := derefIfSet spec.Tags job.Tags
       Group :=
         match job.Group, spec.Group with
         | none, none => some ["&nbsp;"]
         | none, some g => some g
         | some _, some g => some g
         | some g0, none => some g0
       Disabled := spec.Disabled
       Inherits := spec.Inherits
       Cmd := copyIfSet spec.Cmd job.Cmd
       ShutdownCmd := spec.ShutdownCmd
       ShutdownSig := spec.ShutdownSig
       JobsControl :=
         match spec.JobsControl with
         | some c => some c
         | none => some JobsControl.zero
       Shell := derefIfSet spec.Shell job.Shell
       Env :=
         match spec.Env, job.Env with
         | none, e0 => e0
         | some e, none => some e
         | some e, some e0 => some (e0 ++ e)
       LocalEnv := derefIfSet spec.Env job.LocalEnv
       DateEnv :=
         match spec.DateEnv, job.DateEnv with
         | none, e0 => e0
         | some e, none => some e
         | some e, some e0 => some (e0 ++ e)
       LocalDateEnv := derefIfSet spec.DateEnv job.LocalDateEnv
       AlertActions := derefIfSet spec.AlertActions job.AlertActions
       Timezone := timezone
       Calendar := derefIfSet spec.Calendar job.Calendar
       Rollback := derefIfSet spec.Rollback job.Rollback
       RequireCal := rc
       CronStartArray := copyIfSet spec.CronStart job.CronStartArray
       CronEndArray := copyIfSet spec.CronEnd job.CronEndArray
       CronRestart := copyIfSet spec.CronRestart job.CronRestart
       StartDay := derefIfSet spec.StartDay job.StartDay
       StartTime := derefIfSet spec.StartTime job.StartTime
       EndDay := derefIfSet spec.EndDay job.EndDay
       EndTime := derefIfSet spec.EndTime job.EndTime
       StartRule := derefIfSet spec.StartRule job.StartRule
       Dependency :=
         (derefIfSet spec.Dependency job.Dependency).map fun d =>
           if d.Condition = "" then { d with Condition := "all" } else d
       Artifacts := derefIfSet spec.Artifacts job.Artifacts
       Hold := derefIfSet spec.Hold job.Hold
       HoldDuration := derefIfSet spec.HoldDuration job.HoldDuration
       Retry := derefIfSet spec.Retry job.Retry
       RetryWait := derefIfSet spec.RetryWait job.RetryWait
       RetryReset := derefIfSet spec.RetryReset job.RetryReset
       MissedReset := derefIfSet spec.MissedReset job.MissedReset
       Reset := copyIfSet spec.Reset job.Reset
       HoldOnMissed := derefIfSet spec.HoldOnMissed true
       MaxRuntime := derefIfSet spec.MaxRuntime job.MaxRuntime
       MinRuntime := derefIfSet spec.MinRuntime job.MinRuntime
       MaxDuration := derefIfSet spec.MaxDuration job.MaxDuration
       Logging := derefIfSet spec.Logging job.Logging
       stdoutFile := if spec.Logging.isSome then "" else job.stdoutFile
       stderrFile := if spec.Logging.isSome then "" else job.stderrFile
       CalendarDirs := derefIfSet (spec.CalendarDirs.map fun ds => ds.map env.abs) job.CalendarDirs
       Host := derefIfSet spec.Host job.Host
       User := derefIfSet spec.User job.User
       Permissions := copyIfSet spec.Permissions job.Permissions
       Admin := derefIfSet spec.Admin job.Admin
       _location := (env.loadLocation timezone).getD 0
       History := List.replicate 10 JobHistory.zero
       src := spec.src },
     { spec with JobUUID := uuid })

/-- The result of `LoadTemplates`; `err` holds the messages of the validation errors, it is
empty for a `nil` error. -/
structure LoadTemplatesOutput where
  templates : List (String × JobSpec)
  allJobNames : List String
  err : List String

/-- The first loop over the specifications in `LoadTemplates` and `LoadJobSpec`: a template
is disabled. -/
def disableTemplates (specs : List JobSpec) : List JobSpec :=
  specs.map fun s => if s.isTemplate then { s with Disabled := true } else s

/-- The loop of `LoadTemplates` that builds `job_templates`: the first template of a name is
kept, a later one of the same name adds a validation error. `i` is the index of the first
specification of the list. -/
def templateMapLoop : List JobSpec → Nat → List (String × JobSpec) → List String →
    List (String × JobSpec) × List String
  | [], _, m, errs => (m, errs)
  | s :: rest, i, m, errs =>
      if s.isTemplate then
        match m.lookup s.Name with
        | some prev =>
            templateMapLoop rest (i + 1) m
              (errs ++ ["Template (" ++ fmtInt 0 i ++ ") '" ++ s.Name ++ "' skipped in (" ++
                s.src ++ ") - previously defined in (" ++ prev.src ++ ")"])
        | none => templateMapLoop rest (i + 1) (mapSet m s.Name s) errs
      else templateMapLoop rest (i + 1) m errs

/-- The walk up the `Inherits` chain in `LoadTemplates`: each name is put in front of `inh`.
A name that is not a template ends the walk (its zero value inherits nothing). `none` when
the walk takes more than `fuel` steps. -/
def inheritsLoop (job_templates : List (String × JobSpec)) :
    Nat → Option String → List String → Option (List String)
  | _, none, inh => some inh
  | 0, some _, _ => none
  | fuel + 1, some p, inh =>
      inheritsLoop job_templates fuel (mapGet job_templates p {}).Inherits (p :: inh)

/-- The body of the last loop of `LoadTemplates` for the template `tname`. A walk over
distinct templates takes at most as many steps as there are templates, so the fuel runs out
only when the chain comes back to a template it has left, and then the loop of the source
does not end. -/
def resolveTemplate (job_templates : List (String × JobSpec)) (tname : String) :
    Option JobSpec :=
  (inheritsLoop job_templates (job_templates.length + 1)
      (mapGet job_templates tname {}).Inherits [tname]).map fun inh =>
    let tmpl : JobSpec :=
      inh.foldl (fun t n => copyTemplate t (mapGet job_templates n {})) { Name := tname }
    { tmpl with InheritanceChain := inh }

/-- The last loop of `LoadTemplates`, over the names of `job_templates`. -/
def resolveLoop (job_templates : List (String × JobSpec)) :
    List String → List (String × JobSpec) → Option (List (String × JobSpec))
  | [], templates => some templates
  | tname :: rest, templates =>
      match resolveTemplate job_templates tname with
      | none => none
      | some tmpl => resolveLoop job_templates rest (mapSet templates tname tmpl)

/-- The slice expression `config[len(config)-3:]` compared with `"xml"`: a panic for a name
shorter than three bytes. -/
def isXMLName (config : String) : Outcome Bool :=
  if config.utf8ByteSize < 3 then Outcome.panicked
  else Outcome.ret ((config.toList.reverse.take 3).reverse == ['x', 'm', 'l'])

/-- The first loop of `LoadTemplates`: the specifications each file holds, with their `src`.
`configs` pairs the name of a file with what its loader returns. -/
def loadAll : List (String × List JobSpec) → List JobSpec → Outcome (List JobSpec)
  | [], specs => Outcome.ret specs
  | (config, s) :: rest, specs =>
      (isXMLName config).bind fun _ =>
        loadAll rest (specs ++ s.map fun x => { x with src := config })

/-- `LoadTemplates`, given what the loaders return for each file of `configs`. The value
`none` stands for a call that does not return (see `resolveTemplate`). -/
def LoadTemplates (configs : List (String × List JobSpec)) :
    Outcome (Option LoadTemplatesOutput) :=
  (loadAll configs []).bind fun loaded =>
    let specs := disableTemplates loaded
    let jobNames :=
      (specs.filter fun s => !s.Disabled).foldl (fun acc s => acc ++ [s.Name, s.JobUUID]) []
    let built := templateMapLoop specs 0 [] []
    Outcome.ret
      ((resolveLoop built.1 (built.1.map fun p => p.1) []).map fun templates =>
        { templates := templates, allJobNames := jobNames, err := built.2 })

/-- A `Dependency` literal of `LoadJobSpec`: the fields it does not name are zero. -/
def dependencyOf (deps : List (String × String)) (action condition delay : String) (n : Int) :
    Dependency :=
  { Dependencies := deps, Action := action, Condition := condition, N := n, Trigger := "",
    All := false, UpdateDep := false, Delay := delay, QueueJobs := false }

/-- The four dependencies `LoadJobSpec` gives an enabled child: start after `depUUID` reached
`trigger` while the parent is running, stop with the parent, and back to ready with it. -/
def childDependencies (depUUID trigger parentUUID delay : String) : List Dependency :=
  [dependencyOf (mapSet (mapSet [] depUUID trigger) parentUUID "running") "start" "all" delay 0,
   dependencyOf (mapSet [] parentUUID "stopped") "stop" "all" "100ms" 0,
   dependencyOf (mapSet [] parentUUID "success|failed") "ready" "all" "1s" 0,
   dependencyOf (mapSet [] parentUUID "ready") "ready" "all" "1s" 0]

/-- The variables of the loop over the children of a controller in `LoadJobSpec`; `children`
are the entries of `jobs` written by the loop, `k` counts the calls of `copyJobSpec`. -/
structure ChildState where
  k : Nat
  currentUUID : String
  trigger : String
  uuids : List String
  uuids_enabled : List String
  joj : Nat
  children : List Job
  groups : List (String × List String)
  control_dependencies_success : List (String × String)
  control_dependencies_stopped : List (String × String)
  control_dependencies_failed : List (String × String)

/-- One turn of the loop over the children (`for s := range specJobs`). The entry
`jobs[j]` the turn starts from is the zero value that `make` left there. -/
def childStep (env : Env) (fresh : Nat → String) (parentJob : Job) (delay : String)
    (c : ChildSpec) (st : ChildState) : Outcome ChildState :=
  (copyJobSpec env (fresh st.k) Job.zero c).bind fun r =>
    let job1 := r.1
    if c.Disabled then
      Outcome.ret { st with k := st.k + 1, uuids := st.uuids ++ [job1.JobUUID],
                            children := st.children ++ [job1] }
    else
      let depUUID := st.currentUUID
      let currentUUID := job1.JobUUID
      let job2 : Job :=
        { job1 with
          Type_ := some "JOJ"
          Group := some (parentJob.Group.getD [] ++ [parentJob.Name])
          Timezone := parentJob.Timezone
          _location := parentJob._location }
      (index (parentJob.Group.getD []) 0).bind fun gkey =>
      (index (job2.Group.getD []) 0).bind fun gread =>
      let groups := mapSet st.groups gkey (mapGet st.groups gread [] ++ [job2.JobUUID])
      let job3 : Job :=
        { job2 with
          JobsControl := parentJob.JobsControl
          Dependency := childDependencies depUUID st.trigger parentJob.JobUUID delay
          CronStart := some "@depends"
          Permissions := if job2.Permissions.isNone then parentJob.Permissions
                         else job2.Permissions
          User := if job2.User = "" then parentJob.User else job2.User
          Env := if job2.Env.isNone then parentJob.Env else job2.Env
          DateEnv := if job2.DateEnv.isNone then parentJob.DateEnv else job2.DateEnv }
      Outcome.ret
        { k := st.k + 1, currentUUID := currentUUID, trigger := "success",
          uuids := st.uuids ++ [job3.JobUUID],
          uuids_enabled := st.uuids_enabled ++ [job3.JobUUID],
          joj := st.joj + 1,
          children := st.children ++ [job3],
          groups := groups,
          control_dependencies_success :=
            mapSet st.control_dependencies_success currentUUID "success",
          control_dependencies_stopped :=
            mapSet st.control_dependencies_stopped currentUUID "stopped",
          control_dependencies_failed :=
            mapSet st.control_dependencies_failed currentUUID "failed" }

/-- The loop over the children of a controller in `LoadJobSpec`. -/
def childLoop (env : Env) (fresh : Nat → String) (parentJob : Job) (delay : String) :
    List ChildSpec → ChildState → Outcome ChildState
  | [], st => Outcome.ret st
  | c :: rest, st =>
      (childStep env fresh parentJob delay c st).bind fun st1 =>
        childLoop env fresh parentJob delay rest st1

/-- The variables of the loop over the children when `LoadJobSpec` enters it: the first
enabled child starts when the controller is running. -/
def childInit (parentJob : Job) (k : Nat) (groups : List (String × List String)) : ChildState :=
  { k := k, currentUUID := parentJob.JobUUID, trigger := "running", uuids := [],
    uuids_enabled := [], joj := 0, children := [], groups := groups,
    control_dependencies_success := [], control_dependencies_stopped := [],
    control_dependencies_failed := [] }

/-- The parameters of `LoadJobSpec` besides the specifications, under their names. -/
structure LoadArgs where
  config : String
  maxhistory : Int
  templates : List (String × JobSpec)
  servername : String
  serverkey : String
  apikey : String
  logging : JobLogging
  tickIntervalSecs : Int
  tickMissedThresholdSecs : Int

/-- The variables of the loop over the specifications in `LoadJobSpec`. The source writes
`jobs` only at the index `j`, which never decreases: `done` are the entries below `j`,
`stale` is the entry at `j` when a disabled specification left one there, and the entries
above are the zero values that `make` left. `specs` are the specifications passed so far,
`k` counts the calls of `copyJobSpec`. -/
structure LoadState where
  done : List Job
  stale : Option Job
  specs : List JobSpec
  groups : List (String × List String)
  k : Nat

/-- One turn of the loop over the specifications in `LoadJobSpec`; `all` are the
specifications of the file, which the source indexes with `j` at line 482. -/
def loadStep (env : Env) (fresh : Nat → String) (a : LoadArgs) (all : List JobSpec)
    (spec : JobSpec) (st : LoadState) : Outcome LoadState :=
  let job0 : Job :=
    { Job.zero with
      Disabled := true, Timezone := "UTC", MaxHistory := a.maxhistory,
      ServerName := a.servername, ServerKey := a.serverkey, src := a.config,
      apiKey := a.apikey, TickIntervalSecs := a.tickIntervalSecs,
      TickMissedThresholdSecs := a.tickMissedThresholdSecs }
  let inherited : Outcome (Job × Nat) :=
    match spec.Inherits with
    | some parent =>
        if spec.isTemplate then Outcome.ret (job0, st.k)
        else
          match a.templates.lookup parent with
          | some tmpl =>
              let tmpspec : JobSpec :=
                copyTemplate { Name := spec.Name, Env := some [], DateEnv := some [] } tmpl
              (copyJobSpec env (fresh st.k) job0 tmpspec).bind fun r =>
                Outcome.ret
                  ({ r.1 with InheritanceChain := tmpl.InheritanceChain, LocalEnv := [],
                              LocalDateEnv := [] }, st.k + 1)
          | none =>
              Outcome.ret
                ({ job0 with
                   warnings := job0.warnings ++
                     ["Template '" ++ parent ++ "' Not Found for '" ++ spec.Name ++ "'"]
                   LocalEnv := [], LocalDateEnv := [] }, st.k)
    | none => Outcome.ret (job0, st.k)
  inherited.bind fun (job1, k1) =>
  (copyJobSpec env (fresh k1) job1 spec).bind fun r =>
  let job2 := r.1
  let k2 := k1 + 1
  let purged : Outcome Job :=
    if a.logging.Purge ≠ "" then
      (index all (st.done.length : Int)).bind fun sj =>
        Outcome.ret
          (if sj.Logging.isNone then
            { job2 with Logging := { job2.Logging with Purge := a.logging.Purge } }
           else job2)
    else Outcome.ret job2
  purged.bind fun parentJob =>
  let spec1 : JobSpec := { r.2 with JobUUID := parentJob.JobUUID }
  if parentJob.Disabled then
    Outcome.ret { st with stale := some parentJob, specs := st.specs ++ [spec1], k := k2 }
  else
    (index (parentJob.Group.getD []) 0).bind fun g0 =>
    let groups := mapSet st.groups g0 (mapGet st.groups g0 [] ++ [parentJob.JobUUID])
    match spec.Jobs with
    | none =>
        Outcome.ret { done := st.done ++ [parentJob], stale := none,
                      specs := st.specs ++ [spec1], groups := groups, k := k2 }
    | some specJobs =>
        match spec.JobsControl with
        | none => Outcome.panicked
        | some control =>
            let delay := if control.Delay ≠ "" then control.Delay else "300ms"
            let maxFailures : Int := 1
            (childLoop env fresh parentJob delay specJobs
              (childInit parentJob k2 groups)).bind fun cs =>
            let ctldependencies : List Dependency :=
              [dependencyOf cs.control_dependencies_success "completed_success" "all" "100ms" 0,
               dependencyOf cs.control_dependencies_stopped "completed_stopped" "any" "100ms" 1,
               dependencyOf cs.control_dependencies_failed "completed_failed" "any" "100ms"
                 maxFailures]
            let controller : Job :=
              { parentJob with
                Group := some (parentJob.Group.getD [] ++ [parentJob.Name])
                Dependency := ctldependencies }
            let spec2 : JobSpec :=
              { spec1 with
                Jobs := some (List.zipWith (fun c u => { c with JobUUID := u }) specJobs
                  cs.uuids) }
            Outcome.ret { done := st.done ++ [controller] ++ cs.children, stale := none,
                          specs := st.specs ++ [spec2], groups := cs.groups, k := cs.k }

/-- The loop over the specifications in `LoadJobSpec`. -/
def loadLoop (env : Env) (fresh : Nat → String) (a : LoadArgs) (all : List JobSpec) :
    List JobSpec → LoadState → Outcome LoadState
  | [], st => Outcome.ret st
  | spec :: rest, st =>
      (loadStep env fresh a all spec st).bind fun st1 => loadLoop env fresh a all rest st1

/-- What `LoadJobSpec` returns. -/
structure LoadJobSpecOutput where
  jobs : List Job
  specs : List JobSpec
  groups : List (String × List String)
  isXML : Bool
  err : Option String

/-- `LoadJobSpec`, given what the loader returns for the file `config`: the specifications
`loaded` and the error `err`. `fresh k` is the id that `uuid.New()` returns at call `k` of
`copyJobSpec` when the call asks for one. -/
def LoadJobSpec (env : Env) (fresh : Nat → String) (loaded : List JobSpec)
    (err : Option String) (config : String) (maxhistory : Int)
    (templates : List (String × JobSpec)) (servername serverkey apikey : String)
    (logging : JobLogging) (tickIntervalSecs tickMissedThresholdSecs : Int) :
    Outcome LoadJobSpecOutput :=
  (isXMLName config).bind fun isXML =>
    let specs := disableTemplates (loaded.map fun s => { s with src := config })
    let njobs :=
      (specs.map fun s => 1 + (if s.Disabled then 0 else (s.Jobs.getD []).length)).sum
    (loadLoop env fresh
        { config := config, maxhistory := maxhistory, templates := templates,
          servername := servername, serverkey := serverkey, apikey := apikey,
          logging := logging, tickIntervalSecs := tickIntervalSecs,
          tickMissedThresholdSecs := tickMissedThresholdSecs }
        specs specs { done := [], stale := none, specs := [], groups := [], k := 0 }).bind
      fun st =>
        let written := st.done ++ st.stale.toList
        Outcome.ret
          { jobs := written ++ List.replicate (njobs - written.length) Job.zero,
            specs := st.specs, groups := st.groups, isXML := isXML, err := err }

/-- What `parseJob` takes from the machine it runs on, and the function `ParseDayAndTime`,
which it calls for a job with a `StartTime` or an `EndTime`. -/
structure Host where
  /-- The name `os.Hostname()` returns. -/
  hostname : String
  /-- The path `filepath.Join(os.TempDir(), "rpeat")`. -/
  tmpDir : String
  /-- The function `ParseDayAndTime(day, time, timezone, calendar, calendarDirs, rollback,
  requireCal, jitter)`: the crons and the cron string. -/
  ParseDayAndTime :
    String → String → String → String → List String → Bool → Bool → Int → List Cron × String

/-- The error `parseJob` returns: one of `ParseCron`, or the one of `time.ParseDuration` for
the text of `Logging.Purge`. -/
inductive JobError where
  | cron (e : CronError)
  | duration (text : String)
  deriving DecidableEq, Repr

/-- The loops of `parseJob` over `CronStartArray` and `CronEndArray`: the strings and the
crons parsed, or the error of the first string that does not parse, marked with the
schedule. -/
def parseCronArray (env : Env) (job : Job) (schedule : CronType) :
    List String → List String → List Cron → Outcome (Except CronError (List String × List Cron))
  | [], cronstring, cronArray => Outcome.ret (Except.ok (cronstring, cronArray))
  | c :: rest, cronstring, cronArray =>
      (ParseCron env c job.Timezone job.Calendar job.CalendarDirs job.Rollback job.RequireCal
        job.Jitter).bind fun p =>
        match p.2 with
        | some e => Outcome.ret (Except.error { e with Schedule := some schedule })
        | none => parseCronArray env job schedule rest (cronstring ++ [c]) (cronArray ++ [p.1])

/-- The part of `parseJob` that sets the start schedule (lines 1113 to 1151): the job, and
the error with which `parseJob` returns at once. -/
def parseStart (env : Env) (host : Host) (job : Job) : Outcome (Job × Option CronError) :=
  if job.StartTime ≠ "" then
    let p := host.ParseDayAndTime job.StartDay job.StartTime job.Timezone job.Calendar
      job.CalendarDirs job.Rollback job.RequireCal job.Jitter
    Outcome.ret ({ job with cronStartArray := p.1, CronStart := some p.2 }, none)
  else
    match job.CronStartArray with
    | some arr =>
        (index arr 0).bind fun first =>
          let job1 : Job :=
            { job with
              cronStart :=
                { (if first = "@depends" then DependentCron else NullCron) with array := true } }
          (parseCronArray env job1 CronType.CronStart arr [] []).bind fun res =>
            match res with
            | Except.error e => Outcome.ret (job1, some e)
            | Except.ok (cronstring, cronArray) =>
                Outcome.ret
                  ({ job1 with cronStartArray := cronArray,
                               CronStart := some (Join cronstring ",") }, none)
    | none =>
        match job.CronStart with
        | none => Outcome.ret ({ job with cronStart := NullCron, cronStartArray := [NullCron] }, none)
        | some spec =>
            (ParseCron env spec job.Timezone job.Calendar job.CalendarDirs job.Rollback
              job.RequireCal job.Jitter).bind fun p =>
              match p.2 with
              | some e =>
                  Outcome.ret ({ job with cronStart := p.1 },
                    some { e with Schedule := some CronType.CronStart })
              | none => Outcome.ret ({ job with cronStart := p.1, cronStartArray := [p.1] }, none)

/-- The part of `parseJob` that sets the end schedule (lines 1152 to 1187). -/
def parseEnd (env : Env) (host : Host) (job : Job) : Outcome (Job × Option CronError) :=
  if job.EndTime ≠ "" then
    let p := host.ParseDayAndTime job.EndDay job.EndTime job.Timezone job.Calendar
      job.CalendarDirs job.Rollback job.RequireCal job.Jitter
    Outcome.ret ({ job with cronEndArray := p.1, CronEnd := some p.2 }, none)
  else
    match job.CronEndArray with
    | some arr =>
        let job1 : Job := { job with cronEnd := { NullCron with array := true } }
        (parseCronArray env job1 CronType.CronEnd arr [] []).bind fun res =>
          match res with
          | Except.error e => Outcome.ret (job1, some e)
          | Except.ok (cronstring, cronArray) =>
              Outcome.ret
                ({ job1 with cronEndArray := cronArray,
                             CronEnd := some (Join cronstring ",") }, none)
    | none =>
        match job.CronEnd with
        | none => Outcome.ret ({ job with cronEnd := NullCron, cronEndArray := [NullCron] }, none)
        | some spec =>
            (ParseCron env spec job.Timezone job.Calendar job.CalendarDirs job.Rollback
              job.RequireCal job.Jitter).bind fun p =>
              match p.2 with
              | some e =>
                  Outcome.ret ({ job with cronEnd := p.1 },
                    some { e with Schedule := some CronType.CronEnd })
              | none => Outcome.ret ({ job with cronEnd := p.1, cronEndArray := [p.1] }, none)

/-- The part of `parseJob` that sets the restart schedule (lines 1188 to 1193). -/
def parseRestart (env : Env) (job : Job) : Outcome (Job × Option CronError) :=
  match job.CronRestart with
  | none => Outcome.ret (job, none)
  | some spec =>
      (ParseCron env spec job.Timezone job.Calendar job.CalendarDirs job.Rollback
        job.RequireCal job.Jitter).bind fun p =>
        Outcome.ret ({ job with cronRestart := p.1 }, p.2)

/-- The end of `parseJob` (lines 1196 to 1225): the state `ready`, or `onhold` for a held
job, the temporary directory and the purge duration. -/
def parseFinish (env : Env) (host : Host) (job : Job) : Job × Option JobError :=
  let state := if job.Hold = true then JHold else JReady
  let job1 : Job :=
    { job with
      JobState := state
      JobStateString := state.String
      TmpDir := if job.TmpDir = "" then host.tmpDir else job.TmpDir }
  if job1.Logging.Purge = "" then
    ({ job1 with Logging := { job1.Logging with purge := MaxInt64 } }, none)
  else
    match env.parseDuration job1.Logging.Purge with
    | none => (job1, some (JobError.duration job1.Logging.Purge))
    | some purge => ({ job1 with Logging := { job1.Logging with purge := purge } }, none)

/-- `Job.parseJob(createDir)`: the job after the call and the error returned. The fields
`startRule` and `Logging.l` and the directory made for `createDir` are not in the record. -/
def parseJob (env : Env) (host : Host) (job : Job) (_createDir : Bool) :
    Outcome (Job × Option JobError) :=
  let job1 : Job :=
    { job with
      Host := if job.Host = "" then host.hostname else job.Host
      _location := (env.loadLocation job.Timezone).getD 0 }
  (parseStart env host job1).bind fun p2 =>
    match p2.2 with
    | some e => Outcome.ret (p2.1, some (JobError.cron e))
    | none =>
        (parseEnd env host p2.1).bind fun p3 =>
          match p3.2 with
          | some e => Outcome.ret (p3.1, some (JobError.cron e))
          | none =>
              (parseRestart env p3.1).bind fun p4 =>
                match p4.2 with
                | some e => Outcome.ret (p4.1, some (JobError.cron e))
                | none => Outcome.ret (parseFinish env host p4.1)

/-- `LoadJobState(jobfile, true)` for a file that opens: `decoded` is the job the decoder
reads from the file; the error of `parseJob` is dropped, the error returned is `nil`. -/
def LoadJobState (env : Env) (host : Host) (decoded : Job) : Outcome Job :=
  (parseJob env host decoded true).bind fun p => Outcome.ret p.1

/-- The struct `ServerJobs` (without its lock); `Jobs` maps an id to the record behind the
pointer. -/
structure ServerJobs where
  Jobs : List (String × Job)
  JobOrder : List String
  JobUUID : List String
  JobNameUUID : List (String × String)
  Groups : List (String × List String)
  GroupOrder : List String

/-- The zero value `ServerJobs{}`. -/
def ServerJobs.zero : ServerJobs :=
  { Jobs := [], JobOrder := [], JobUUID := [], JobNameUUID := [], Groups := [],
    GroupOrder := [] }

/-- The second loop of `NewJobMap`; the field `JobMeta` is not in the record. -/
def newJobMapLoop (env : Env) (host : Host) : List Job → ServerJobs → Outcome ServerJobs
  | [], s => Outcome.ret s
  | job :: rest, s =>
      let s1 : ServerJobs := { s with JobUUID := s.JobUUID ++ [job.JobUUID] }
      if job.Disabled then newJobMapLoop env host rest s1
      else
        (parseJob env host job true).bind fun p =>
          let job1 := p.1
          (index (job1.Group.getD []) 0).bind fun g =>
            newJobMapLoop env host rest
              { s1 with
                JobOrder := s1.JobOrder ++ [job1.JobUUID]
                GroupOrder :=
                  if !stringInSlice g s1.GroupOrder then s1.GroupOrder ++ [g] else s1.GroupOrder
                Jobs := mapSet s1.Jobs job1.JobUUID job1
                JobNameUUID :=
                  mapSet (mapSet s1.JobNameUUID job1.JobUUID job1.JobUUID) job1.Name
                    job1.JobUUID }

/-- `NewJobMap(home, ojobs)`. -/
def NewJobMap (env : Env) (host : Host) (ojobs : List Job) : Outcome ServerJobs :=
  newJobMapLoop env host (ojobs.filter fun j => j.JobUUID ≠ zeroUUID) ServerJobs.zero

/-- The body of the loop of `LoadConfig2` that reloads the prior state of a job (lines 1029
to 1065). `snapshot` is what the decoder reads from the file of the job, `none` when there is
no such file; `unixNow` is `time.Now().Unix()`. -/
def reloadState (env : Env) (host : Host) (clean keephistory : Bool) (unixNow : Int)
    (snapshot : Option Job) (job : Job) : Outcome Job :=
  match snapshot with
  | none => Outcome.ret job
  | some decoded =>
      if clean then
        if keephistory then
          (LoadJobState env host decoded).bind fun tmpjob =>
            Outcome.ret { job with History := tmpjob.History }
        else Outcome.ret job
      else
        (LoadJobState env host decoded).bind fun tmpjob =>
          let job1 : Job :=
            { job with
              History := tmpjob.History
              JobState := tmpjob.JobState
              Logging := tmpjob.Logging
              stdoutFile := tmpjob.stdoutFile
              stderrFile := tmpjob.stderrFile }
          if job1.JobState = JRunning ∨ job1.JobState = JRetrying then
            Outcome.ret
              (setJobState { job1 with Hold := true, modified := unixNow } JUnknown unixNow).job
          else Outcome.ret job1

/-- The loop of `LoadConfig2` over `alljobs` that reloads the prior states. -/
def reloadLoop (env : Env) (host : Host) (clean keephistory : Bool) (unixNow : Int)
    (snapshots : String → Option Job) : List Job → List Job → Outcome (List Job)
  | [], acc => Outcome.ret acc
  | job :: rest, acc =>
      (reloadState env host clean keephistory unixNow (snapshots job.JobUUID) job).bind fun j =>
        reloadLoop env host clean keephistory unixNow snapshots rest (acc ++ [j])

/-- The loop of `LoadConfig2` over the job files: the jobs and the groups of all files.
`n` is the index of the first file of the list. -/
def loadFiles (env : Env) (fresh : Nat → Nat → String) (maxhistory : Int)
    (templates : List (String × JobSpec)) (servername serverkey apikey : String)
    (logging : JobLogging) (tickIntervalSecs tickMissedThresholdSecs : Int) :
    List (String × List JobSpec) → Nat → List Job → List (String × List String) →
      Outcome (List Job × List (String × List String))
  | [], _, alljobs, allgroups => Outcome.ret (alljobs, allgroups)
  | (jobsFile, loaded) :: rest, n, alljobs, allgroups =>
      (LoadJobSpec env (fresh n) loaded none jobsFile maxhistory templates servername serverkey
        apikey logging tickIntervalSecs tickMissedThresholdSecs).bind fun out =>
        loadFiles env fresh maxhistory templates servername serverkey apikey logging
          tickIntervalSecs tickMissedThresholdSecs rest (n + 1) (alljobs ++ out.jobs)
          (out.groups.foldl (fun m g => mapSet m g.1 (mapGet m g.1 [] ++ g.2)) allgroups)

/-- `LoadConfig2`, given for each job file what its loader returns (`jobsFiles`) and for each
id what the snapshot file of the job holds (`snapshots`): the job table and the messages of
the error, `none` for a call that does not return. `fresh n k` is the id `uuid.New()` hands
to call `k` of `copyJobSpec` for file `n`. The files written by the call are not in the
model. -/
def LoadConfig2 (env : Env) (host : Host) (fresh : Nat → Nat → String) (unixNow : Int)
    (snapshots : String → Option Job) (jobsFiles : List (String × List JobSpec))
    (clean keephistory : Bool) (maxhistory : Int) (servername serverkey apikey : String)
    (logging : JobLogging) (tickIntervalSecs tickMissedThresholdSecs : Int) :
    Outcome (Option (ServerJobs × List String)) :=
  (LoadTemplates jobsFiles).bind fun tmplOut =>
    match tmplOut with
    | none => Outcome.ret none
    | some t =>
        if t.err ≠ [] then Outcome.ret (some (ServerJobs.zero, t.err))
        else
          (loadFiles env fresh maxhistory t.templates servername serverkey apikey logging
            tickIntervalSecs tickMissedThresholdSecs jobsFiles 0 [] []).bind fun loaded =>
          (reloadLoop env host clean keephistory unixNow snapshots loaded.1 []).bind
            fun alljobs =>
          (NewJobMap env host alljobs).bind fun sjobs =>
            Outcome.ret (some ({ sjobs with Groups := loaded.2 }, t.err))

/-! ## utils.go : expandAllVars -/

/-- What `expandAllVars` takes from the operating system and from functions outside this
model. -/
structure Os where
  /-- The list `os.Environ()`. -/
  Environ : List String
  /-- The function `os.Getenv`. -/
  Getenv : String → String
  /-- The function `os.Expand(s, mapping)`, as far as its result goes. -/
  Expand : String → (String → String) → String
  /-- The names for which `os.Expand(s, mapping)` calls `mapping`, in the order of the
  calls. -/
  expandNames : String → List String
  /-- The function `stripVars`, which works with regular expressions. -/
  stripVars : String → List String × String
  /-- The function `isExecutable`: the message of its error, `none` for `nil`. -/
  isExecutable : String → Option String
  /-- The function `ConvertDate(d, timezone, calendarPath, asof)`: the string it returns (its
  error is dropped by the caller). -/
  ConvertDate : String → String → List String → String → Outcome String
  /-- The value of `time.Now().Unix()`. -/
  unixNow : Int

/-- The fields of `exec.Cmd` that `expandAllVars` sets. -/
structure ExecCmd where
  Path : String
  Args : List String
  Env : List String
  deriving DecidableEq, Repr

/-- The struct `expandAllVarsOutput`; an error is the text of its message, `none` for
`nil`. -/
structure expandAllVarsOutput where
  expandedVars : List String
  execCmd : ExecCmd
  envVarsMissing : List String
  cmdVarsMissing : List String
  numberCmdVars : Int
  dateEnvException : Option String
  execErr : Option String
  deriving DecidableEq, Repr

/-- The loop of `expandAllVars` over `job.DateEnv`: each `name=date` is added to `env` with
the date converted; an entry without `=` makes `kv[1]` panic. -/
def dateEnvLoop (os : Os) (job : Job) (asof : String) :
    List String → List String → Outcome (List String)
  | [], env => Outcome.ret env
  | keyval :: rest, env =>
      let kv := Split keyval '='
      (index kv 0).bind fun dname =>
      (index kv 1).bind fun dval =>
      (os.ConvertDate dval job.Timezone job.CalendarDirs asof).bind fun convertedDate =>
        dateEnvLoop os job asof rest (env ++ [dname ++ "=" ++ convertedDate])

/-- The closure `getenv` of `expandAllVars`: the variable in `EnvMap`, or else in the
environment of the process. -/
def getenvOf (os : Os) (EnvMap : List (String × String)) (key : String) : String :=
  match EnvMap.lookup key with
  | some v => v
  | none => os.Getenv key

/-- The variables of the loop of `expandAllVars` that resolves the environment: the entries
of `env` passed so far, `EnvMap` and `missing`. -/
structure ResolveState where
  env : List String
  EnvMap : List (String × String)
  missing : List String

/-- The loop of `expandAllVars` over `env` that resolves the variables in order. -/
def resolveEnvLoop (os : Os) : List String → ResolveState → Outcome ResolveState
  | [], st => Outcome.ret st
  | keyval :: rest, st =>
      let kv := Split keyval '='
      (index kv 0).bind fun k =>
        if kv.length = 1 then resolveEnvLoop os rest { st with env := st.env ++ [keyval] }
        else
          (index kv 1).bind fun v =>
            let newv := os.Expand v (getenvOf os st.EnvMap)
            let stripped := os.stripVars v
            resolveEnvLoop os rest
              { env := st.env ++ [k ++ "=" ++ newv],
                EnvMap := mapSet st.EnvMap k newv,
                missing :=
                  if newv = stripped.2 ∧ stripped.1.length > 0 then st.missing ++ [keyval]
                  else st.missing }

/-- The argument vector `expandAllVars` builds from the fields of the command: the first
two fields, and the remaining fields joined by spaces as the third argument. -/
def cmdArgs (args : List String) : List String :=
  match args with
  | a0 :: a1 :: rest => [a0, a1, Join rest " "]
  | _ => args

/-- `expandAllVars(job, vars, cmd, shutdown, asof)`: the job after the call and the output;
the error returned is always `nil`. -/
def expandAllVars (os : Os) (job : Job) (vars : List String) (cmd : Option String)
    (shutdown : Bool) (asof : String) : Outcome (Job × expandAllVarsOutput) :=
  let JobEnv := ["RPEAT_TMP=" ++ job.TmpDir, "RPEAT_JOBID=" ++ job.JobUUID,
    "RPEAT_RUNID=" ++ job.RunUUID, "RPEAT_TIMESTAMP=" ++ fmtInt 0 os.unixNow]
  (dateEnvLoop os job asof (job.DateEnv.getD []) (os.Environ ++ JobEnv)).bind fun env1 =>
  (resolveEnvLoop os (env1 ++ job.Env.getD []) { env := [], EnvMap := [], missing := [] }).bind
    fun st =>
  let getenv := getenvOf os st.EnvMap
  let args : List String :=
    match cmd with
    | some c => Fields c
    | none => []
  let expandedVars := vars.map fun v => os.Expand v getenv
  match args with
  | [] =>
      Outcome.ret (job,
        { expandedVars := expandedVars, execCmd := { Path := "", Args := [], Env := [] },
          envVarsMissing := st.missing, cmdVarsMissing := [], numberCmdVars := 0,
          dateEnvException := none, execErr := none })
  | path :: _ =>
      let c : ExecCmd := { Path := path, Args := cmdArgs args, Env := st.env }
      let joined := Join c.Args " "
      let names := os.expandNames joined
      let cmdEvalString := os.Expand joined getenv
      let job1 : Job :=
        if shutdown then { job with ShutdownCmdEval := cmdEvalString }
        else { job with CmdEval := cmdEvalString }
      Outcome.ret (job1,
        { expandedVars := expandedVars, execCmd := c, envVarsMissing := st.missing,
          cmdVarsMissing := names.filter fun key => getenv key = "",
          numberCmdVars := names.length, dateEnvException := none,
          execErr := os.isExecutable (os.Expand c.Path getenv) })

/-! ## auth.go, server.go : the control API -/

/-- `Job.hasPermission(user, action)`. -/
def hasPermission (job : Job) (user action : String) : Bool :=
  if job.User = user ∨ stringInSlice user job.Admin = true then true
  else
    let authorized := mapGet (job.Permissions.getD []) action []
    let any := mapGet (job.Permissions.getD []) "all" []
    (authorized ++ any).any fun a => a == user || a == "*"

/-- `Job.isJOJ`. -/
def Job.isJOJ (job : Job) : Bool :=
  match job.Type_ with
  | none => false
  | some t => ToUpper t == "JOJ"

/-- `Job.setHold(h)`; `unixNow` is `time.Now().Unix()`. -/
def Job.setHold (job : Job) (h : Bool) (unixNow : Int) : Job :=
  { job with Hold := h, modified := unixNow }

/-- `Job.setRetryAttempt(k)`. -/
def Job.setRetryAttempt (job : Job) (k : Int) : Job := { job with RetryAttempt := k }

/-- What a call of the control API does besides changing the job record. -/
inductive ApiEffect where
  /-- The call `job.getProc().Kill()`. -/
  | kill
  /-- The call `job.sendUpdate()`. -/
  | sendUpdate
  deriving DecidableEq, Repr

/-- The outcome of `service.Hold`: the status of the response, the error (`none` is `nil`),
the record behind the pointer of the job after the call (`none` when there is no such job)
and the effects. -/
structure HoldResult where
  Status : String
  err : Option String
  job : Option Job
  effects : List ApiEffect

/-- `service.Hold(jobid, user, comment, duration)` on the job table `Jobs`; the clock shows
`unixNow` during the call. The errors of `setJobState` are dropped, as in the source. -/
def Hold (Jobs : List (String × Job)) (unixNow : Int) (jobid user comment _duration : String) :
    HoldResult :=
  match Jobs.lookup jobid with
  | none => { Status := "invalid jobid", err := some "bad jobid", job := none, effects := [] }
  | some job =>
      if job.isJOJ then
        { Status := "job of jobs array does not support hold",
          err := some "Hold is unavailable for jobs of job arrays", job := some job,
          effects := [] }
      else if !hasPermission job user "hold" then
        { Status := "permission denied", err := some "empty string", job := some job,
          effects := [] }
      else
        let changed : Job × List ApiEffect :=
          if job.Hold then
            let job1 := ({ job with Unscheduled := false } : Job).setHold false unixNow
            let job2 : Job :=
              { job1 with
                Reason := { Action := "unhold", Comment := comment, User := user,
                            Timestamp := unixNow } }
            ((setJobState (job2.setRetryAttempt 0) JReady unixNow).job, [])
          else
            let job1 := job.setHold true unixNow
            let job2 : Job :=
              { job1 with
                Reason := { Action := "hold", Comment := comment, User := user,
                            Timestamp := unixNow } }
            ((setJobState job2 JHold unixNow).job,
              if job.IsRunning then [ApiEffect.kill] else [])
        { Status := "success", err := none,
          job := some { changed.1 with IsRunning := false, ExitCode := 0, Pid := 0 },
          effects := changed.2 ++ [ApiEffect.sendUpdate] }

/-- The first loop of `service.AllJobs`: the entry at `i` is cut out of `job_order` when the
user is neither the owner nor an administrator of its job, and `i` moves on by one in either
case. A panic for an id without a job in the table. `fuel` bounds the number of turns; the
length of `job_order` is enough. -/
def filterOrder (Jobs : List (String × Job)) (user : String) :
    Nat → Nat → List String → Outcome (List String)
  | 0, _, job_order => Outcome.ret job_order
  | fuel + 1, i, job_order =>
      if i < job_order.length then
        (index job_order (i : Int)).bind fun id =>
          match Jobs.lookup id with
          | none => Outcome.panicked
          | some v =>
              if user ≠ v.User ∧ stringInSlice user v.Admin = false then
                filterOrder Jobs user fuel (i + 1) (job_order.take i ++ job_order.drop (i + 1))
              else filterOrder Jobs user fuel (i + 1) job_order
      else Outcome.ret job_order

/-- The struct `jobsResponse`. -/
structure jobsResponse where
  Jobs : List (String × List (String × Job))
  JobOrder : List String
  Groups : List (String × List String)
  GroupOrder : List String
  Authorized : List (String × List (String × Bool))

/-- The second loop of `service.AllJobs`: the records and the permissions of the jobs left
in `job_order`. -/
def staticLoop (Jobs : List (String × Job)) (user : String) :
    List String → List (String × Job) → List (String × List (String × Bool)) →
      Outcome (List (String × Job) × List (String × List (String × Bool)))
  | [], jobs_static, authorized => Outcome.ret (jobs_static, authorized)
  | id :: rest, jobs_static, authorized =>
      match Jobs.lookup id with
      | none => Outcome.panicked
      | some v =>
          let perms := ["hold", "start", "stop", "restart", "info"].foldl
            (fun m action => mapSet m action (hasPermission v user action)) []
          staticLoop Jobs user rest (mapSet jobs_static id v) (mapSet authorized id perms)

/-- The variables of the loop of `service.AllJobs` over the groups. -/
structure GroupState where
  groupedJobs : List (String × List (String × Job))
  groupedOrder : List (String × List String)
  reqgroups_order : List String

/-- The loop of `service.AllJobs` over the groups of the server. -/
def groupLoop (jobs_static : List (String × Job)) (reqgroups : List String) :
    List (String × List String) → GroupState → GroupState
  | [], st => st
  | (group, uuids) :: rest, st =>
      if reqgroups.length = 0 ∨ stringInSlice group reqgroups = true then
        let found := uuids.filter fun u => (jobs_static.lookup u).isSome
        let j : List (String × Job) :=
          found.foldl (fun m u => match jobs_static.lookup u with
            | some job => mapSet m u job
            | none => m) []
        groupLoop jobs_static reqgroups rest
          { groupedJobs := mapSet st.groupedJobs group j,
            groupedOrder := mapSet st.groupedOrder group found,
            reqgroups_order := st.reqgroups_order ++ [group] }
      else groupLoop jobs_static reqgroups rest st

/-- `service.AllJobs(user, reqgroups)` on the job table `Jobs`, the order `job_order` and the
groups `groups` of the server; the error returned is always `nil`. -/
def AllJobs (Jobs : List (String × Job)) (job_order : List String)
    (groups : List (String × List String)) (user : String) (reqgroups : List String) :
    Outcome jobsResponse :=
  (filterOrder Jobs user job_order.length 0 job_order).bind fun order =>
  (staticLoop Jobs user order [] []).bind fun p =>
    let g := groupLoop p.1 reqgroups groups
      { groupedJobs := [], groupedOrder := [], reqgroups_order := [] }
    Outcome.ret { Jobs := g.groupedJobs, JobOrder := order, Groups := g.groupedOrder,
                  GroupOrder := g.reqgroups_order, Authorized := p.2 }

/-! ## main.go : the comparison of two job records on reload -/

/-- `reflect.DeepEqual` on two maps of type `Permission`: both nil, or both not nil with
the same keys and the same users under each key. -/
def permissionsEqual (p q : Option Permission) : Bool :=
  match p, q with
  | none, none => true
  | some m1, some m2 =>
      (m1.map Prod.fst ++ m2.map Prod.fst).all fun k => m1.lookup k == m2.lookup k
  | _, _ => false

/-- `isNilAndNot(x, y)` as `areEqualSpec` calls it: the arguments are pointers of type
`*string` passed as `interface{}`, and an interface that holds a pointer is never equal to
`nil`, so the result is `false` also when one of the pointers is nil. -/
def isNilAndNot (_x _y : Option String) : Bool := false

/-- `Job.areEqualSpec`: the first field that differs gives `false`; the command is compared
through the pointers `x.Cmd` and `y.Cmd`, which panics when one of them is nil. The slices
`CalendarDirs`, `Tags` and `Admin` are lists here, for which nil and empty are one value;
the lines written to the log are left out. -/
def areEqualSpec (x y : Job) : Outcome Bool :=
  if x.Calendar ≠ y.Calendar then Outcome.ret false
  else if x.CalendarDirs ≠ y.CalendarDirs then Outcome.ret false
  else if x.Rollback ≠ y.Rollback then Outcome.ret false
  else if x.RequireCal ≠ y.RequireCal then Outcome.ret false
  else if isNilAndNot x.CronStart y.CronStart then Outcome.ret false
  else if (match x.CronStart, y.CronStart with
      | some a, some b => decide (a ≠ b)
      | _, _ => false) then Outcome.ret false
  else if x.CronStartArray ≠ y.CronStartArray then Outcome.ret false
  else if x.StartTime ≠ y.StartTime then Outcome.ret false
  else if x.StartDay ≠ y.StartDay then Outcome.ret false
  else if x.CronEndArray ≠ y.CronEndArray then Outcome.ret false
  else if x.CronRestart ≠ y.CronRestart then Outcome.ret false
  else if x.Inherits ≠ y.Inherits then Outcome.ret false
  else if x.Name ≠ y.Name then Outcome.ret false
  else if x.Description ≠ y.Description then Outcome.ret false
  else if x.Comment ≠ y.Comment then Outcome.ret false
  else if x.Tags ≠ y.Tags then Outcome.ret false
  else if x.Group ≠ y.Group then Outcome.ret false
  else if x.Env ≠ y.Env then Outcome.ret false
  else if x.DateEnv ≠ y.DateEnv then Outcome.ret false
  else if x.Hold ≠ y.Hold then Outcome.ret false
  else if x.Retry ≠ y.Retry then Outcome.ret false
  else if x.RetryWait ≠ y.RetryWait then Outcome.ret false
  else if x.MaxDuration ≠ y.MaxDuration then Outcome.ret false
  else if x.TmpDir ≠ y.TmpDir then Outcome.ret false
  else if x.Logging.StdoutFile ≠ y.Logging.StdoutFile ∨
      x.Logging.StderrFile ≠ y.Logging.StderrFile ∨ x.Logging.Append ≠ y.Logging.Append ∨
      x.Logging.Purge ≠ y.Logging.Purge then Outcome.ret false
  else if x.Host ≠ y.Host then Outcome.ret false
  else if x.User ≠ y.User then Outcome.ret false
  else if !permissionsEqual x.Permissions y.Permissions then Outcome.ret false
  else if x.Admin ≠ y.Admin then Outcome.ret false
  else
    match x.Cmd, y.Cmd with
    | some cx, some cy =>
        if cx ≠ cy then Outcome.ret false
        else if x.ShutdownSig ≠ y.ShutdownSig then Outcome.ret false
        else if x.ShutdownCmd ≠ y.ShutdownCmd then Outcome.ret false
        else Outcome.ret true
    | _, _ => Outcome.panicked

/-! ## calendar.go -/

/-- The type `CalAdjust`. -/
inductive CalAdjust where
  | CalFollowing | CalFollowingModified | CalProceeding | CalProceedingModified | CalNoAdjust
  deriving DecidableEq, Repr

/-- The struct `Cal`. -/
structure Cal where
  Calendar : String
  Forward : Bool
  DatesIn : List Int
  DatesEx : List Int
  Adjust : CalAdjust
  deriving DecidableEq, Repr

/-- The zero value `Cal{}`. -/
def Cal.zero : Cal :=
  { Calendar := "", Forward := false, DatesIn := [], DatesEx := [],
    Adjust := CalAdjust.CalFollowing }

/-- `NewCal`. -/
def NewCal (calendar : String) : Cal := { Cal.zero with Calendar := calendar }

/-- The constants of type `CalendarException` (`validate.go`). -/
inductive CalendarException where
  | MissingCalendar | MissingCalendarDirs | MultipleCalendarsFound | CalendarNotFound
  | CalendarDirNotFound | CalendarReadError | CalendarBadDates | CalendarOutOfRange
  deriving DecidableEq, Repr

/-- The struct `CalendarError`; `fileErr` is the message of the error, `none` for `nil`. -/
structure CalendarError where
  Calendar : String
  CalendarDirs : List String
  Exception : CalendarException
  fileErr : Option String
  deriving DecidableEq, Repr

/-- The files of the machine, as `ReadCalendar` sees them. -/
structure Files where
  /-- The call `os.Stat(path)`: the message of its error, `none` when the path exists. -/
  Stat : String → Option String
  /-- The function `filepath.Join(dir, name)`. -/
  Join : String → String → String
  /-- The call `os.Open(path)` and what a `bufio.Scanner` then reads: the lines of the file,
  or the message of the error of `os.Open`. -/
  Open : String → Except String (List String)

/-- `FileExists(file)`: whether `os.Stat` returns no error, and the error. -/
def FileExists (fs : Files) (file : String) : Bool × Option String :=
  match fs.Stat file with
  | none => (true, none)
  | some e => (false, some e)

/-- `strconv.ParseInt(s, 10, 32)`: the value and whether the error is nil. A syntax error
gives 0, a value out of the 32-bit range gives the nearest bound, both with a non-nil
error. -/
def ParseInt32 (s : String) : Int × Bool :=
  let cs := s.toList
  let (neg, ds) : Bool × List Char :=
    match cs with
    | '-' :: r => (true, r)
    | '+' :: r => (false, r)
    | _ => (false, cs)
  match digitsValue ds with
  | none => (0, false)
  | some n =>
      let v : Int := if neg then -(n : Int) else (n : Int)
      if v > MaxInt32 then (MaxInt32, false)
      else if v < -MaxInt32 - 1 then (-MaxInt32 - 1, false)
      else (v, true)

/-- The loop of `ReadCalendar` over `calendarPath`: the file to read (empty when there is no
directory), or the error the loop returns with. Every turn ends the loop: it returns when
the directory or the file in it does not exist and breaks when the file exists, so no turn
goes on to the next directory. -/
def findCalendarFile (fs : Files) (calendar : String) (calendarPath : List String) :
    List String → Except CalendarError String
  | [] => Except.ok ""
  | path :: _ =>
      match FileExists fs path with
      | (false, err) =>
          Except.error { Exception := CalendarException.CalendarDirNotFound,
                         Calendar := calendar, CalendarDirs := [path], fileErr := err }
      | (true, _) =>
          let calendarFile := fs.Join path calendar
          match FileExists fs calendarFile with
          | (true, _) => Except.ok calendarFile
          | (false, err) =>
              Except.error { Exception := CalendarException.CalendarNotFound,
                             Calendar := calendar, CalendarDirs := calendarPath,
                             fileErr := err }

/-- `ReadCalendar(calendar, calendarPath)`: the calendar and the error (`none` is nil). The
error of a line that does not parse is assigned to a variable `err` declared inside the
loop over the lines; the variable `err` that is returned holds the error of `file.Seek`,
which is taken to succeed. -/
def ReadCalendar (fs : Files) (calendar : String) (calendarPath : List String) :
    Cal × Option CalendarError :=
  match findCalendarFile fs calendar calendarPath calendarPath with
  | Except.error e => (Cal.zero, some e)
  | Except.ok calendarFile =>
      if calendarFile = "" then
        (Cal.zero, some { Exception := CalendarException.MissingCalendar, Calendar := calendar,
                          CalendarDirs := calendarPath, fileErr := none })
      else
        match fs.Open calendarFile with
        | Except.error e =>
            (Cal.zero, some { Exception := CalendarException.CalendarReadError,
                              Calendar := calendar, CalendarDirs := calendarPath,
                              fileErr := some e })
        | Except.ok lines =>
            ({ NewCal calendar with DatesIn := lines.map fun txt => (ParseInt32 txt).1 }, none)

/-- The conversion `float64(n)` of a 64-bit integer: the nearest number with a significand of
53 bits, the even one of two that are equally near; its value is an integer again. `e` is
the number of bits of `n` beyond 53, at most 11. -/
def float64OfInt (n : Int) : Int :=
  let m := n.natAbs
  let e := ((List.range 11).filter fun k => decide (2 ^ (53 + k) ≤ m)).length
  let q := m / 2 ^ e
  let r := m % 2 ^ e
  let up : Bool := decide (2 ^ e < 2 * r) || (decide (2 * r = 2 ^ e) && decide (q % 2 = 1))
  let v : Nat := (if up then q + 1 else q) * 2 ^ e
  if n < 0 then -(v : Int) else (v : Int)

/-- `addDateWithCal(t, years, months, days, cal)`: the date of the calendar `days` entries
after the entry of the date of `t`, at midnight UTC. `years` and `months` are not read. An
index out of range is a panic (a sum `idx+days` outside the 64-bit range wraps to an index
that is out of range as well). `math.Mod` of two integers is the remainder of the division
that truncates. -/
def addDateWithCal (t : Time) (years months days : Int) (cal : Cal) : Outcome Time :=
  let (y, m, d) := t.Date
  let date := y * 10000 + m * 100 + d
  let idx := SearchInts cal.DatesIn date
  (if !cal.Forward then
     (index cal.DatesIn idx).bind fun v => Outcome.ret (if v > date then idx - 1 else idx)
   else Outcome.ret idx).bind fun idx1 =>
  (index cal.DatesIn (idx1 + days)).bind fun dt =>
  let yr := dt.tdiv 10000
  let mo := (float64OfInt (dt.tdiv 100)).tmod 100
  let dy := (float64OfInt dt).tmod 100
  Outcome.ret (goDate yr mo dy 0 0 0 0 0)

/-- `addDayWithCal(t, days, calendar, calendarPath, forward)`: `log.Fatal` when the calendar
is not read. -/
def addDayWithCal (fs : Files) (t : Time) (days : Int) (calendar : String)
    (calendarPath : List String) (forward : Bool) : Outcome Time :=
  match ReadCalendar fs calendar calendarPath with
  | (_, some _) => Outcome.fatal
  | (cal, none) => addDateWithCal t 0 0 days { cal with Forward := forward }

/-! ## date.go

Library functions first: `strings.Replace` with a count of 1, `strings.Contains`,
`strconv.ParseInt` with base 0 and `Time.Format`. -/

/-- Worker of `ReplaceFirst`. -/
def replaceFirstAux (old new : List Char) : List Char → List Char
  | [] => []
  | c :: cs =>
      if old.isPrefixOf (c :: cs) then new ++ (c :: cs).drop old.length
      else c :: replaceFirstAux old new cs

/-- `strings.Replace(s, old, new, 1)` for a non-empty `old`: the first occurrence. -/
def ReplaceFirst (s old new : String) : String :=
  String.mk (replaceFirstAux old.toList new.toList s.toList)

/-- `strings.Contains(s, substr)`. -/
def ContainsString (s substr : String) : Bool :=
  s.toList.tails.any fun r => substr.toList.isPrefixOf r

/-- The value of a digit of `strconv.ParseUint`: `0`-`9`, then the letters in either case
from 10 on; `none` for any other character. -/
def digitOf (c : Char) : Option Nat :=
  if 48 ≤ c.toNat ∧ c.toNat ≤ 57 then some (c.toNat - 48)
  else if 97 ≤ c.toNat ∧ c.toNat ≤ 122 then some (c.toNat - 97 + 10)
  else if 65 ≤ c.toNat ∧ c.toNat ≤ 90 then some (c.toNat - 65 + 10)
  else none

/-- The loop of `underscoreOK` of package `strconv`; `saw` is the kind of the last character
seen (`0` a digit, `_` an underscore, `!` another character, `^` the beginning). -/
def underscoreOKLoop (hex : Bool) : Char → List Char → Bool
  | saw, [] => saw != '_'
  | saw, c :: r =>
      if c.isDigit || (hex && ((97 ≤ c.toNat && c.toNat ≤ 102) || (65 ≤ c.toNat && c.toNat ≤ 70)))
      then underscoreOKLoop hex '0' r
      else if c = '_' then (if saw != '0' then false else underscoreOKLoop hex '_' r)
      else if saw = '_' then false
      else underscoreOKLoop hex '!' r

/-- `underscoreOK(s)` of package `strconv`: underscores only between digits, or between a
base prefix and a digit. -/
def underscoreOK (cs : List Char) : Bool :=
  let s := match cs with
    | '-' :: r => r
    | '+' :: r => r
    | _ => cs
  match s with
  | '0' :: c :: r =>
      if c = 'b' ∨ c = 'B' ∨ c = 'o' ∨ c = 'O' ∨ c = 'x' ∨ c = 'X' then
        underscoreOKLoop (c = 'x' ∨ c = 'X') '0' r
      else underscoreOKLoop false '^' s
  | _ => underscoreOKLoop false '^' s

/-- `strconv.ParseUint(s, 0, 64)`: `none` for a non-nil error (wrong syntax, or a value
that does not fit 64 bits). The base is read off the prefix: `0b`, `0o`, `0x`, or `0` for
octal, else 10. -/
def parseUintBase0 (cs : List Char) : Option Nat :=
  if cs.isEmpty then none
  else
    let (base, ds) : Nat × List Char :=
      match cs with
      | '0' :: c :: r =>
          if r.length ≥ 1 ∧ (c = 'b' ∨ c = 'B') then (2, r)
          else if r.length ≥ 1 ∧ (c = 'o' ∨ c = 'O') then (8, r)
          else if r.length ≥ 1 ∧ (c = 'x' ∨ c = 'X') then (16, r)
          else (8, c :: r)
      | '0' :: r => (8, r)
      | _ => (10, cs)
    let v : Option Nat := ds.foldl (fun acc c =>
      match acc with
      | none => none
      | some n =>
          if c = '_' then some n
          else match digitOf c with
            | none => none
            | some d =>
                if d ≥ base then none
                else if n * base + d > 2 ^ 64 - 1 then none
                else some (n * base + d)) (some 0)
    match v with
    | none => none
    | some n => if ds.contains '_' ∧ ¬ underscoreOK cs then none else some n

/-- `strconv.ParseInt(s, 0, 64)`: `none` for a non-nil error. -/
def ParseInt0 (s : String) : Option Int :=
  let cs := s.toList
  let (neg, ds) : Bool × List Char :=
    match cs with
    | '+' :: r => (false, r)
    | '-' :: r => (true, r)
    | _ => (false, cs)
  match parseUintBase0 ds with
  | none => none
  | some un =>
      if !neg && decide (un ≥ 2 ^ 63) then none
      else if neg && decide (un > 2 ^ 63) then none
      else some (if neg then -(un : Int) else (un : Int))

/-- `appendInt(b, x, width)` of package `time`: a minus sign for a negative `x`, then the
decimal digits, filled with zeros to `width` digits. -/
def appendInt (x : Int) (width : Nat) : List Char :=
  let ds := Nat.toDigits 10 x.natAbs
  (if x < 0 then ['-'] else []) ++ List.replicate (width - ds.length) '0' ++ ds

/-- The elements of a layout of `Time.Format` that this model covers: the numbers of the
date and the time of day. -/
inductive StdChunk where
  | stdLongYear | stdYear | stdZeroMonth | stdNumMonth | stdZeroDay | stdDay | stdHour
  | stdZeroHour12 | stdHour12 | stdZeroMinute | stdMinute | stdZeroSecond | stdSecond
  deriving DecidableEq, Repr

/-- Whether the characters `p` begin the layout `l`. -/
def startsWith (p : String) (l : List Char) : Bool := p.toList.isPrefixOf l

/-- What `nextStdChunk` of package `time` finds at the head of a non-empty layout: an
element and the layout after it (`some (some _)`), or no element, the first character being
text (`some none`). The result is `none` where the layout begins, or may begin, with an
element outside this model: names of months and days, `PM`, time zones, fractions of a
second, days of the year and numbers padded with spaces. -/
def nextStd (l : List Char) : Option (Option (StdChunk × List Char)) :=
  if startsWith "2006" l then some (some (StdChunk.stdLongYear, l.drop 4))
  else if startsWith "2" l then some (some (StdChunk.stdDay, l.drop 1))
  else if startsWith "01" l then some (some (StdChunk.stdZeroMonth, l.drop 2))
  else if startsWith "02" l then some (some (StdChunk.stdZeroDay, l.drop 2))
  else if startsWith "03" l then some (some (StdChunk.stdZeroHour12, l.drop 2))
  else if startsWith "04" l then some (some (StdChunk.stdZeroMinute, l.drop 2))
  else if startsWith "05" l then some (some (StdChunk.stdZeroSecond, l.drop 2))
  else if startsWith "06" l then some (some (StdChunk.stdYear, l.drop 2))
  else if startsWith "15" l then some (some (StdChunk.stdHour, l.drop 2))
  else if startsWith "1" l then some (some (StdChunk.stdNumMonth, l.drop 1))
  else if startsWith "3" l then some (some (StdChunk.stdHour12, l.drop 1))
  else if startsWith "4" l then some (some (StdChunk.stdMinute, l.drop 1))
  else if startsWith "5" l then some (some (StdChunk.stdSecond, l.drop 1))
  else if startsWith "002" l || startsWith "Jan" l || startsWith "Mon" l ||
      startsWith "MST" l || startsWith "_2" l || startsWith "__2" l || startsWith "PM" l ||
      startsWith "pm" l || startsWith "-07" l || startsWith "Z07" l || startsWith ".0" l ||
      startsWith ".9" l || startsWith ",0" l || startsWith ",9" l then none
  else some none

/-- The text `Time.Format` writes for an element of the layout. -/
def stdText (t : Time) : StdChunk → List Char
  | StdChunk.stdLongYear => appendInt t.Year 4
  | StdChunk.stdYear => appendInt ((if t.Year < 0 then -t.Year else t.Year) % 100) 2
  | StdChunk.stdZeroMonth => appendInt t.Month 2
  | StdChunk.stdNumMonth => appendInt t.Month 0
  | StdChunk.stdZeroDay => appendInt t.Day 2
  | StdChunk.stdDay => appendInt t.Day 0
  | StdChunk.stdHour => appendInt t.Hour 2
  | StdChunk.stdZeroHour12 => appendInt (if t.Hour % 12 = 0 then 12 else t.Hour % 12) 2
  | StdChunk.stdHour12 => appendInt (if t.Hour % 12 = 0 then 12 else t.Hour % 12) 0
  | StdChunk.stdZeroMinute => appendInt t.Minute 2
  | StdChunk.stdMinute => appendInt t.Minute 0
  | StdChunk.stdZeroSecond => appendInt t.Second 2
  | StdChunk.stdSecond => appendInt t.Second 0

/-- The loop of `Time.Format` over the layout; every turn takes at least one character of
the layout, so `fuel` is its length. -/
def formatLoop (t : Time) : Nat → List Char → Option (List Char)
  | 0, _ => some []
  | fuel + 1, layout =>
      match layout with
      | [] => some []
      | c :: r =>
          match nextStd (c :: r) with
          | none => none
          | some none => (formatLoop t fuel r).map fun out => c :: out
          | some (some (std, rest)) => (formatLoop t fuel rest).map fun out => stdText t std ++ out

/-- `t.Format(layout)`; `none` for a layout with an element outside this model (see
`nextStd`). -/
def Time.Format (t : Time) (layout : String) : Option String :=
  (formatLoop t layout.toList.length layout.toList).map String.mk

/-- The constants of type `DateEnvException` (`validate.go`). -/
inductive DateEnvException where
  | NoMagicDateVars | DuplicateMagicVar | MissingShiftValue | MissingShiftUnit
  | ErrorInShiftValue | UnknownShiftUnit | UnknownCalendar | CommaError
  deriving DecidableEq, Repr

/-- The struct `DateEnvError`, without its fields of text. -/
structure DateEnvError where
  Exception : DateEnvException
  deriving DecidableEq, Repr

/-- How a call of `ConvertDate` ends. -/
inductive ConvertResult where
  /-- It returns `datestring` and `err` (`none` is nil). -/
  | returns (datestring : String) (err : Option DateEnvError)
  /-- It calls `log.Fatal` (in `now` or `addDayWithCal`). -/
  | fatal
  /-- It panics (an index out of range in `addDateWithCal`). -/
  | panicked
  /-- The layout handed to `Time.Format` has an element outside this model. -/
  | layoutOutsideModel
  deriving DecidableEq, Repr

/-- The shift of `ConvertDate`: `t` moved by `n` units. `none` for an unknown unit. -/
def shiftDate (fs : Files) (t : Time) (unit : String) (n : Int) (useCal : Bool)
    (calendar : String) (calendarPath : List String) : Option (Outcome Time) :=
  if unit = "Y" then some (Outcome.ret (t.AddDate n 0 0))
  else if unit = "Q" then some (Outcome.ret (t.AddDate 0 (wrapInt64 (n * 3)) 0))
  else if unit = "M" then some (Outcome.ret (t.AddDate 0 n 0))
  else if unit = "W" then some (Outcome.ret (t.AddDate 0 0 (wrapInt64 (n * 7))))
  else if unit = "D" then
    if useCal then some (addDayWithCal fs t n calendar calendarPath false)
    else some (Outcome.ret (t.AddDate 0 0 n))
  else none

/-- The end of `ConvertDate`, from the call of `now` on: `layout` is `datestring` after the
replacements, `shift` the unit and the number when `len(dt) > 1`. -/
def convertAt (env : Env) (fs : Files) (layout timezone : String) (calendarPath : List String)
    (asof : String) (shift : Option (String × Int)) (useCal : Bool) (calendar : String) :
    ConvertResult :=
  match now env timezone asof with
  | Outcome.fatal => ConvertResult.fatal
  | Outcome.panicked => ConvertResult.panicked
  | Outcome.ret t0 =>
      let shifted : Option (Outcome Time) :=
        match shift with
        | none => some (Outcome.ret t0)
        | some (unit, n) => shiftDate fs t0 unit n useCal calendar calendarPath
      match shifted with
      | none =>
          ConvertResult.returns layout (some { Exception := DateEnvException.UnknownShiftUnit })
      | some Outcome.fatal => ConvertResult.fatal
      | some Outcome.panicked => ConvertResult.panicked
      | some (Outcome.ret t1) =>
          let adjusted : Outcome Time :=
            if useCal then addDayWithCal fs t1 0 calendar calendarPath false
            else Outcome.ret t1
          match adjusted with
          | Outcome.fatal => ConvertResult.fatal
          | Outcome.panicked => ConvertResult.panicked
          | Outcome.ret t =>
              match t.Format layout with
              | none => ConvertResult.layoutOutsideModel
              | some datestring =>
                  if ContainsString datestring "QTR" then
                    ConvertResult.returns
                      (Replace datestring "QTR" (fmtInt 0 ((t.Month - 1) / 3 + 1))) none
                  else ConvertResult.returns datestring none

/-- `ConvertDate(d, timezone, calendarPath, asof)`. The length of the shift `dt[1]` is
counted in bytes and its unit is its last byte; when the last character is not an ASCII
character, the rest holds a part of it and `ParseInt` returns an error. -/
def ConvertDate (env : Env) (fs : Files) (d timezone : String) (calendarPath : List String)
    (asof : String) : ConvertResult :=
  let dt := Split d ','
  let datestring := dt.headD ""
  let datestring := ReplaceFirst datestring "CC" "20"
  let datestring := ReplaceFirst datestring "YY" "06"
  let datestring := ReplaceFirst datestring "MM" "01"
  let datestring := ReplaceFirst datestring "DD" "02"
  let datestring := ReplaceFirst datestring "hh" "15"
  let datestring := ReplaceFirst datestring "mm" "04"
  let datestring := ReplaceFirst datestring "ss" "05"
  if ContainsString datestring "CC" || ContainsString datestring "YY" ||
      ContainsString datestring "MM" || ContainsString datestring "DD" ||
      ContainsString datestring "hh" || ContainsString datestring "mm" ||
      ContainsString datestring "ss" then
    ConvertResult.returns datestring (some { Exception := DateEnvException.DuplicateMagicVar })
  else
    match dt with
    | _ :: dt1 :: rest =>
        if dt1.utf8ByteSize < 2 then
          ConvertResult.returns datestring
            (some { Exception := DateEnvException.ErrorInShiftValue })
        else
          let unit := dt1.toList.getLast?.getD ' '
          if unit.toNat ≥ 128 then
            ConvertResult.returns datestring
              (some { Exception := DateEnvException.ErrorInShiftValue })
          else
            match ParseInt0 (String.mk dt1.toList.dropLast) with
            | none =>
                ConvertResult.returns datestring
                  (some { Exception := DateEnvException.ErrorInShiftValue })
            | some n =>
                match rest with
                | [calendar] =>
                    if calendar.utf8ByteSize = 0 then
                      ConvertResult.returns datestring
                        (some { Exception := DateEnvException.UnknownCalendar })
                    else
                      match (ReadCalendar fs calendar calendarPath).2 with
                      | some _ =>
                          ConvertResult.returns datestring
                            (some { Exception := DateEnvException.UnknownCalendar })
                      | none =>
                          convertAt env fs datestring timezone calendarPath asof
                            (some (String.singleton unit, n)) true calendar
                | _ =>
                    convertAt env fs datestring timezone calendarPath asof
                      (some (String.singleton unit, n)) false ""
    | _ => convertAt env fs datestring timezone calendarPath asof none false ""

/-! ## Concrete inputs used in the evaluations below -/

/-- A job record in state `s`, every other field blank. -/
def jobIn (s : JState) : Job :=
  { JobState := s, JobStateString := s.String, PrevJobState := JReady,
    PrevJobStateString := "ready", History := [], MaxHistory := 10, modified := 0,
    RetryReset := "", MissedReset := "", HoldDuration := "", RunUUID := "", ExitCode := 0,
    RetryAttempt := 0, Started := "", StartedUNIX := 0, PrevStop := "", Elapsed := "",
    stdoutFile := "", stderrFile := "", CmdEval := "", Unscheduled := false,
    Reason := Reason.zero }

/-- A world in which the clock shows the given UTC date and time, `RPEAT_NOW` is not set,
every location is UTC, every calendar name reads as the dates `cal`, no duration parses
and every random draw is 0. -/
def utcEnv (y mo d h mi s : Int) (cal : List Int) : Env :=
  { clock := (goDate y mo d h mi s 0 0).ns, rpeatNow := none, loadLocation := fun _ => some 0,
    readCalendar := fun _ _ => some cal, parseDuration := fun _ => none, rnd := fun _ => 0 }

/-- `ParseCron` followed by `NextStart("")` on the cron it returns: the error of the parse
and the result of `NextStart`. -/
def parseThenNext (env : Env) (spec timezone calendar : String) (required : Bool) :
    Outcome (Option CronError × NextResult) :=
  (ParseCron env spec timezone calendar [] false required 0).bind fun p =>
    (p.1.NextStart env "").bind fun r => Outcome.ret (p.2, r)

/-- A world like `utcEnv` in which the durations `30s`, `5m` and `60m` parse. -/
def retryEnv : Env :=
  { utcEnv 2024 3 15 12 0 0 [] with
    parseDuration := fun s =>
      if s = "30s" then some (30 * Second)
      else if s = "5m" then some (300 * Second)
      else if s = "60m" then some (3600 * Second)
      else none }

/-- A job with the retry series `30s,5m,60m`. -/
def jobWithRetryWait : Job := { jobIn JFailed with RetryWait := "30s,5m,60m", Retry := 5 }

/-- The transitions drawn in the JobState diagram of the specification, as pairs
(from, to). -/
def diagramTransitions : List (JState × JState) :=
  [(JReady, JRunning),
   (JRunning, JSuccess), (JRunning, JManualSuccess), (JRunning, JEnd), (JRunning, JFailed),
   (JRunning, JStopped),
   (JFailed, JRetryWait), (JRetryWait, JRetrying),
   (JRetrying, JSuccess), (JRetrying, JRetryFailed), (JRetrying, JFailed),
   (JHold, JReady), (JReady, JHold),
   (JRunning, JStopping), (JStopping, JStopped),
   (JRunning, JRestart), (JRestart, JReady),
   (JContingent, JReady)]

/-- Three crons of one array: `@manual`, an `@every` cron of five seconds, `@depends`. -/
def arrayOfThree : List Cron :=
  [atManual "UTC", { NullCron with every := 5 * Second }, DependentCron]

/-- A dependency on the jobs `jobA` and `jobB` with the given condition and `N`. -/
def depOnTwo (condition : String) (n : Int) : Dependency :=
  { Dependencies := [("jobA", "success"), ("jobB", "success|end")], Action := "start",
    Condition := condition, N := n, Trigger := "", All := false, UpdateDep := false,
    Delay := "", QueueJobs := false }

/-- An evaluator of `depOnTwo` in which `jobB` is latched and `jobA` is not; the owner is
not running and has no failure counted. -/
def clientOfTwo (condition : String) (n : Int) : DependencyClient :=
  { states := [("jobA", false), ("jobB", true)], statenames := [("jobB", "end")],
    completed := [("jobA", false), ("jobB", false)], run := false, trigger := true,
    contingent := false, job := { IsRunning := false, nfailures := 0 },
    dependency := depOnTwo condition n }

/-- The event: the job named `jobA` reached `success`. -/
def evtJobA : depEvt :=
  { JobUUID := "6ba7b810-9dad-11d1-80b4-00c04fd430c8", Name := "jobA", JobState := JSuccess }

/-- Turns of the supervisor in which the run exits with status 1 and so do two retries;
during the wait of the second turn the job is reloaded twice, with `Retry` 2 and then 3. -/
def turnsOfFailures : List Turn :=
  [{ stopped := false, updating := false, hold1 := false, hold2 := false, status := 1,
     hold3 := false,
     retries := [{ hold := false, restarting := false, stopped := false, status := 1 },
                 { hold := false, restarting := false, stopped := false, status := 1 }] },
   { stopped := true, updating := false, hold1 := false, hold2 := false, status := 0,
     hold3 := false, retries := [], reloads := [2, 3] }]

/-- Turns of the supervisor in which the run exits with status 1, the first retry does so
too and the job is put on hold before the second; during the wait of the second turn the
job is reloaded with `Retry` 0. -/
def turnsOfReload : List Turn :=
  [{ stopped := false, updating := false, hold1 := false, hold2 := false, status := 1,
     hold3 := false,
     retries := [{ hold := false, restarting := false, stopped := false, status := 1 },
                 { hold := true, restarting := false, stopped := false, status := 0 }] },
   { stopped := true, updating := false, hold1 := false, hold2 := false, status := 0,
     hold3 := false, retries := [], reloads := [0] }]

/-- The job record `LoadJobSpec` starts from for a configured `maxhistory` of 5. -/
def jobOfFive : Job := { Job.zero with Disabled := true, Timezone := "UTC", MaxHistory := 5 }

/-- The specification of a job named `nightly` that runs `/bin/true`. -/
def specNightly : JobSpec := { Name := "nightly", Cmd := some "/bin/true" }

/-- A template `base` that sets the shutdown command and signal, the shell, `Rollback` and
`RequireCal`. -/
def templateBase : JobSpec :=
  { Name := "base", Type_ := some "template", ShutdownCmd := "/opt/stop.sh",
    ShutdownSig := "SIGINT", Shell := some "/bin/bash", Rollback := some true,
    RequireCal := some true, Timezone := some "America/Chicago" }

/-- A template `derived` that inherits from `base` and sets only a calendar. -/
def templateDerived : JobSpec :=
  { Name := "derived", Type_ := some "template", Inherits := some "base",
    Calendar := some "NYSE" }

/-- The id of the controller `etl` and of its children `extract`, `transform`, `load`. -/
def idEtl : String := "aaaaaaaa-0000-4000-8000-000000000000"

/-- The id of the child `extract`. -/
def idExtract : String := "aaaaaaaa-0000-4000-8000-000000000001"

/-- The id of the child `transform`. -/
def idTransform : String := "aaaaaaaa-0000-4000-8000-000000000002"

/-- The id of the child `load`. -/
def idLoad : String := "aaaaaaaa-0000-4000-8000-000000000003"

/-- The children of the controller `etl`; `transform` is disabled. -/
def childrenOfEtl : List ChildSpec :=
  [{ Name := "extract", JobUUID := idExtract, Cmd := some "/opt/extract.sh" },
   { Name := "transform", JobUUID := idTransform, Cmd := some "/opt/transform.sh",
     Disabled := true },
   { Name := "load", JobUUID := idLoad, Cmd := some "/opt/load.sh" }]

/-- A controller `etl` with the three children and a `JobsControl` without a delay. -/
def specEtl : JobSpec :=
  { Name := "etl", JobUUID := idEtl, CronStart := some ["0 2 * * *"],
    JobsControl := some JobsControl.zero, Jobs := some childrenOfEtl }

/-- The job record of the controller `etl` when the loop over its children starts. -/
def jobEtl : Job :=
  { Job.zero with Name := "etl", JobUUID := idEtl, Group := some ["&nbsp;"], Timezone := "UTC" }

/-- The ids `uuid.New()` hands out: none of the specifications here asks for one. -/
def freshIds (k : Nat) : String := "ffffffff-0000-4000-8000-00000000000" ++ fmtInt 0 k

/-- A machine named `node1`; no job of the evaluations below has a `StartTime` or an
`EndTime`, so `ParseDayAndTime` is not called. -/
def hostNode1 : Host :=
  { hostname := "node1", tmpDir := "/tmp/rpeat",
    ParseDayAndTime := fun _ _ _ _ _ _ _ _ => ([], "") }

/-- The id of the job `nightly`. -/
def idNightly : String := "bbbbbbbb-0000-4000-8000-000000000001"

/-- The specification of the job `nightly`, which starts at 02:00 every day. -/
def specNightlyAtTwo : JobSpec :=
  { Name := "nightly", JobUUID := idNightly, Cmd := some "/bin/true",
    CronStart := some ["0 2 * * *"] }

/-- The record of the job `nightly` as it was saved while the job was running. -/
def snapshotRunning : Job :=
  { Job.zero with
    Name := "nightly", JobUUID := idNightly, Cmd := some "/bin/true",
    CronStartArray := some ["0 2 * * *"], CronStart := some "0 2 * * *", Timezone := "UTC",
    MaxHistory := 10, Group := some ["&nbsp;"], Host := "node1", TmpDir := "/tmp/rpeat",
    JobState := JRunning, JobStateString := "running", PrevJobState := JReady,
    PrevJobStateString := "ready", IsRunning := true, Pid := 4242 }

/-- The snapshot files of a server that has one for the job `nightly` only. -/
def snapshotsOfNightly (id : String) : Option Job :=
  if id = idNightly then some snapshotRunning else none

/-- An operating system for commands and variables without a `$`: `os.Expand` returns its
argument and calls the mapping for no name, `stripVars` finds no variable, every file is
executable and `ConvertDate` returns the date as it is written. -/
def osPlain : Os :=
  { Environ := ["HOME=/root"], Getenv := fun _ => "", Expand := fun s _ => s,
    expandNames := fun _ => [], stripVars := fun s => ([], s), isExecutable := fun _ => none,
    ConvertDate := fun d _ _ _ => Outcome.ret d, unixNow := 1710504000 }

/-- A job with one date variable and one variable. -/
def jobWithEnv : Job :=
  { jobIn JReady with DateEnv := some ["TODAY=CCYYMMDD"], Env := some ["MODE=fast"] }

/-- The job `nightly` while it runs: owned by `alice`, not held. -/
def runningNightly : Job :=
  { jobIn JRunning with
    Name := "nightly", JobUUID := idNightly, User := "alice", IsRunning := true, Pid := 4242 }

/-- The id of the job `weekly`. -/
def idWeekly : String := "bbbbbbbb-0000-4000-8000-000000000002"

/-- The job `weekly`, owned by `alice` like `nightly`. -/
def readyWeekly : Job :=
  { jobIn JReady with Name := "weekly", JobUUID := idWeekly, User := "alice" }

/-- The job table of a server with the jobs `nightly` and `weekly`. -/
def tableOfAlice : List (String × Job) := [(idNightly, runningNightly), (idWeekly, readyWeekly)]

/-- A `start` dependency on the job `jobA` reaching `success`, without delay. -/
def startAfterJobA : Dependency :=
  { Dependencies := [("jobA", "success")], Action := "start", Condition := "all", N := 0,
    Trigger := "", All := false, UpdateDep := false, Delay := "", QueueJobs := false }

/-- The evaluator that `AddClient` registers for `startAfterJobA` and an owner job that is
triggered by its dependencies, not running and without failures. -/
def clientOfStart : DependencyClient :=
  AddClient { IsRunning := false, nfailures := 0 } startAfterJobA true false

/-- The controller `etl` with `MaxFailures = 3` in its `JobsControl`. -/
def specEtlMaxFailures : JobSpec :=
  { specEtl with
    JobsControl := some { Delay := "", MaxConcurrent := 0, MaxFailures := 3, nfailures := 0 } }

/-- The parameters of `LoadJobSpec` used in the evaluations: the file `jobs.json`, a history
of 10, no template, no log rotation. -/
def argsOfTest : LoadArgs :=
  { config := "jobs.json", maxhistory := 10, templates := [], servername := "server",
    serverkey := "key", apikey := "", logging := JobLogging.zero, tickIntervalSecs := 30,
    tickMissedThresholdSecs := 15 }

/-- The variables of the loop of `LoadJobSpec` before the first specification. -/
def loadStart : LoadState := { done := [], stale := none, specs := [], groups := [], k := 0 }

/-- The variables of the loop of `LoadJobSpec` after the turn for the controller
`specEtlMaxFailures` (`loadStart` if the turn did not return). -/
def loadedEtl : LoadState :=
  match loadStep (utcEnv 2024 3 15 12 0 0 []) freshIds argsOfTest [specEtlMaxFailures]
      specEtlMaxFailures loadStart with
  | Outcome.ret st => st
  | _ => loadStart

/-- The job `nightly` as loaded before a reload: it starts after the job `jobA`. -/
def nightlyAfterJobA : Job :=
  { jobIn JReady with
    Name := "nightly", JobUUID := idNightly, Cmd := some "/bin/true",
    Dependency := [startAfterJobA] }

/-- The job `nightly` as loaded by the reload: the dependency has been taken out of the
configuration. -/
def nightlyWithoutDependency : Job := { nightlyAfterJobA with Dependency := [] }

/-- A job without a command: a job that only holds a place in a chain of dependencies. -/
def jobWithoutCmd : Job := { jobIn JReady with Name := "marker", JobUUID := idWeekly }

/-- A machine with the directories `/etc/cal` and `/opt/cal`; the calendar `NYSE` is a file
of `/opt/cal` only, and its second line is not a date. -/
def filesOfTwoDirs : Files :=
  { Stat := fun p =>
      if p = "/etc/cal" ∨ p = "/opt/cal" ∨ p = "/opt/cal/NYSE" then none
      else some ("stat " ++ p ++ ": no such file or directory"),
    Join := fun d n => d ++ "/" ++ n,
    Open := fun p =>
      if p = "/opt/cal/NYSE" then Except.ok ["20240101", "holiday", "20240527"]
      else Except.error ("open " ++ p ++ ": no such file or directory") }

/-- A calendar of four business days of January 2024; the 4th is not among them. -/
def calOfJanuary (forward : Bool) : Cal :=
  { NewCal "MF" with DatesIn := [20240102, 20240103, 20240105, 20240108], Forward := forward }

/-- Noon of 2024-01-04, UTC. -/
def noonOfJanuary4 : Time := goDate 2024 1 4 12 0 0 0 0

/-- A machine without files. -/
def filesOfNothing : Files :=
  { Stat := fun p => some ("stat " ++ p ++ ": no such file or directory"),
    Join := fun d n => d ++ "/" ++ n,
    Open := fun p => Except.error ("open " ++ p ++ ": no such file or directory") }

/-! ## Theorems -/

/-- C2: when the target state `s` differs from the current state and the legality table
rejects it, `setJobState` returns a non-nil error and leaves `JobState`, `JobStateString`,
`PrevJobState`, `PrevJobStateString` and `History` as they were. -/
theorem setJobState_illegal_is_noop (job : Job) (s : JState) (unixNow : Int)
    (hne : s ≠ job.JobState) (hbad : isValidJobStateChange job s = false) :
    (setJobState job s unixNow).err ≠ none ∧
    (setJobState job s unixNow).job.JobState = job.JobState ∧
    (setJobState job s unixNow).job.JobStateString = job.JobStateString ∧
    (setJobState job s unixNow).job.PrevJobState = job.PrevJobState ∧
    (setJobState job s unixNow).job.PrevJobStateString = job.PrevJobStateString ∧
    (setJobState job s unixNow).job.History = job.History := by
  simp [setJobState, hne, hbad]

/-- C2, at a concrete input: a job that is `retrying` cannot be set to `failed`. -/
theorem setJobState_illegal_is_noop_witness :
    (setJobState (jobIn JRetrying) JFailed 1700000000).err ≠ none ∧
    (setJobState (jobIn JRetrying) JFailed 1700000000).job.JobState = JRetrying ∧
    (setJobState (jobIn JRetrying) JFailed 1700000000).job.JobStateString = "retrying" ∧
    (setJobState (jobIn JRetrying) JFailed 1700000000).job.PrevJobState = JReady ∧
    (setJobState (jobIn JRetrying) JFailed 1700000000).job.PrevJobStateString = "ready" ∧
    (setJobState (jobIn JRetrying) JFailed 1700000000).job.History = [] :=
  setJobState_illegal_is_noop (jobIn JRetrying) JFailed 1700000000 (by decide) (by decide)

/-- C3 as stated fails: the legality table does not accept every transition of the diagram;
it rejects `retrying → failed`. -/
theorem diagram_not_all_accepted :
    ¬ (diagramTransitions.all fun p => isValidJobStateChange (jobIn p.1) p.2) = true := by
  decide

/-- C3, amended: whatever the other fields of the job, the legality table accepts every
transition of the diagram except `retrying → failed` and `restart → ready`, and it rejects
these two. -/
theorem diagram_accepted_except_two (job : Job) :
    ((diagramTransitions.filter fun p =>
        p ≠ (JRetrying, JFailed) ∧ p ≠ (JRestart, JReady)).all fun p =>
      isValidJobStateChange { job with JobState := p.1 } p.2) = true ∧
    isValidJobStateChange { job with JobState := JRetrying } JFailed = false ∧
    isValidJobStateChange { job with JobState := JRestart } JReady = false := by
  refine ⟨?_, rfl, rfl⟩
  rfl

/-- C7, the code at malformed fields: a step that is not a number ends the process through
`log.Fatal`, a zero step panics, and a token that is not a number is read as 0 and returned
with a nil error. -/
theorem ParseCron_malformed_fields :
    ParseCron (utcEnv 2024 3 15 12 0 0 []) "*/x * * * *" "UTC" "" [] false false 0
      = Outcome.fatal ∧
    ParseCron (utcEnv 2024 3 15 12 0 0 []) "*/0 * * * *" "UTC" "" [] false false 0
      = Outcome.panicked ∧
    ParseCron (utcEnv 2024 3 15 12 0 0 []) "5-1 * * * *" "UTC" "" [] false false 0
      = Outcome.panicked ∧
    (∃ c, ParseCron (utcEnv 2024 3 15 12 0 0 []) "0 0 x * *" "UTC" "" [] false false 0
      = Outcome.ret (c, none) ∧ c.Spec.Mday = [0]) := by
  refine ⟨by decide, by decide, by decide, ?_⟩
  exact ⟨_, rfl, by decide⟩

/-- C8, the code at a full weekday name: `MONDAY` expands to `[0]` (Sunday), not `[1]`,
because `MON` is replaced first and the rest, `1DAY`, is not a number. The three-letter
name `MON` expands to `[1]`. -/
theorem expandField_full_weekday_name (seed : Nat) :
    expandField "MONDAY" 0 6 seed = Outcome.ret ([0], false) ∧
    expandField "monday" 0 6 seed = Outcome.ret ([0], false) ∧
    expandField "MON" 0 6 seed = Outcome.ret ([1], false) ∧
    expandField "DECEMBER" 1 12 seed = Outcome.ret ([0], false) := by
  refine ⟨rfl, rfl, rfl, rfl⟩

set_option maxRecDepth 100000 in
/-- C1, the code at `* * * * * *` (UTC, no calendar) when the clock shows 12:00:59: the
expression parses with a nil error, and `NextStart` returns a nil error with the zero
instant, which is before the clock, and the most negative duration, because the second
chosen is 60 and the timestamp `20240315120060` does not parse. -/
theorem NextStart_every_second_at_59 :
    parseThenNext (utcEnv 2024 3 15 12 0 59 []) "* * * * * *" "UTC" "" false
      = Outcome.ret (none, { d := MinInt64, next := ZeroTime, err := none }) ∧
    ZeroTime.ns < (utcEnv 2024 3 15 12 0 59 []).clock ∧ MinInt64 < 0 := by
  decide!

set_option maxRecDepth 100000 in
/-- C5, the code at `@eom` (UTC) with a calendar of seven business days around the end of
March 2024, when the clock shows 2024-03-15 12:00:00: the last calendar-valid day of March
is 2024-03-29, and `NextStart` returns 2024-04-01 00:00:00 with a nil error; 2024-04-01 is
not the last calendar-valid day of April, 2024-04-02 being in the calendar. -/
theorem NextStart_eom_mid_month :
    parseThenNext
        (utcEnv 2024 3 15 12 0 0
          [20240228, 20240229, 20240301, 20240328, 20240329, 20240401, 20240402])
        "@eom" "UTC" "bizdays" false
      = Outcome.ret (none, { d := 1425599999000000, next := goDate 2024 4 1 0 0 0 0 0,
                             err := none }) ∧
    (goDate 2024 4 1 0 0 0 0 0).Date = (2024, 4, 1) := by
  decide!

set_option maxRecDepth 100000 in
/-- C6, the code at `@monthly` with `RequireCal` and a calendar whose only date, 2020-01-01,
is before the reference date 2024-03-15: `NextStart` returns 2024-04-01 00:00:00 with a nil
error. -/
theorem NextStart_requireCal_exhausted :
    parseThenNext (utcEnv 2024 3 15 10 0 0 [20200101]) "@monthly" "UTC" "holidays" true
      = Outcome.ret (none, { d := 1432799999000000, next := goDate 2024 4 1 0 0 0 0 0,
                             err := none }) := by
  decide!

/-- The loop of `NextCronStart` entered at an index other than 0: when every call of
`getNextStart` returns, the loop returns either the value it was entered with, no result
being below it, or the first of the results that is lowest and below that value. -/
theorem nextCronStartLoop_spec (env : Env) :
    ∀ (cs : List Cron) (rs : List (Int × Time)) (i : Nat) (acc : Int × Time),
      i ≠ 0 → cs.map (getNextStart env) = rs.map Outcome.ret →
      ∃ res, nextCronStartLoop env cs i acc = Outcome.ret res ∧
        ((res = acc ∧ ∀ r ∈ rs, acc.1 ≤ r.1) ∨
         (∃ k, ∃ h : k < rs.length, res = rs.get ⟨k, h⟩ ∧ res.1 < acc.1 ∧
            (∀ r ∈ rs, res.1 ≤ r.1) ∧
            ∀ j, ∀ hj : j < rs.length, j < k → res.1 < (rs.get ⟨j, hj⟩).1)) := by
  intro cs
  induction cs with
  | nil =>
      intro rs i acc _ hmap
      cases rs with
      | nil => exact ⟨acc, rfl, Or.inl ⟨rfl, by simp⟩⟩
      | cons r rs => simp at hmap
  | cons c cs ih =>
      intro rs i acc hi hmap
      cases rs with
      | nil => simp at hmap
      | cons r rs =>
          simp only [List.map_cons, List.cons.injEq] at hmap
          obtain ⟨hc, hrest⟩ := hmap
          by_cases hlt : acc.1 > r.1
          · obtain ⟨res, hres, hcase⟩ := ih rs (i + 1) r (Nat.succ_ne_zero i) hrest
            refine ⟨res, ?_, Or.inr ?_⟩
            · simp [nextCronStartLoop, hc, Outcome.bind, hi, hlt, hres]
            · rcases hcase with ⟨heq, hall⟩ | ⟨k, hk, heq, hlt2, hall, hfirst⟩
              · refine ⟨0, by simp, by simp [heq], by rw [heq]; exact hlt, ?_, ?_⟩
                · intro r' hr'
                  rcases List.mem_cons.mp hr' with h | h
                  · rw [heq, h]
                  · rw [heq]; exact hall r' h
                · intro j hj hj0; omega
              · refine ⟨k + 1, by simp; omega, by simp [heq], by omega, ?_, ?_⟩
                · intro r' hr'
                  rcases List.mem_cons.mp hr' with h | h
                  · rw [h]; omega
                  · exact hall r' h
                · intro j hj hjk
                  cases j with
                  | zero => simpa using hlt2
                  | succ j =>
                      have := hfirst j (by simpa using hj) (by omega)
                      simpa using this
          · obtain ⟨res, hres, hcase⟩ := ih rs (i + 1) acc (Nat.succ_ne_zero i) hrest
            refine ⟨res, ?_, ?_⟩
            · simp [nextCronStartLoop, hc, Outcome.bind, hi, hlt, hres]
            · rcases hcase with ⟨heq, hall⟩ | ⟨k, hk, heq, hlt2, hall, hfirst⟩
              · refine Or.inl ⟨heq, ?_⟩
                intro r' hr'
                rcases List.mem_cons.mp hr' with h | h
                · rw [h]; omega
                · exact hall r' h
              · refine Or.inr ⟨k + 1, by simp; omega, by simp [heq], hlt2, ?_, ?_⟩
                · intro r' hr'
                  rcases List.mem_cons.mp hr' with h | h
                  · rw [h]; omega
                  · exact hall r' h
                · intro j hj hjk
                  cases j with
                  | zero => simp; omega
                  | succ j =>
                      have := hfirst j (by simpa using hj) (by omega)
                      simpa using this

/-- The first loop of `CheckDependency` does not change `IsRunning` of the owner. -/
theorem checkKeys_IsRunning (d : Dependency) (e : depEvt) (js : String) :
    ∀ (deps : List (String × String)) (client : DependencyClient) (b : Bool),
      (checkKeys d e js deps client b).1.job.IsRunning = client.job.IsRunning := by
  intro deps
  induction deps with
  | nil => intro client b; rfl
  | cons p rest ih =>
      intro client b
      obtain ⟨uuid, trigger⟩ := p
      simp only [checkKeys]
      split_ifs <;> simp [ih]

/-- The first loop of `CheckDependency` changes the failure counter of the owner only for
the action `completed_failed`. -/
theorem checkKeys_nfailures (d : Dependency) (e : depEvt) (js : String)
    (hact : d.Action ≠ "completed_failed") :
    ∀ (deps : List (String × String)) (client : DependencyClient) (b : Bool),
      (checkKeys d e js deps client b).1.job.nfailures = client.job.nfailures := by
  intro deps
  induction deps with
  | nil => intro client b; rfl
  | cons p rest ih =>
      intro client b
      obtain ⟨uuid, trigger⟩ := p
      simp only [checkKeys]
      split_ifs <;> first
        | rfl
        | exact ih _ _
        | (rw [ih]; done)
        | (exfalso; simp_all)

/-- When the first loop of `CheckDependency` runs to its end and the event matches a key
(or the flag was set before), the flag `isDependencyOf` is set. -/
theorem checkKeys_flag (d : Dependency) (e : depEvt) (js : String) :
    ∀ (deps : List (String × String)) (client c1 : DependencyClient) (b b1 : Bool),
      checkKeys d e js deps client b = (c1, some b1) →
      (b = true ∨ ∃ p ∈ deps, e.JobUUID = p.1 ∨ e.Name = p.1) → b1 = true := by
  intro deps
  induction deps with
  | nil =>
      intro client c1 b b1 h hm
      simp only [checkKeys, Prod.mk.injEq, Option.some.injEq] at h
      rcases hm with hb | ⟨p, hp, _⟩
      · rw [← h.2]; exact hb
      · simp at hp
  | cons p rest ih =>
      intro client c1 b b1 h hm
      obtain ⟨uuid, trigger⟩ := p
      by_cases h1 : (e.JobUUID == uuid || e.Name == uuid) = true
      · simp only [checkKeys, h1, if_true] at h
        split_ifs at h <;> first
          | exact ih _ _ _ _ h (Or.inl rfl)
          | simp at h
      · simp only [checkKeys, h1] at h
        refine ih _ _ _ _ h ?_
        rcases hm with hb | ⟨p, hp, hpm⟩
        · exact Or.inl hb
        · rcases List.mem_cons.mp hp with hpe | hpr
          · subst hpe
            simp only [Bool.or_eq_true, beq_iff_eq, not_or] at h1
            rcases hpm with hx | hx
            · exact absurd hx h1.1
            · exact absurd hx h1.2
          · exact Or.inr ⟨p, hpr, hpm⟩

/-- The loop of the condition `all` returns the conjunction of its start value and of the
latches of all keys. -/
theorem allLoop_eq_true (client : DependencyClient) :
    ∀ (deps : List (String × String)) (ok : Bool),
      allLoop client deps ok = true ↔
        (ok = true ∧ ∀ p ∈ deps, mapGet client.states p.1 false = true) := by
  intro deps
  induction deps with
  | nil => intro ok; simp [allLoop]
  | cons p rest ih =>
      intro ok
      obtain ⟨uuid, trigger⟩ := p
      simp only [allLoop, ih, Bool.and_eq_true, List.mem_cons, forall_eq_or_imp]
      tauto

/-- The loop of the condition `any`, entered with a count below `dN`, returns `true` exactly
when the count plus the number of latched keys reaches `dN`. -/
theorem anyLoop_eq_true (client : DependencyClient) (dN : Int) :
    ∀ (deps : List (String × String)) (N : Int), N < dN →
      (anyLoop client dN deps N = true ↔
        dN ≤ N + (((deps.map Prod.fst).filter fun k => mapGet client.states k false).length : Int)) := by
  intro deps
  induction deps with
  | nil => intro N hN; simp [anyLoop]; omega
  | cons p rest ih =>
      intro N hN
      obtain ⟨uuid, trigger⟩ := p
      simp only [anyLoop, List.map_cons, List.filter_cons]
      by_cases hl : mapGet client.states uuid false = true
      · simp only [hl, if_true, List.length_cons]
        by_cases hge : N + 1 ≥ dN
        · simp [hge]; omega
        · simp only [hge, if_false]
          rw [ih (N + 1) (by omega)]
          push_cast; omega
      · simp only [hl, if_false]
        have hge : ¬ N ≥ dN := by omega
        simp only [hge, if_false, Bool.false_eq_true]
        exact ih N hN

/-- Under the conditions of C9 and C10 (the dep-not-ok path is not taken, the event matches
a key, the owner is not running and its failure counter does not exceed `d.N`),
`CheckDependency` returns the client as the first loop left it, with the verdict of the
loop of the condition. -/
theorem CheckDependency_unfold (client : DependencyClient) (d : Dependency) (e : depEvt)
    (hmatch : ∃ p ∈ d.Dependencies, e.JobUUID = p.1 ∨ e.Name = p.1)
    (hnot : (CheckDependency client d e).isDepNotOK = false)
    (hrun : client.job.IsRunning = false)
    (hfail : client.job.nfailures ≤ d.N) :
    (CheckDependency client d e).isOK =
      (if d.Condition == "all" then
         allLoop (CheckDependency client d e).client d.Dependencies true
       else if d.Condition == "any" then
         anyLoop (CheckDependency client d e).client d.N d.Dependencies 0
       else false) := by
  generalize hjs : (if e.JobState.String == "manualsuccess" then "success"
    else e.JobState.String) = js
  have hR := checkKeys_IsRunning d e js d.Dependencies client false
  have hF := checkKeys_nfailures d e js
  have hFl := checkKeys_flag d e js d.Dependencies client
  rcases hck : checkKeys d e js d.Dependencies client false with ⟨c1, o⟩
  rw [hck] at hR
  simp only [CheckDependency, hjs, hck] at hnot ⊢
  rcases o with _ | b
  · simp at hnot
  · have hb : b = true := hFl c1 false b hck (Or.inr hmatch)
    subst hb
    simp only at hR
    have hstart : (d.Action == "start" && decide (c1.job.nfailures > d.N)) = false := by
      by_cases ha : d.Action = "start"
      · have hne : d.Action ≠ "completed_failed" := by rw [ha]; decide
        have := hF hne d.Dependencies client false
        rw [hck] at this
        simp only at this
        simp [this]; omega
      · simp [ha]
    simp [hR, hrun, hstart]

/-- C9: for the condition `all`, when the event matches a key of the dependency without
taking the dep-not-ok path, the owner is not running and its failure counter does not
exceed `d.N`, `CheckDependency` returns `isOK = true` exactly when the latch of every key
of the dependency is set after the event. -/
theorem CheckDependency_all_iff (client : DependencyClient) (d : Dependency) (e : depEvt)
    (hcond : d.Condition = "all")
    (hmatch : ∃ p ∈ d.Dependencies, e.JobUUID = p.1 ∨ e.Name = p.1)
    (hnot : (CheckDependency client d e).isDepNotOK = false)
    (hrun : client.job.IsRunning = false)
    (hfail : client.job.nfailures ≤ d.N) :
    (CheckDependency client d e).isOK = true ↔
      ∀ p ∈ d.Dependencies, mapGet (CheckDependency client d e).client.states p.1 false = true := by
  rw [CheckDependency_unfold client d e hmatch hnot hrun hfail]
  simp [hcond, allLoop_eq_true]

/-- C10: registration replaces `N = 0` by 1 for the condition `any`; and for the condition
`any` with `N = k ≥ 1`, when the event matches a key of the dependency without taking the
dep-not-ok path, the owner is not running and its failure counter does not exceed `N`,
`CheckDependency` returns `isOK = true` exactly when at least `k` of the keys of the
dependency (distinct, being the keys of a map) have their latch set after the event. -/
theorem CheckDependency_any_iff (client : DependencyClient) (d : Dependency) (e : depEvt)
    (hcond : d.Condition = "any") (hN : 1 ≤ d.N)
    (hmatch : ∃ p ∈ d.Dependencies, e.JobUUID = p.1 ∨ e.Name = p.1)
    (hnot : (CheckDependency client d e).isDepNotOK = false)
    (hrun : client.job.IsRunning = false)
    (hfail : client.job.nfailures ≤ d.N) :
    ((CheckDependency client d e).isOK = true ↔
      d.N ≤ (((d.Dependencies.map Prod.fst).filter fun k =>
        mapGet (CheckDependency client d e).client.states k false).length : Int)) ∧
    (∀ (job : OwnerJob) (dep : Dependency) (b1 b2 : Bool),
      dep.Condition = "any" → dep.N = 0 → (AddClient job dep b1 b2).dependency.N = 1) := by
  constructor
  · rw [CheckDependency_unfold client d e hmatch hnot hrun hfail]
    have hne : (d.Condition == "all") = false := by rw [hcond]; decide
    have heq : (d.Condition == "any") = true := by rw [hcond]; decide
    simp only [hne, heq, if_true, Bool.false_eq_true, if_false]
    rw [anyLoop_eq_true _ _ _ 0 (by omega)]
    simp
  · intro job dep b1 b2 hc h0
    simp [AddClient, hc, h0]

/-- C4: for a non-empty array of crons each of whose `getNextStart` returns (the results
being `rs`, in order), `NextCronStart` returns the result of the first element whose
duration is the minimum of all; and an element that is null or dependent (and neither
`@every` nor `@at`) has the sentinel duration `MaxInt64` with the zero instant. -/
theorem NextCronStart_first_minimum (env : Env) (cs : List Cron) (rs : List (Int × Time))
    (hne : cs ≠ []) (hret : cs.map (getNextStart env) = rs.map Outcome.ret) :
    (∃ k, ∃ h : k < rs.length, NextCronStart env cs = Outcome.ret (rs.get ⟨k, h⟩) ∧
        (∀ r ∈ rs, (rs.get ⟨k, h⟩).1 ≤ r.1) ∧
        ∀ j, ∀ hj : j < rs.length, j < k → (rs.get ⟨k, h⟩).1 < (rs.get ⟨j, hj⟩).1) ∧
    (∀ c ∈ cs, (c.IsNull = true ∨ c.isDependent = true) → c.IsEvery = false →
        c.IsAt = false → getNextStart env c = Outcome.ret (MaxInt64, ZeroTime)) := by
  constructor
  · cases cs with
    | nil => exact absurd rfl hne
    | cons c cs =>
        cases rs with
        | nil => simp at hret
        | cons r rs =>
            simp only [List.map_cons, List.cons.injEq] at hret
            obtain ⟨hc, hrest⟩ := hret
            obtain ⟨res, hres, hcase⟩ := nextCronStartLoop_spec env cs rs 1 r (by decide) hrest
            have hrun : NextCronStart env (c :: cs) = Outcome.ret res := by
              simp [NextCronStart, nextCronStartLoop, hc, Outcome.bind, hres]
            rcases hcase with ⟨heq, hall⟩ | ⟨k, hk, heq, hlt, hall, hfirst⟩
            · refine ⟨0, by simp, by simp [hrun, heq], ?_, ?_⟩
              · intro r' hr'
                rcases List.mem_cons.mp hr' with h | h
                · simp [h]
                · simpa using hall r' h
              · intro j hj hj0; omega
            · refine ⟨k + 1, by simp; omega, by simp [hrun, heq], ?_, ?_⟩
              · intro r' hr'
                rcases List.mem_cons.mp hr' with h | h
                · simp only [List.get_eq_getElem, List.getElem_cons_succ, h]
                  rw [List.get_eq_getElem] at heq
                  rw [← heq]; omega
                · simp only [List.get_eq_getElem, List.getElem_cons_succ]
                  rw [List.get_eq_getElem] at heq
                  rw [← heq]; exact hall r' h
              · intro j hj hjk
                simp only [List.get_eq_getElem, List.getElem_cons_succ]
                rw [List.get_eq_getElem] at heq
                rw [← heq]
                cases j with
                | zero => simpa using hlt
                | succ j =>
                    have := hfirst j (by simpa using hj) (by omega)
                    simpa using this
  · intro c _ hnull hev hat
    have hor : (c.IsNull || c.isDependent) = true := by
      rcases hnull with h | h <;> simp [h]
    simp [getNextStart, hev, hat, hor]

/-- C4, at a concrete input: the array `@manual`, `@every 5s`, `@depends`, whose results
are the sentinel, five seconds, the sentinel. -/
theorem NextCronStart_first_minimum_witness :
    arrayOfThree ≠ [] ∧
    arrayOfThree.map (getNextStart (utcEnv 2024 3 15 12 0 0 []))
      = [(MaxInt64, ZeroTime), (5 * Second, goDate 2024 3 15 12 0 5 0 0),
         (MaxInt64, ZeroTime)].map Outcome.ret ∧
    ((∃ k, ∃ h : k < [(MaxInt64, ZeroTime), (5 * Second, goDate 2024 3 15 12 0 5 0 0),
          (MaxInt64, ZeroTime)].length,
        NextCronStart (utcEnv 2024 3 15 12 0 0 []) arrayOfThree
          = Outcome.ret ([(MaxInt64, ZeroTime), (5 * Second, goDate 2024 3 15 12 0 5 0 0),
              (MaxInt64, ZeroTime)].get ⟨k, h⟩) ∧
        (∀ r ∈ [(MaxInt64, ZeroTime), (5 * Second, goDate 2024 3 15 12 0 5 0 0),
            (MaxInt64, ZeroTime)],
          ([(MaxInt64, ZeroTime), (5 * Second, goDate 2024 3 15 12 0 5 0 0),
            (MaxInt64, ZeroTime)].get ⟨k, h⟩).1 ≤ r.1) ∧
        ∀ j, ∀ hj : j < [(MaxInt64, ZeroTime), (5 * Second, goDate 2024 3 15 12 0 5 0 0),
            (MaxInt64, ZeroTime)].length, j < k →
          ([(MaxInt64, ZeroTime), (5 * Second, goDate 2024 3 15 12 0 5 0 0),
            (MaxInt64, ZeroTime)].get ⟨k, h⟩).1
            < ([(MaxInt64, ZeroTime), (5 * Second, goDate 2024 3 15 12 0 5 0 0),
                (MaxInt64, ZeroTime)].get ⟨j, hj⟩).1) ∧
     (∀ c ∈ arrayOfThree, (c.IsNull = true ∨ c.isDependent = true) → c.IsEvery = false →
        c.IsAt = false →
        getNextStart (utcEnv 2024 3 15 12 0 0 []) c = Outcome.ret (MaxInt64, ZeroTime))) :=
  ⟨by decide, by decide,
   NextCronStart_first_minimum (utcEnv 2024 3 15 12 0 0 []) arrayOfThree
     [(MaxInt64, ZeroTime), (5 * Second, goDate 2024 3 15 12 0 5 0 0), (MaxInt64, ZeroTime)]
     (by decide) (by decide)⟩

/-- C9, at a concrete input: `jobB` is latched, the event latches `jobA`, and the verdict is
`true`. -/
theorem CheckDependency_all_iff_witness :
    (CheckDependency (clientOfTwo "all" 0) (depOnTwo "all" 0) evtJobA).isDepNotOK = false ∧
    (CheckDependency (clientOfTwo "all" 0) (depOnTwo "all" 0) evtJobA).isOK = true ∧
    ((CheckDependency (clientOfTwo "all" 0) (depOnTwo "all" 0) evtJobA).isOK = true ↔
      ∀ p ∈ (depOnTwo "all" 0).Dependencies,
        mapGet (CheckDependency (clientOfTwo "all" 0) (depOnTwo "all" 0) evtJobA).client.states
          p.1 false = true) :=
  ⟨by decide, by decide,
   CheckDependency_all_iff (clientOfTwo "all" 0) (depOnTwo "all" 0) evtJobA (by decide)
     ⟨("jobA", "success"), by decide, Or.inr (by decide)⟩ (by decide) (by decide) (by decide)⟩

/-- C10, at a concrete input: with `N = 2`, `jobB` latched and the event latching `jobA`,
the verdict is `true`. -/
theorem CheckDependency_any_iff_witness :
    (CheckDependency (clientOfTwo "any" 2) (depOnTwo "any" 2) evtJobA).isDepNotOK = false ∧
    (CheckDependency (clientOfTwo "any" 2) (depOnTwo "any" 2) evtJobA).isOK = true ∧
    ((CheckDependency (clientOfTwo "any" 2) (depOnTwo "any" 2) evtJobA).isOK = true ↔
      (depOnTwo "any" 2).N ≤
        ((((depOnTwo "any" 2).Dependencies.map Prod.fst).filter fun k =>
          mapGet (CheckDependency (clientOfTwo "any" 2) (depOnTwo "any" 2) evtJobA).client.states
            k false).length : Int)) :=
  ⟨by decide, by decide,
   (CheckDependency_any_iff (clientOfTwo "any" 2) (depOnTwo "any" 2) evtJobA (by decide)
     (by decide) ⟨("jobA", "success"), by decide, Or.inr (by decide)⟩ (by decide) (by decide)
     (by decide)).1⟩

/-- Indexing inside the bounds returns the element. -/
theorem index_getD {α : Type} (xs : List α) (i : Nat) (d : α) (h : i < xs.length) :
    index xs (i : Int) = Outcome.ret (xs.getD i d) := by
  have h0 : ¬ ((i : Int) < 0) := by omega
  simp [index, h0, List.getD, List.getElem?_eq_getElem h]

/-- An element read inside the bounds belongs to the list. -/
theorem getD_mem {α : Type} (xs : List α) (i : Nat) (d : α) (h : i < xs.length) :
    xs.getD i d ∈ xs := by
  simp [List.getD, List.getElem?_eq_getElem h, List.getElem_mem]

/-- Reading characters that are not the separator only extends the current field. -/
theorem splitAux_no_sep (sep : Char) :
    ∀ (l rest cur : List Char) (acc : List String), sep ∉ l →
      splitAux sep (l ++ rest) cur acc = splitAux sep rest (l.reverse ++ cur) acc := by
  intro l
  induction l with
  | nil => intro rest cur acc _; rfl
  | cons c cs ih =>
      intro rest cur acc h
      have hc : c ≠ sep := fun e => h (by simp [e])
      have hcs : sep ∉ cs := fun e => h (by simp [e])
      simp only [List.cons_append, splitAux, hc, if_false, List.reverse_cons, List.append_assoc,
        List.singleton_append]
      exact ih rest (c :: cur) acc hcs

/-- Splitting a joined list of strings that hold no separator gives the list back. -/
theorem splitAux_joinChars (sep : Char) :
    ∀ (ds : List String) (acc : List String), ds ≠ [] → (∀ d ∈ ds, sep ∉ d.toList) →
      splitAux sep (joinChars [sep] ds) [] acc = acc.reverse ++ ds := by
  intro ds
  induction ds with
  | nil => intro acc h; exact absurd rfl h
  | cons a rest ih =>
      intro acc _ hno
      cases rest with
      | nil =>
          have h := splitAux_no_sep sep a.toList [] [] acc (hno a (by simp))
          simp only [List.append_nil] at h
          have h' : splitAux sep a.data [] acc = splitAux sep [] a.data.reverse acc := h
          simp [joinChars, h', splitAux]
      | cons b rest =>
          have h := splitAux_no_sep sep a.toList (sep :: joinChars [sep] (b :: rest)) [] acc
            (hno a (by simp))
          simp only [joinChars, List.append_assoc, List.singleton_append, h, splitAux, if_true,
            List.append_nil, List.reverse_reverse]
          rw [ih (String.mk a.toList :: acc) (by simp) (fun d hd => hno d (by simp [hd]))]
          simp

/-- `Split` undoes `Join` on strings without the separator. -/
theorem Split_Join (ds : List String) (hne : ds ≠ []) (hno : ∀ d ∈ ds, ',' ∉ d.toList) :
    Split (Join ds ",") ',' = ds := by
  have h := splitAux_joinChars ',' ds [] hne hno
  simpa [Split, Join] using h

/-- C12: for a `RetryWait` that is the series `d1,...,dn` (`n ≥ 1`, no comma inside an entry,
every entry a valid duration) and every retry `k ≥ 1`, `getRetryWait(k)` returns, without a
panic, the duration of `dk` when `k ≤ n` and the duration of `dn` when `k > n`. -/
theorem getRetryWait_series (env : Env) (job : Job) (ds : List String) (k : Int)
    (hne : ds ≠ []) (hno : ∀ d ∈ ds, ',' ∉ d.toList)
    (hvalid : ∀ d ∈ ds, (env.parseDuration d).isSome = true)
    (hjob : job.RetryWait = Join ds ",") (hk : 1 ≤ k) :
    (k ≤ (ds.length : Int) →
      ∃ v, env.parseDuration (ds.getD (k - 1).toNat "") = some v ∧
        getRetryWait env job k = Outcome.ret v) ∧
    ((ds.length : Int) < k →
      ∃ v, env.parseDuration (ds.getD (ds.length - 1) "") = some v ∧
        getRetryWait env job k = Outcome.ret v) := by
  have hsplit : Split job.RetryWait ',' = ds := by rw [hjob]; exact Split_Join ds hne hno
  have hlen : 0 < ds.length := List.length_pos.mpr hne
  have hl : ds.length - 1 < ds.length := by omega
  have hlast : index ds ((ds.length : Int) - 1) = Outcome.ret (ds.getD (ds.length - 1) "") := by
    have h := index_getD ds (ds.length - 1) "" hl
    have hc : ((ds.length - 1 : Nat) : Int) = (ds.length : Int) - 1 := by omega
    rwa [hc] at h
  constructor
  · intro hkn
    have hi : (k - 1).toNat < ds.length := by omega
    obtain ⟨v, hv⟩ := Option.isSome_iff_exists.mp (hvalid _ (getD_mem ds _ "" hi))
    refine ⟨v, hv, ?_⟩
    by_cases hlt : k < (ds.length : Int)
    · have h := index_getD ds (k - 1).toNat "" hi
      have hc : (((k - 1).toNat : Nat) : Int) = k - 1 := by omega
      rw [hc] at h
      simp only [getRetryWait, hsplit, hlast, Outcome.bind, hlt, if_true, h, hv, Option.getD_some]
    · have hkeq : (k - 1).toNat = ds.length - 1 := by omega
      rw [hkeq] at hv
      simp only [getRetryWait, hsplit, hlast, Outcome.bind, hlt, if_false, hv, Option.getD_some]
  · intro hkn
    obtain ⟨v, hv⟩ := Option.isSome_iff_exists.mp (hvalid _ (getD_mem ds _ "" hl))
    refine ⟨v, hv, ?_⟩
    have hlt : ¬ k < (ds.length : Int) := by omega
    simp only [getRetryWait, hsplit, hlast, Outcome.bind, hlt, if_false, hv, Option.getD_some]

/-- C12, at a concrete input: in the series `30s,5m,60m` the second retry waits five
minutes. -/
theorem getRetryWait_series_witness :
    (["30s", "5m", "60m"] : List String) ≠ [] ∧
    jobWithRetryWait.RetryWait = Join ["30s", "5m", "60m"] "," ∧
    getRetryWait retryEnv jobWithRetryWait 2 = Outcome.ret (300 * Second) ∧
    ((2 : Int) ≤ ((["30s", "5m", "60m"] : List String).length : Int) →
      ∃ v, retryEnv.parseDuration ((["30s", "5m", "60m"] : List String).getD ((2 : Int) - 1).toNat "")
          = some v ∧
        getRetryWait retryEnv jobWithRetryWait 2 = Outcome.ret v) :=
  ⟨by decide, by decide, by decide,
   (getRetryWait_series retryEnv jobWithRetryWait ["30s", "5m", "60m"] 2 (by decide)
     (by decide) (by decide) (by decide) (by decide)).1⟩

/-- A call of `setRetryAttempt` keeps the invariant. -/
theorem SupState.bounded_set (st : SupState) (h : st.bounded) : st.setRetryAttempt.bounded := by
  obtain ⟨h1, _, h3, h4⟩ := h
  refine ⟨h1, h1, h3, ?_⟩
  intro p hp
  rcases List.mem_cons.mp hp with e | e
  · rw [e]; exact h1
  · exact h4 p e

/-- An assignment to `retry` of a value within the bound keeps the invariant. -/
theorem SupState.bounded_retry (r : Int) (st : SupState) (h : st.bounded)
    (hr : r ≤ st.Retry) : ({ st with retry := r } : SupState).bounded := ⟨hr, h.2⟩

/-- An assignment to `s` keeps the invariant. -/
theorem SupState.bounded_s (x : Int) (st : SupState) (h : st.bounded) :
    ({ st with s := x } : SupState).bounded := h

/-- A reload that does not lower `Retry` keeps the invariant. -/
theorem SupState.bounded_reload (R : Int) (st : SupState) (h : st.bounded)
    (hR : st.Retry ≤ R) : (st.reload R).bounded := by
  obtain ⟨h1, h2, h3, h4⟩ := h
  refine ⟨le_trans h1 hR, le_trans h2 hR, le_trans h3 hR, ?_⟩
  intro p hp
  rcases List.mem_cons.mp hp with e | e
  · rw [e]; exact le_trans h2 hR
  · exact h4 p e

/-- The reloads of a turn keep the invariant when none of them lowers `Retry`. -/
theorem reloads_bounded :
    ∀ (rs : List Int) (st : SupState) (rest : List Int), st.bounded →
      List.Chain (· ≤ ·) st.Retry (rs ++ rest) →
      (rs.foldl SupState.reload st).bounded ∧
        List.Chain (· ≤ ·) (rs.foldl SupState.reload st).Retry rest := by
  intro rs
  induction rs with
  | nil => intro st rest h hc; exact ⟨h, hc⟩
  | cons r rs ih =>
      intro st rest h hc
      rw [List.cons_append, List.chain_cons] at hc
      exact ih (st.reload r) rest (SupState.bounded_reload r st h hc.1) hc.2

/-- One more attempt does not write `job.Retry`. -/
theorem retryRun_Retry (inp : RetryInput) (st : SupState) :
    (retryRun inp st).1.Retry = st.Retry := by
  unfold retryRun
  by_cases hs : inp.status = 0 <;> split_ifs <;>
    simp only [SupState.setRetryAttempt, hs, if_true, if_false]

/-- The retry loop does not write `job.Retry`. -/
theorem retryLoop_Retry :
    ∀ (inps : List RetryInput) (st : SupState), (retryLoop inps st).1.Retry = st.Retry := by
  intro inps
  induction inps with
  | nil => intro st; rfl
  | cons inp rest ih =>
      intro st
      have h2 := retryRun_Retry inp st.setRetryAttempt
      simp only [retryLoop]
      split_ifs
      · rfl
      · exact h2
      · exact h2
      · rw [ih]; exact h2

/-- One more attempt keeps the invariant. -/
theorem retryRun_bounded (inp : RetryInput) (st : SupState) (h : st.bounded) :
    (retryRun inp st).1.bounded := by
  obtain ⟨h1, h2, h3, h4⟩ := h
  unfold retryRun
  by_cases hs : inp.status = 0 <;>
    split_ifs <;>
    simp only [SupState.bounded, SupState.setRetryAttempt, List.forall_mem_cons, hs, if_true,
      if_false] <;>
    repeat' constructor
  all_goals first | omega | exact h4

/-- The retry loop keeps the invariant. -/
theorem retryLoop_bounded :
    ∀ (inps : List RetryInput) (st : SupState), st.bounded → (retryLoop inps st).1.bounded := by
  intro inps
  induction inps with
  | nil => intro st h; exact SupState.bounded_set st h
  | cons inp rest ih =>
      intro st h
      have h1 := SupState.bounded_set st h
      have h2 := retryRun_bounded inp _ h1
      simp only [retryLoop]
      split_ifs
      · exact h1
      · exact h2
      · exact SupState.bounded_set _ (SupState.bounded_retry _ _ h2 h2.2.2.1)
      · exact ih _ h2

/-- The outer loop keeps the invariant when no reload lowers `Retry`. -/
theorem supervisorLoop_bounded :
    ∀ (turns : List Turn) (st : SupState), st.bounded →
      List.Chain (· ≤ ·) st.Retry (reloadsOf turns) → (supervisorLoop turns st).bounded := by
  intro turns
  induction turns with
  | nil => intro st h _; exact SupState.bounded_set st h
  | cons t ts ih =>
      intro st h hc
      have hc1 : List.Chain (· ≤ ·) st.setRetryAttempt.Retry (t.reloads ++ reloadsOf ts) := by
        simpa [reloadsOf] using hc
      obtain ⟨h1, hc2⟩ := reloads_bounded t.reloads st.setRetryAttempt (reloadsOf ts)
        (SupState.bounded_set st h) hc1
      have key : ∀ st2 : SupState, st2.bounded →
          List.Chain (· ≤ ·) st2.Retry (reloadsOf ts) →
          (match retryLoop t.retries st2 with
            | (st3, LoopExit.broke) => supervisorLoop ts st3
            | (st3, LoopExit.returned) => st3
            | (st3, LoopExit.pending) => st3).bounded := by
        intro st2 hb hch
        have h3 := retryLoop_bounded t.retries st2 hb
        have h4 := retryLoop_Retry t.retries st2
        rcases hr : retryLoop t.retries st2 with ⟨st3, ex⟩
        rw [hr] at h3 h4
        simp only at h3 h4
        cases ex <;> simp only
        · exact ih _ h3 (by rw [h4]; exact hch)
        · exact h3
        · exact h3
      simp only [supervisorLoop]
      split_ifs
      all_goals first
        | exact h1
        | exact ih _ h1 hc2
        | exact ih _ (SupState.bounded_s _ _ h1) hc2
        | exact key _ h1 hc2

/-- C13 as stated fails, in two ways. With the configured `Retry = -1` the first value given
to `setRetryAttempt`, 0, exceeds `Retry`. With `Retry = 2`, a run and a first retry that
fail and a hold before the second retry, the retry loop is left with `retry = 1`; the next
turn sets `RetryAttempt` to 1, and a reload with `Retry = 0` during its wait leaves
`RetryAttempt` 1 above `Retry` 0. -/
theorem RetryAttempt_exceeds_Retry :
    RegisterJob (-1) [] = [(0, -1)] ∧
      RegisterJob 2 turnsOfReload = [(0, 2), (0, 2), (1, 2), (1, 2), (1, 2), (1, 0)] ∧
      ¬ ∀ (Retry : Int) (turns : List Turn), 0 ≤ Retry → (∀ R ∈ reloadsOf turns, 0 ≤ R) →
          ∀ p ∈ RegisterJob Retry turns, p.1 ≤ p.2 := by
  refine ⟨by decide, by decide, ?_⟩
  intro h
  have := h 2 turnsOfReload (by decide) (by decide) (1, 0) (by decide)
  omega

/-- C13, amended: for a configured `Retry ≥ 0` that no reload lowers (`Retry` followed by
the values the reloads write is an ascending list), every input of the supervisor and every
point of its outer loop and its retry loop, the value of `RetryAttempt` is at most the
value of `Retry` at that point. -/
theorem RetryAttempt_le_Retry (Retry : Int) (turns : List Turn) (h0 : 0 ≤ Retry)
    (hreload : (Retry :: reloadsOf turns).Sorted (· ≤ ·)) :
    ∀ p ∈ RegisterJob Retry turns, p.1 ≤ p.2 := by
  intro p hp
  replace hreload : List.Chain (· ≤ ·) Retry (reloadsOf turns) :=
    List.chain_iff_pairwise.2 hreload
  have hinit : ({ retry := 0, s := 0, Retry := Retry, RetryAttempt := 0, trace := [] } :
      SupState).bounded :=
    ⟨h0, h0, h0, by intro v hv; simp at hv⟩
  have h := supervisorLoop_bounded turns _ hinit hreload
  exact h.2.2.2 p (by simpa [RegisterJob] using hp)

/-- Witness for C13: a job with `Retry = 2` whose run fails and whose two retries fail, and
which is then reloaded with `Retry` 2 and 3. -/
theorem RetryAttempt_le_Retry_witness :
    (0 : Int) ≤ 2 ∧ ((2 : Int) :: reloadsOf turnsOfFailures).Sorted (· ≤ ·) ∧
      ∀ p ∈ RegisterJob 2 turnsOfFailures, p.1 ≤ p.2 :=
  ⟨by decide, by decide, RetryAttempt_le_Retry 2 turnsOfFailures (by decide) (by decide)⟩

/-- The values of `RetryAttempt` and `Retry` in the run of the witness: both retries are
counted, and the reloads leave `RetryAttempt` at 0. -/
theorem RegisterJob_turnsOfFailures :
    RegisterJob 2 turnsOfFailures =
      [(0, 2), (0, 2), (1, 2), (1, 2), (2, 2), (0, 2), (0, 2), (0, 2), (0, 3)] := by decide

/-- The job that `copyJobSpec` returns has a history of ten entries and the `MaxHistory` it
had before. -/
theorem copyJobSpec_History {J : Type} (env : Env) (newUUID : String) (job : Job)
    (spec : JobSpecOf J) (r : Job × JobSpecOf J)
    (h : copyJobSpec env newUUID job spec = Outcome.ret r) :
    r.1.History.length = 10 ∧ r.1.MaxHistory = job.MaxHistory := by
  unfold copyJobSpec at h
  rcases hR : spec.Rollback with _ | b <;> rcases hC : spec.RequireCal with _ | c <;>
    simp only [hR, hC, Outcome.bind] at h
  all_goals first
    | (injection h with h; subst h; exact ⟨rfl, rfl⟩)
    | exact absurd h (by simp)

/-- A call of `addHistory` on a history longer than `MaxHistory` adds one entry and keeps
`MaxHistory`. -/
theorem addHistory_grows (job : Job) (h : job.MaxHistory < job.History.length) :
    (addHistory job).History.length = job.History.length + 1 ∧
      (addHistory job).MaxHistory = job.MaxHistory := by
  unfold addHistory
  simp only [List.length_cons]
  split_ifs with hc
  · exfalso; push_cast at hc; omega
  · exact ⟨rfl, rfl⟩

/-- Repeated calls of `addHistory` on a history longer than `MaxHistory`. -/
theorem addHistory_iterate (n : Nat) (job : Job) (h : job.MaxHistory < job.History.length) :
    (addHistory^[n] job).History.length = job.History.length + n ∧
      (addHistory^[n] job).MaxHistory = job.MaxHistory := by
  induction n generalizing job with
  | zero => exact ⟨rfl, rfl⟩
  | succ n ih =>
      have h1 := addHistory_grows job h
      have h2 := ih (addHistory job) (by rw [h1.1, h1.2]; push_cast; omega)
      rw [Function.iterate_succ_apply]
      refine ⟨?_, ?_⟩
      · rw [h2.1, h1.1]; omega
      · rw [h2.2, h1.2]

/-- C14 fails in the code: `copyJobSpec` on a job record whose `MaxHistory` is between 1 and
9 returns (its only panic is a `Rollback` without `RequireCal`) a job whose history has ten
entries, and after `n` calls of `addHistory` it has `10 + n`, more than `MaxHistory`. -/
theorem copyJobSpec_History_exceeds_MaxHistory {J : Type} (env : Env) (newUUID : String)
    (job : Job) (spec : JobSpecOf J)
    (hmax : 1 ≤ job.MaxHistory ∧ job.MaxHistory < 10)
    (hcal : spec.Rollback = none ∨ spec.RequireCal ≠ none) :
    ∃ r, copyJobSpec env newUUID job spec = Outcome.ret r ∧
      ∀ n : Nat, (addHistory^[n] r.1).History.length = 10 + n ∧
        (addHistory^[n] r.1).MaxHistory = job.MaxHistory ∧
        (addHistory^[n] r.1).MaxHistory < (addHistory^[n] r.1).History.length := by
  have hret : ∃ r, copyJobSpec env newUUID job spec = Outcome.ret r := by
    unfold copyJobSpec
    rcases hR : spec.Rollback with _ | b <;> rcases hC : spec.RequireCal with _ | c <;>
      simp only [hR, hC, Outcome.bind]
    · exact ⟨_, rfl⟩
    · exact ⟨_, rfl⟩
    · rcases hcal with h | h
      · rw [hR] at h; exact absurd h (by simp)
      · exact absurd hC h
    · exact ⟨_, rfl⟩
  obtain ⟨r, hr⟩ := hret
  refine ⟨r, hr, ?_⟩
  intro n
  have h1 := copyJobSpec_History env newUUID job spec r hr
  have h2 := addHistory_iterate n r.1 (by rw [h1.1, h1.2]; push_cast; omega)
  rw [h2.1, h2.2, h1.1, h1.2]
  refine ⟨rfl, rfl, ?_⟩
  push_cast
  omega

/-- Witness for C14: the job record `LoadJobSpec` starts from with `maxhistory = 5` and the
specification of a job named `nightly`. -/
theorem copyJobSpec_History_exceeds_MaxHistory_witness :
    ∃ r, copyJobSpec (utcEnv 2024 3 15 12 0 0 []) "u1" jobOfFive specNightly = Outcome.ret r ∧
      ∀ n : Nat, (addHistory^[n] r.1).History.length = 10 + n ∧
        (addHistory^[n] r.1).MaxHistory = jobOfFive.MaxHistory ∧
        (addHistory^[n] r.1).MaxHistory < (addHistory^[n] r.1).History.length :=
  copyJobSpec_History_exceeds_MaxHistory (utcEnv 2024 3 15 12 0 0 []) "u1" jobOfFive specNightly
    (by decide) (by decide)

/-- C19 fails in the code: of the templates `base` and `derived`, where `derived` inherits
from `base` and leaves `ShutdownCmd`, `ShutdownSig`, `Shell`, `Rollback` and `RequireCal`
unset, `LoadTemplates` resolves `derived` with these five fields unset, not with the values
of `base`; the `Timezone` of `base`, copied behind a test for `nil`, is inherited. -/
theorem LoadTemplates_unset_overrides_parent :
    ∃ out tmpl, LoadTemplates [("jobs.json", [templateBase, templateDerived])]
        = Outcome.ret (some out) ∧
      out.templates.lookup "derived" = some tmpl ∧
      tmpl.InheritanceChain = ["base", "derived"] ∧
      tmpl.ShutdownCmd = "" ∧ tmpl.ShutdownSig = "" ∧ tmpl.Shell = none ∧
      tmpl.Rollback = none ∧ tmpl.RequireCal = none ∧
      tmpl.Timezone = some "America/Chicago" ∧ tmpl.Calendar = some "NYSE" :=
  ⟨_, _, rfl, rfl, rfl, rfl, rfl, rfl, rfl, rfl, rfl, rfl⟩

/-- `copyJobSpec` returns unless the specification sets `Rollback` and not `RequireCal`; the
job it returns is disabled when the specification is. -/
theorem copyJobSpec_returns {J : Type} (env : Env) (newUUID : String) (job : Job)
    (spec : JobSpecOf J) (hcal : spec.Rollback = none ∨ spec.RequireCal ≠ none) :
    ∃ r, copyJobSpec env newUUID job spec = Outcome.ret r ∧ r.1.Disabled = spec.Disabled := by
  unfold copyJobSpec
  rcases hR : spec.Rollback with _ | b <;> rcases hC : spec.RequireCal with _ | c <;>
    simp only [hR, hC, Outcome.bind]
  · exact ⟨_, rfl, rfl⟩
  · exact ⟨_, rfl, rfl⟩
  · rcases hcal with h | h
    · rw [hR] at h; exact absurd h (by simp)
    · exact absurd hC h
  · exact ⟨_, rfl, rfl⟩

/-- `index` on a list that is not empty returns at 0. -/
theorem index_zero {α : Type} (xs : List α) (h : xs ≠ []) : ∃ a, index xs 0 = Outcome.ret a := by
  cases xs with
  | nil => exact absurd rfl h
  | cons a t => exact ⟨a, rfl⟩

/-- One turn of the loop over the children: it returns, it adds one job, and an enabled
child gets the four dependencies built from the id and trigger the turn starts with. -/
theorem childStep_spec (env : Env) (fresh : Nat → String) (parentJob : Job) (delay : String)
    (c : ChildSpec) (st : ChildState)
    (hgroup : parentJob.Group.getD [] ≠ [])
    (hcal : c.Rollback = none ∨ c.RequireCal ≠ none) :
    ∃ st1 job, childStep env fresh parentJob delay c st = Outcome.ret st1 ∧
      st1.children = st.children ++ [job] ∧ job.Disabled = c.Disabled ∧
      (c.Disabled = true → st1.currentUUID = st.currentUUID ∧ st1.trigger = st.trigger) ∧
      (c.Disabled = false →
        job.Dependency = childDependencies st.currentUUID st.trigger parentJob.JobUUID delay ∧
        st1.currentUUID = job.JobUUID ∧ st1.trigger = "success") := by
  obtain ⟨r, hr, hd⟩ := copyJobSpec_returns env (fresh st.k) Job.zero c hcal
  obtain ⟨g, hg⟩ := index_zero _ hgroup
  have hgroup2 : parentJob.Group.getD [] ++ [parentJob.Name] ≠ [] := by simp
  obtain ⟨g2, hg2⟩ := index_zero _ hgroup2
  unfold childStep
  rw [hr]
  by_cases hdis : c.Disabled = true
  · simp only [Outcome.bind, hdis, if_true]
    refine ⟨_, _, rfl, rfl, hd.trans hdis, fun _ => ⟨rfl, rfl⟩, fun h => ?_⟩
    exact absurd h (by simp)
  · have hfalse : c.Disabled = false := by simpa using hdis
    simp only [Outcome.bind, hfalse, Bool.false_eq_true, if_false, Option.getD_some, hg, hg2]
    refine ⟨_, _, rfl, rfl, hd.trans hfalse, fun h => ?_, fun _ => ⟨rfl, rfl, rfl⟩⟩
    exact absurd h (by simp)

/-- The start dependency of a child after `prev` reached `trigger`. -/
theorem childDependencies_head (depUUID trigger parentUUID delay : String) :
    (childDependencies depUUID trigger parentUUID delay).head? =
      some (dependencyOf (mapSet (mapSet [] depUUID trigger) parentUUID "running") "start"
        "all" delay 0) := rfl

/-- The loop over the children returns; the enabled children it writes form a chain: the
first starts after the id and trigger the loop starts with, each other after its
predecessor reached `success`. -/
theorem childLoop_chain (env : Env) (fresh : Nat → String) (parentJob : Job) (delay : String) :
    ∀ (specJobs : List ChildSpec) (st : ChildState),
      parentJob.Group.getD [] ≠ [] →
      (∀ c ∈ specJobs, c.Rollback = none ∨ c.RequireCal ≠ none) →
      ∃ st1 new, childLoop env fresh parentJob delay specJobs st = Outcome.ret st1 ∧
        st1.children = st.children ++ new ∧
        new.map (fun j => j.Disabled) = specJobs.map (fun c => c.Disabled) ∧
        (∀ y ∈ (new.filter fun j => !j.Disabled).head?,
          y.Dependency.head? =
            some (dependencyOf (mapSet (mapSet [] st.currentUUID st.trigger)
              parentJob.JobUUID "running") "start" "all" delay 0)) ∧
        List.Chain' (fun a b => b.Dependency.head? =
            some (dependencyOf (mapSet (mapSet [] a.JobUUID "success")
              parentJob.JobUUID "running") "start" "all" delay 0))
          (new.filter fun j => !j.Disabled) := by
  intro specJobs
  induction specJobs with
  | nil =>
      intro st _ _
      exact ⟨st, [], rfl, by simp, rfl, by simp, by simp⟩
  | cons c rest ih =>
      intro st hgroup hcal
      obtain ⟨st1, job, h1, hch, hdis, hD, hE⟩ :=
        childStep_spec env fresh parentJob delay c st hgroup (hcal c (List.mem_cons_self _ _))
      obtain ⟨st2, new, h2, hch2, hmap, hhead, hchain⟩ :=
        ih st1 hgroup (fun x hx => hcal x (List.mem_cons_of_mem _ hx))
      refine ⟨st2, job :: new, ?_, ?_, ?_, ?_, ?_⟩
      · simp only [childLoop, h1, Outcome.bind]; exact h2
      · rw [hch2, hch]; simp
      · simp [hdis, hmap]
      · by_cases hc : c.Disabled = true
        · obtain ⟨e1, e2⟩ := hD hc
          have hj : job.Disabled = true := by rw [hdis, hc]
          simp only [List.filter_cons, hj, Bool.not_true, Bool.false_eq_true, if_false]
          rw [← e1, ← e2]; exact hhead
        · have hfalse : c.Disabled = false := by simpa using hc
          obtain ⟨e1, _, _⟩ := hE hfalse
          have hj : job.Disabled = false := by rw [hdis, hfalse]
          simp only [List.filter_cons, hj, Bool.not_false, if_true, List.head?_cons,
            Option.mem_def, Option.some.injEq]
          intro y hy
          rw [← hy, e1]; rfl
      · by_cases hc : c.Disabled = true
        · have hj : job.Disabled = true := by rw [hdis, hc]
          simp only [List.filter_cons, hj, Bool.not_true, Bool.false_eq_true, if_false]
          exact hchain
        · have hfalse : c.Disabled = false := by simpa using hc
          obtain ⟨_, e2, e3⟩ := hE hfalse
          have hj : job.Disabled = false := by rw [hdis, hfalse]
          simp only [List.filter_cons, hj, Bool.not_false, if_true]
          rw [List.chain'_cons']
          refine ⟨?_, hchain⟩
          intro y hy
          have := hhead y hy
          rw [e2, e3] at this
          exact this

/-- The map literal with two entries: the second entry replaces the first when the keys are
equal. -/
theorem mapSet_pair (a x p y : String) :
    mapSet (mapSet ([] : List (String × String)) a x) p y =
      if a = p then [(p, y)] else [(a, x), (p, y)] := by
  by_cases h : a = p
  · subst h; simp [mapSet]
  · simp [mapSet, h]

/-- C20 as stated fails: `LoadJobSpec` on the controller `etl` with the enabled children
`extract` and `load` gives `load`, the entry of `jobs` at index 3, a start dependency on
`extract` reaching `success`, not `success|end`. -/
theorem LoadJobSpec_child_trigger_is_success :
    ∃ out job dep, LoadJobSpec (utcEnv 2024 3 15 12 0 0 []) freshIds [specEtl] none "jobs.json"
        10 [] "server" "key" "" JobLogging.zero 30 15 = Outcome.ret out ∧
      out.jobs.get? 3 = some job ∧ job.Name = "load" ∧ job.Dependency.head? = some dep ∧
      dep.Action = "start" ∧ dep.Condition = "all" ∧
      dep.Dependencies = [(idExtract, "success"), (idEtl, "running")] ∧
      dep.Dependencies ≠ [(idExtract, "success|end"), (idEtl, "running")] :=
  ⟨_, _, _, rfl, rfl, rfl, rfl, rfl, rfl, rfl, by decide⟩

/-- C20, amended: for every controller and children, the loop of `LoadJobSpec` over the
children returns (given a group of the controller and no child with `Rollback` and without
`RequireCal`) one job for each child; the first enabled child has a `start` dependency with
condition `all`, the delay of the controller and the trigger map {parent: "running"}, and
each later enabled child one with the trigger map {previous enabled child: "success",
parent: "running"}. -/
theorem childLoop_start_dependency (env : Env) (fresh : Nat → String) (parentJob : Job)
    (delay : String) (specJobs : List ChildSpec) (k : Nat)
    (groups : List (String × List String))
    (hgroup : parentJob.Group.getD [] ≠ [])
    (hcal : ∀ c ∈ specJobs, c.Rollback = none ∨ c.RequireCal ≠ none) :
    ∃ st1, childLoop env fresh parentJob delay specJobs (childInit parentJob k groups)
        = Outcome.ret st1 ∧
      st1.children.map (fun j => j.Disabled) = specJobs.map (fun c => c.Disabled) ∧
      (∀ y ∈ (st1.children.filter fun j => !j.Disabled).head?,
        y.Dependency.head? =
          some (dependencyOf [(parentJob.JobUUID, "running")] "start" "all" delay 0)) ∧
      List.Chain' (fun a b => b.Dependency.head? =
          some (dependencyOf
            (if a.JobUUID = parentJob.JobUUID then [(parentJob.JobUUID, "running")]
             else [(a.JobUUID, "success"), (parentJob.JobUUID, "running")])
            "start" "all" delay 0))
        (st1.children.filter fun j => !j.Disabled) := by
  obtain ⟨st1, new, h1, hch, hmap, hhead, hchain⟩ :=
    childLoop_chain env fresh parentJob delay specJobs (childInit parentJob k groups) hgroup hcal
  have hnew : st1.children = new := by rw [hch]; rfl
  refine ⟨st1, h1, ?_, ?_, ?_⟩
  · rw [hnew]; exact hmap
  · rw [hnew]
    intro y hy
    have := hhead y hy
    rw [mapSet_pair] at this
    simpa [childInit] using this
  · rw [hnew]
    refine List.Chain'.imp ?_ hchain
    intro a b hab
    rw [mapSet_pair] at hab
    exact hab

/-- Witness for C20: the controller `etl` and its three children. -/
theorem childLoop_start_dependency_witness :
    ∃ st1, childLoop (utcEnv 2024 3 15 12 0 0 []) freshIds jobEtl "300ms" childrenOfEtl
        (childInit jobEtl 1 []) = Outcome.ret st1 ∧
      st1.children.map (fun j => j.Disabled) = childrenOfEtl.map (fun c => c.Disabled) ∧
      (∀ y ∈ (st1.children.filter fun j => !j.Disabled).head?,
        y.Dependency.head? =
          some (dependencyOf [(jobEtl.JobUUID, "running")] "start" "all" "300ms" 0)) ∧
      List.Chain' (fun a b => b.Dependency.head? =
          some (dependencyOf
            (if a.JobUUID = jobEtl.JobUUID then [(jobEtl.JobUUID, "running")]
             else [(a.JobUUID, "success"), (jobEtl.JobUUID, "running")])
            "start" "all" "300ms" 0))
        (st1.children.filter fun j => !j.Disabled) :=
  childLoop_start_dependency (utcEnv 2024 3 15 12 0 0 []) freshIds jobEtl "300ms" childrenOfEtl
    1 [] (by decide) (by decide)

/-- The end of `parseJob` leaves the job in state `ready` or `onhold`. -/
theorem parseFinish_state (env : Env) (host : Host) (job : Job) :
    (parseFinish env host job).1.JobState = if job.Hold = true then JHold else JReady := by
  unfold parseFinish
  simp only
  split
  · rfl
  · split <;> rfl

/-- A call of `parseJob` that returns without an error leaves the job in state `ready` or
`onhold`, whatever its state was: no record that `LoadJobState` parsed is `running`. -/
theorem parseJob_state (env : Env) (host : Host) (job job1 : Job) (createDir : Bool)
    (h : parseJob env host job createDir = Outcome.ret (job1, none)) :
    job1.JobState = JReady ∨ job1.JobState = JHold := by
  unfold parseJob at h
  simp only at h
  rcases h2 : parseStart env host _ with ⟨p2⟩ | _ | _ <;> rw [h2] at h <;>
    simp only [Outcome.bind] at h <;> try exact absurd h (by simp)
  rcases e2 : p2.2 with _ | e <;> rw [e2] at h <;> simp only at h
  swap
  · injection h with h; injection h with _ h; cases h
  rcases h3 : parseEnd env host p2.1 with ⟨p3⟩ | _ | _ <;> rw [h3] at h <;>
    simp only [Outcome.bind] at h <;> try exact absurd h (by simp)
  rcases e3 : p3.2 with _ | e <;> rw [e3] at h <;> simp only at h
  swap
  · injection h with h; injection h with _ h; cases h
  rcases h4 : parseRestart env p3.1 with ⟨p4⟩ | _ | _ <;> rw [h4] at h <;>
    simp only [Outcome.bind] at h <;> try exact absurd h (by simp)
  rcases e4 : p4.2 with _ | e <;> rw [e4] at h <;> simp only at h
  swap
  · injection h with h; injection h with _ h; cases h
  injection h with h
  have hs := parseFinish_state env host p4.1
  rw [h] at hs
  simp only at hs
  rw [hs]
  split
  · exact Or.inr rfl
  · exact Or.inl rfl

/-- C15 fails in the code: `LoadConfig2` with `clean = false` on the job `nightly`, whose
snapshot was saved in state `running`, puts the job in the table in state `ready` and not
held. `LoadJobState` runs `parseJob` on the decoded record, which sets the state to `ready`
before `LoadConfig2` tests it for `running`. -/
theorem LoadConfig2_running_snapshot_is_ready :
    ∃ sjobs job, LoadConfig2 (utcEnv 2024 3 15 12 0 0 []) hostNode1 (fun _ => freshIds)
        1710504000 snapshotsOfNightly [("jobs.json", [specNightlyAtTwo])] false false 10
        "server" "key" "" JobLogging.zero 30 15 = Outcome.ret (some (sjobs, [])) ∧
      sjobs.Jobs.lookup idNightly = some job ∧
      job.JobState = JReady ∧ job.JobStateString = "ready" ∧ job.Hold = false :=
  ⟨_, _, rfl, rfl, rfl, rfl, rfl⟩

/-- The worker of `Split` returns at least one field. -/
theorem splitAux_length_pos (sep : Char) :
    ∀ (l cur : List Char) (acc : List String), 1 ≤ (splitAux sep l cur acc).length := by
  intro l
  induction l with
  | nil => intro cur acc; simp [splitAux]
  | cons c cs ih =>
      intro cur acc
      unfold splitAux
      split_ifs
      · exact ih _ _
      · exact ih _ _

/-- The loop over `DateEnv` returns when every entry has a `=` and `ConvertDate` returns. -/
theorem dateEnvLoop_returns (os : Os) (job : Job) (asof : String)
    (hconv : ∀ d, ∃ v, os.ConvertDate d job.Timezone job.CalendarDirs asof = Outcome.ret v) :
    ∀ (l env : List String), (∀ kv ∈ l, 2 ≤ (Split kv '=').length) →
      ∃ env1, dateEnvLoop os job asof l env = Outcome.ret env1 := by
  intro l
  induction l with
  | nil => intro env _; exact ⟨env, rfl⟩
  | cons kv rest ih =>
      intro env h
      have hlen := h kv (List.mem_cons_self _ _)
      have h0 := index_getD (Split kv '=') 0 "" (by omega)
      have h1 := index_getD (Split kv '=') 1 "" (by omega)
      obtain ⟨v, hv⟩ := hconv ((Split kv '=').getD 1 "")
      obtain ⟨env1, he⟩ := ih (env ++ [(Split kv '=').getD 0 "" ++ "=" ++ v])
        (fun x hx => h x (List.mem_cons_of_mem _ hx))
      refine ⟨env1, ?_⟩
      unfold dateEnvLoop
      simp only [Nat.cast_zero, Nat.cast_one] at h0 h1
      simp only [h0, h1, hv, Outcome.bind]
      exact he

/-- The loop that resolves the environment returns. -/
theorem resolveEnvLoop_returns (os : Os) :
    ∀ (l : List String) (st : ResolveState), ∃ st1, resolveEnvLoop os l st = Outcome.ret st1 := by
  intro l
  induction l with
  | nil => intro st; exact ⟨st, rfl⟩
  | cons kv rest ih =>
      intro st
      have hpos : 1 ≤ (Split kv '=').length := splitAux_length_pos '=' _ _ _
      have h0 := index_getD (Split kv '=') 0 "" (by omega)
      simp only [Nat.cast_zero] at h0
      unfold resolveEnvLoop
      simp only [h0, Outcome.bind]
      split_ifs with hone
      · exact ih _
      · have h1 := index_getD (Split kv '=') 1 "" (by omega)
        simp only [Nat.cast_one] at h1
        simp only [h1]
        exact ih _

/-- C18 as stated fails: for the command `/bin/sh -c echo hello`, with the four fields
`/bin/sh`, `-c`, `echo`, `hello`, the argument vector that `expandAllVars` builds has three
entries, the third being `echo hello`. -/
theorem expandAllVars_joins_the_tail :
    ∃ r, expandAllVars osPlain jobWithEnv [] (some "/bin/sh -c echo hello") false ""
        = Outcome.ret r ∧
      Fields "/bin/sh -c echo hello" = ["/bin/sh", "-c", "echo", "hello"] ∧
      r.2.execCmd.Path = "/bin/sh" ∧
      r.2.execCmd.Args = ["/bin/sh", "-c", "echo hello"] ∧
      r.2.execCmd.Args ≠ Fields "/bin/sh -c echo hello" :=
  ⟨_, rfl, by decide, rfl, by decide, by decide⟩

/-- For a command of two fields the argument vector has a third, empty entry. -/
theorem expandAllVars_two_fields :
    ∃ r, expandAllVars osPlain jobWithEnv [] (some "ls -l") false "" = Outcome.ret r ∧
      r.2.execCmd.Args = ["ls", "-l", ""] :=
  ⟨_, rfl, by decide⟩

/-- C18, amended: for every command string whose fields are `f0, ..., fn`, `expandAllVars`
returns (given that every `DateEnv` entry has a `=` and `ConvertDate` returns) a command
whose path is `f0` and whose argument vector is `[f0]` for `n = 0` and
`[f0, f1, f2 ... fn joined by single spaces]` for `n ≥ 2`. -/
theorem expandAllVars_command (os : Os) (job : Job) (vars : List String) (s : String)
    (shutdown : Bool) (asof : String) (f0 : String) (rest : List String)
    (hfields : Fields s = f0 :: rest)
    (hkv : ∀ kv ∈ job.DateEnv.getD [], 2 ≤ (Split kv '=').length)
    (hconv : ∀ d, ∃ v, os.ConvertDate d job.Timezone job.CalendarDirs asof = Outcome.ret v) :
    ∃ r, expandAllVars os job vars (some s) shutdown asof = Outcome.ret r ∧
      r.2.execCmd.Path = f0 ∧
      (rest = [] → r.2.execCmd.Args = [f0]) ∧
      (∀ f1 f2 more, rest = f1 :: f2 :: more →
        r.2.execCmd.Args = [f0, f1, Join (f2 :: more) " "]) := by
  obtain ⟨env1, he⟩ := dateEnvLoop_returns os job asof hconv (job.DateEnv.getD [])
    (os.Environ ++ ["RPEAT_TMP=" ++ job.TmpDir, "RPEAT_JOBID=" ++ job.JobUUID,
      "RPEAT_RUNID=" ++ job.RunUUID, "RPEAT_TIMESTAMP=" ++ fmtInt 0 os.unixNow]) hkv
  obtain ⟨st, hs⟩ := resolveEnvLoop_returns os (env1 ++ job.Env.getD [])
    { env := [], EnvMap := [], missing := [] }
  unfold expandAllVars
  simp only [he, hs, Outcome.bind, hfields]
  refine ⟨_, rfl, rfl, ?_, ?_⟩
  · intro h; subst h; rfl
  · intro f1 f2 more h; subst h; rfl

/-- Witness for C18: the command `/bin/sh -c echo hello` of the job with one date variable. -/
theorem expandAllVars_command_witness :
    ∃ r, expandAllVars osPlain jobWithEnv [] (some "/bin/sh -c echo hello") true "" =
        Outcome.ret r ∧
      r.2.execCmd.Path = "/bin/sh" ∧
      (["-c", "echo", "hello"] = [] → r.2.execCmd.Args = ["/bin/sh"]) ∧
      (∀ f1 f2 more, ["-c", "echo", "hello"] = f1 :: f2 :: more →
        r.2.execCmd.Args = ["/bin/sh", f1, Join (f2 :: more) " "]) :=
  expandAllVars_command osPlain jobWithEnv [] "/bin/sh -c echo hello" true "" "/bin/sh"
    ["-c", "echo", "hello"] (by decide) (by decide) (fun d => ⟨d, rfl⟩)

/-- C17 fails in the code: for every job of the table that is running, not held and not a
child of a controller, and every user with the permission `hold`, `service.Hold` answers
`success` and leaves the job with `Hold = true` in state `running`, not `onhold`: the
legality table rejects `onhold` from `running` and the error of `setJobState` is dropped. -/
theorem Hold_running_job_stays_running (Jobs : List (String × Job)) (unixNow : Int)
    (jobid user comment duration : String) (job : Job)
    (hjob : Jobs.lookup jobid = some job)
    (hjoj : job.isJOJ = false)
    (hperm : hasPermission job user "hold" = true)
    (hhold : job.Hold = false)
    (hstate : job.JobState = JRunning) :
    ∃ job1, (Hold Jobs unixNow jobid user comment duration).job = some job1 ∧
      (Hold Jobs unixNow jobid user comment duration).Status = "success" ∧
      (Hold Jobs unixNow jobid user comment duration).err = none ∧
      job1.Hold = true ∧ job1.JobState = JRunning ∧ job1.JobState ≠ JHold := by
  have hvalid : isValidJobStateChange
      { job.setHold true unixNow with
        Reason := { Action := "hold", Comment := comment, User := user,
                    Timestamp := unixNow } } JHold = false := by
    simp [isValidJobStateChange, Job.setHold, hstate]
  have hne : JHold ≠ ({ job.setHold true unixNow with
        Reason := { Action := "hold", Comment := comment, User := user,
                    Timestamp := unixNow } } : Job).JobState := by
    simp [Job.setHold, hstate]
  simp only [Hold, hjob, hjoj, hperm, hhold, setJobState, hvalid, if_neg hne, Bool.not_true,
    Bool.false_eq_true, if_false, Bool.not_false, if_true]
  refine ⟨_, rfl, ?_⟩
  simp [Job.setHold, hstate]

/-- Witness for C17: the owner `alice` holds the running job `nightly`. -/
theorem Hold_running_job_stays_running_witness :
    ∃ job1, (Hold tableOfAlice 1710504000 idNightly "alice" "maintenance" "").job = some job1 ∧
      (Hold tableOfAlice 1710504000 idNightly "alice" "maintenance" "").Status = "success" ∧
      (Hold tableOfAlice 1710504000 idNightly "alice" "maintenance" "").err = none ∧
      job1.Hold = true ∧ job1.JobState = JRunning ∧ job1.JobState ≠ JHold :=
  Hold_running_job_stays_running tableOfAlice 1710504000 idNightly "alice" "maintenance" ""
    runningNightly (by decide) (by decide) (by decide) (by decide) (by decide)

/-- C16 fails in the code: on the server with the jobs `nightly` and `weekly`, both owned by
`alice` and without administrators, `service.AllJobs` for the user `bob` returns `weekly` in
`JobOrder`, `Authorized` and `Jobs`, although `bob` is neither its owner nor an
administrator. The loop that filters `job_order` cuts out `nightly` at index 0 and moves on
to index 1, past `weekly`, which has taken the place of `nightly`. -/
theorem AllJobs_returns_foreign_job :
    ∃ resp job, AllJobs tableOfAlice [idNightly, idWeekly]
        [("&nbsp;", [idNightly, idWeekly])] "bob" [] = Outcome.ret resp ∧
      resp.JobOrder = [idWeekly] ∧
      resp.Authorized.map (fun p => p.1) = [idWeekly] ∧
      resp.Groups = [("&nbsp;", [idWeekly])] ∧
      (resp.Jobs.lookup "&nbsp;").bind (fun m => m.lookup idWeekly) = some job ∧
      job.Name = "weekly" ∧ job.User = "alice" ∧ job.User ≠ "bob" ∧
      stringInSlice "bob" job.Admin = false :=
  ⟨_, _, rfl, by decide, by decide, by decide, rfl, rfl, rfl, by decide, rfl⟩

/-- The guard `!client.run` of the action `start` never holds a trigger back: `watch` calls
`resetDependencies`, which clears `run`, right before the test. -/
theorem triggerAction_start_after_reset (env : Env) (client : DependencyClient)
    (dep : Dependency) (hact : dep.Action = "start") (hdelay : client.dependency.Delay = "") :
    triggerAction env (resetDependencies client) dep =
      Outcome.ret ({ resetDependencies client with run := true }, [WatchEffect.resetTimer 0]) := by
  simp [triggerAction, hact, clientDelay, resetDependencies, Outcome.bind, hdelay]

/-- C11 fails in the code: the evaluator of a `start` dependency on `jobA` reaching
`success`, for an owner that is triggered by its dependencies and is not running, receives
the event "`jobA` reached `success`" twice and triggers the owner twice; `run` is true after
the first event and does not hold back the second. -/
theorem watch_same_event_fires_twice :
    ∃ c1 c2,
      watchStep (utcEnv 2024 3 15 12 0 0 []) 0 clientOfStart evtJobA =
        Outcome.ret (c1, [WatchEffect.resetTimer 0]) ∧ c1.run = true ∧
      watchStep (utcEnv 2024 3 15 12 0 0 []) 0 c1 evtJobA =
        Outcome.ret (c2, [WatchEffect.resetTimer 0]) ∧
      watch (utcEnv 2024 3 15 12 0 0 []) 0 [evtJobA, evtJobA] clientOfStart [] =
        Outcome.ret (c2, [WatchEffect.resetTimer 0, WatchEffect.resetTimer 0]) :=
  ⟨_, _, rfl, rfl, rfl, rfl⟩

/-- The first second after `S` of an ascending list is the least one; `none` when there is
none. -/
theorem findSec_spec (S : Int) :
    ∀ (secs : List Int), secs.Sorted (· ≤ ·) →
      match findSec S secs with
      | some s0 => s0 ∈ secs ∧ s0 > S ∧ ∀ s ∈ secs, s > S → s0 ≤ s
      | none => ∀ s ∈ secs, ¬ s > S := by
  intro secs
  induction secs with
  | nil => intro _; simp [findSec]
  | cons a rest ih =>
      intro hs
      have hrest := ih (List.Sorted.of_cons hs)
      have hle := List.rel_of_sorted_cons hs
      unfold findSec at hrest ⊢
      by_cases ha : a > S
      · simp only [List.find?_cons, ha, decide_True]
        refine ⟨List.mem_cons_self _ _, ?_, ?_⟩
        · first | exact ha | trivial
        intro s hsm _
        rcases List.mem_cons.mp hsm with e | e
        · omega
        · exact hle s e
      · simp only [List.find?_cons, ha, decide_False]
        cases hf : List.find? (fun sec => decide (sec > S)) rest with
        | none =>
            rw [hf] at hrest
            intro s hsm
            rcases List.mem_cons.mp hsm with e | e
            · rw [e]; exact ha
            · exact hrest s e
        | some s0 =>
            rw [hf] at hrest
            obtain ⟨h1, h2, h3⟩ := hrest
            refine ⟨List.mem_cons_of_mem _ h1, h2, ?_⟩
            intro s hsm hgt
            rcases List.mem_cons.mp hsm with e | e
            · rw [e] at hgt; exact absurd hgt ha
            · exact h3 s e hgt

/-- The loop over the minutes: the least `(minute, second)` after `(M, S)`, the second being
`sec0`, the least of `secs`, for a later minute; `none` when there is none. -/
theorem findMin_spec (hour M S sec0 : Int) (secs : List Int) (hsecs : secs.Sorted (· ≤ ·))
    (hsec0 : sec0 ∈ secs) (hmin0 : ∀ s ∈ secs, sec0 ≤ s) :
    ∀ (mins : List Int), mins.Sorted (· ≤ ·) →
      match findMin hour M S sec0 secs mins with
      | some v => ∃ m0 s0, m0 ∈ mins ∧ s0 ∈ secs ∧ v = wrapInt64 (hour * 10000 + m0 * 100 + s0) ∧
          (m0 > M ∨ (m0 = M ∧ s0 > S)) ∧
          ∀ m ∈ mins, ∀ s ∈ secs, (m > M ∨ (m = M ∧ s > S)) → (m0 < m ∨ (m0 = m ∧ s0 ≤ s))
      | none => ∀ m ∈ mins, ∀ s ∈ secs, ¬ (m > M ∨ (m = M ∧ s > S)) := by
  intro mins
  induction mins with
  | nil => intro _; simp [findMin]
  | cons a rest ih =>
      intro hs
      have hrest := ih (List.Sorted.of_cons hs)
      have hle := List.rel_of_sorted_cons hs
      unfold findMin
      by_cases ha : a > M
      · simp only [ha, if_true]
        refine ⟨a, sec0, List.mem_cons_self _ _, hsec0, rfl, Or.inl ha, ?_⟩
        intro m hm s hsm _
        have h0 := hmin0 s hsm
        rcases List.mem_cons.mp hm with e | e
        · right; exact ⟨e.symm, h0⟩
        · have := hle m e
          rcases lt_or_eq_of_le this with h | h
          · left; exact h
          · right; exact ⟨h, h0⟩
      · simp only [ha, if_false]
        by_cases hb : a = M
        · rw [if_pos hb]
          have hsec := findSec_spec S secs hsecs
          cases hf : findSec S secs with
          | some s0 =>
              rw [hf] at hsec
              obtain ⟨h1, h2, h3⟩ := hsec
              simp only
              refine ⟨a, s0, List.mem_cons_self _ _, h1, rfl, Or.inr ⟨hb, h2⟩, ?_⟩
              intro m hm s hsm hq
              rcases List.mem_cons.mp hm with e | e
              · right
                rcases hq with hq | hq
                · omega
                · exact ⟨e.symm, h3 s hsm hq.2⟩
              · have := hle m e
                rcases hq with hq | hq
                · left; omega
                · right; exact ⟨by omega, h3 s hsm hq.2⟩
          | none =>
              rw [hf] at hsec
              simp only
              cases hr : findMin hour M S sec0 secs rest with
              | none =>
                  rw [hr] at hrest
                  intro m hm s hsm
                  rcases List.mem_cons.mp hm with e | e
                  · intro hq
                    rcases hq with hq | hq
                    · omega
                    · exact hsec s hsm hq.2
                  · exact hrest m e s hsm
              | some v =>
                  rw [hr] at hrest
                  obtain ⟨m0, s0, h1, h2, h3, h4, h5⟩ := hrest
                  refine ⟨m0, s0, List.mem_cons_of_mem _ h1, h2, h3, h4, ?_⟩
                  intro m hm s hsm hq
                  rcases List.mem_cons.mp hm with e | e
                  · exfalso
                    rcases hq with hq | hq
                    · omega
                    · exact hsec s hsm hq.2
                  · exact h5 m e s hsm hq
        · simp only [hb, if_false]
          have hlt : a < M := by omega
          cases hr : findMin hour M S sec0 secs rest with
          | none =>
              rw [hr] at hrest
              intro m hm s hsm
              rcases List.mem_cons.mp hm with e | e
              · intro hq; rcases hq with hq | hq <;> omega
              · exact hrest m e s hsm
          | some v =>
              rw [hr] at hrest
              obtain ⟨m0, s0, h1, h2, h3, h4, h5⟩ := hrest
              refine ⟨m0, s0, List.mem_cons_of_mem _ h1, h2, h3, h4, ?_⟩
              intro m hm s hsm hq
              rcases List.mem_cons.mp hm with e | e
              · exfalso; rcases hq with hq | hq <;> omega
              · exact h5 m e s hsm hq

/-- The loop over the hours: the least time of day after `(H, M, S)`, where a later hour
comes with `min0` and `sec0`, the least minute and second; `none` when there is none. -/
theorem findHour_spec (H M S min0 sec0 : Int) (mins secs : List Int)
    (hmins : mins.Sorted (· ≤ ·)) (hsecs : secs.Sorted (· ≤ ·))
    (hmin0 : min0 ∈ mins) (hminle : ∀ m ∈ mins, min0 ≤ m)
    (hsec0 : sec0 ∈ secs) (hsecle : ∀ s ∈ secs, sec0 ≤ s) :
    ∀ (hours : List Int), hours.Sorted (· ≤ ·) →
      match findHour H M S min0 sec0 mins secs hours with
      | some v => ∃ h0 m0 s0, h0 ∈ hours ∧ m0 ∈ mins ∧ s0 ∈ secs ∧
          v = wrapInt64 (h0 * 10000 + m0 * 100 + s0) ∧ lexLt (H, M, S) (h0, m0, s0) ∧
          ∀ h ∈ hours, ∀ m ∈ mins, ∀ s ∈ secs, lexLt (H, M, S) (h, m, s) →
            ¬ lexLt (h, m, s) (h0, m0, s0)
      | none => ∀ h ∈ hours, ∀ m ∈ mins, ∀ s ∈ secs, ¬ lexLt (H, M, S) (h, m, s) := by
  intro hours
  induction hours with
  | nil => intro _; simp [findHour]
  | cons a rest ih =>
      intro hs
      have hrest := ih (List.Sorted.of_cons hs)
      have hle := List.rel_of_sorted_cons hs
      unfold findHour
      by_cases ha : a > H
      · rw [if_pos ha]
        refine ⟨a, min0, sec0, List.mem_cons_self _ _, hmin0, hsec0, rfl, Or.inl ha, ?_⟩
        intro h hh m hm s hsm _
        have h1 := hminle m hm
        have h2 := hsecle s hsm
        have h3 : a ≤ h := by
          rcases List.mem_cons.mp hh with e | e
          · omega
          · exact hle h e
        simp only [lexLt]
        omega
      · rw [if_neg ha]
        by_cases hb : a = H
        · rw [if_pos hb]
          have hmin := findMin_spec a M S sec0 secs hsecs hsec0 hsecle mins hmins
          cases hf : findMin a M S sec0 secs mins with
          | some v =>
              rw [hf] at hmin
              obtain ⟨m0, s0, h1, h2, h3, h4, h5⟩ := hmin
              simp only
              refine ⟨a, m0, s0, List.mem_cons_self _ _, h1, h2, h3, ?_, ?_⟩
              · simp only [lexLt]; omega
              · intro h hh m hm s hsm hq
                have h6 : a ≤ h := by
                  rcases List.mem_cons.mp hh with e | e
                  · omega
                  · exact hle h e
                simp only [lexLt] at hq ⊢
                by_cases hah : h = a
                · have := h5 m hm s hsm (by omega)
                  omega
                · omega
          | none =>
              rw [hf] at hmin
              simp only
              cases hr : findHour H M S min0 sec0 mins secs rest with
              | none =>
                  rw [hr] at hrest
                  intro h hh m hm s hsm
                  rcases List.mem_cons.mp hh with e | e
                  · have := hmin m hm s hsm
                    simp only [lexLt]
                    omega
                  · exact hrest h e m hm s hsm
              | some v =>
                  rw [hr] at hrest
                  obtain ⟨h0, m0, s0, h1, h2, h3, h4, h5, h6⟩ := hrest
                  refine ⟨h0, m0, s0, List.mem_cons_of_mem _ h1, h2, h3, h4, h5, ?_⟩
                  intro h hh m hm s hsm hq
                  rcases List.mem_cons.mp hh with e | e
                  · exfalso
                    have := hmin m hm s hsm
                    simp only [lexLt] at hq
                    omega
                  · exact h6 h e m hm s hsm hq
        · rw [if_neg hb]
          have hlt : a < H := by omega
          cases hr : findHour H M S min0 sec0 mins secs rest with
          | none =>
              rw [hr] at hrest
              intro h hh m hm s hsm
              rcases List.mem_cons.mp hh with e | e
              · simp only [lexLt]; omega
              · exact hrest h e m hm s hsm
          | some v =>
              rw [hr] at hrest
              obtain ⟨h0, m0, s0, h1, h2, h3, h4, h5, h6⟩ := hrest
              refine ⟨h0, m0, s0, List.mem_cons_of_mem _ h1, h2, h3, h4, h5, ?_⟩
              intro h hh m hm s hsm hq
              rcases List.mem_cons.mp hh with e | e
              · exfalso; simp only [lexLt] at hq; omega
              · exact h6 h e m hm s hsm hq

/-- The first element of an ascending list that is not empty is its least element, and
`index` returns it. -/
theorem index_head_sorted (xs : List Int) (hs : xs.Sorted (· ≤ ·)) (x : Int) (hx : x ∈ xs) :
    ∃ x0, index xs 0 = Outcome.ret x0 ∧ x0 ∈ xs ∧ ∀ y ∈ xs, x0 ≤ y := by
  cases xs with
  | nil => exact absurd hx (List.not_mem_nil _)
  | cons a rest =>
      refine ⟨a, rfl, List.mem_cons_self _ _, ?_⟩
      intro y hy
      rcases List.mem_cons.mp hy with e | e
      · omega
      · exact List.rel_of_sorted_cons hs y e

/-- A value in the range of a 64-bit integer is not changed by wrapping. -/
theorem wrapInt64_eq (v : Int) (h1 : MinInt64 ≤ v) (h2 : v ≤ MaxInt64) : wrapInt64 v = v := by
  unfold wrapInt64
  unfold MinInt64 at h1 ⊢
  unfold MaxInt64 at h2
  omega

/-- C27 as stated fails: hours 922337203685478 is after the time of day 09:30:00, and
`nextDateTime` does not return `d*1000000 + h*10000 + m*100 + s` for it, because the sum
`h*10000` does not fit 64 bits and wraps. `ParseCron` returns this hour with a nil error for
the field `922337203685478`. -/
theorem nextDateTime_wraps_for_large_hour :
    [(922337203685478 : Int)].Sorted (· ≤ ·) ∧
      lexLt ((goDate 2024 3 15 9 30 0 0 0).Hour, (goDate 2024 3 15 9 30 0 0 0).Minute,
        (goDate 2024 3 15 9 30 0 0 0).Second) (922337203685478, 0, 0) ∧
      nextDateTime 20240315 (goDate 2024 3 15 9 30 0 0 0) [922337203685478] [0] [0] =
        Outcome.ret (-9223351796539771616) ∧
      (-9223351796539771616 : Int) ≠
        20240315 * 1000000 + 922337203685478 * 10000 + 0 * 100 + 0 ∧
      ((ParseCron (utcEnv 2024 3 15 9 30 0 []) "0 922337203685478 * * *" "UTC" "" [] false
          false 0).bind fun p => Outcome.ret (p.1.Hours, p.1.Minutes, p.1.Seconds, p.2)) =
        Outcome.ret ([922337203685478], [0], [0], none) := by
  refine ⟨by decide, Or.inl (by decide), by decide, by decide, by decide!⟩

/-- C27, amended: for ascending lists `hours`, `mins`, `secs` of 32-bit values, a 32-bit
date `d` and an instant `t` with time of day `(H, M, S)`, if some triple of the lists is
lexicographically after `(H, M, S)`, then `nextDateTime(d, t, hours, mins, secs)` returns
`d*1000000 + h0*10000 + m0*100 + s0` for the lexicographically least such triple
`(h0, m0, s0)`. -/
theorem nextDateTime_lex_least (d : Int) (t : Time) (hours mins secs : List Int)
    (hhours : hours.Sorted (· ≤ ·)) (hmins : mins.Sorted (· ≤ ·)) (hsecs : secs.Sorted (· ≤ ·))
    (hd : -MaxInt32 - 1 ≤ d ∧ d ≤ MaxInt32)
    (hbh : ∀ x ∈ hours, -MaxInt32 - 1 ≤ x ∧ x ≤ MaxInt32)
    (hbm : ∀ x ∈ mins, -MaxInt32 - 1 ≤ x ∧ x ≤ MaxInt32)
    (hbs : ∀ x ∈ secs, -MaxInt32 - 1 ≤ x ∧ x ≤ MaxInt32)
    (h m s : Int) (hh : h ∈ hours) (hm : m ∈ mins) (hs : s ∈ secs)
    (hafter : lexLt (t.Hour, t.Minute, t.Second) (h, m, s)) :
    ∃ h0 m0 s0, h0 ∈ hours ∧ m0 ∈ mins ∧ s0 ∈ secs ∧
      lexLt (t.Hour, t.Minute, t.Second) (h0, m0, s0) ∧
      (∀ h1 ∈ hours, ∀ m1 ∈ mins, ∀ s1 ∈ secs,
        lexLt (t.Hour, t.Minute, t.Second) (h1, m1, s1) → ¬ lexLt (h1, m1, s1) (h0, m0, s0)) ∧
      nextDateTime d t hours mins secs =
        Outcome.ret (d * 1000000 + h0 * 10000 + m0 * 100 + s0) := by
  obtain ⟨hr0, e1, _, _⟩ := index_head_sorted hours hhours h hh
  obtain ⟨mn0, e2, hmn0, hmnle⟩ := index_head_sorted mins hmins m hm
  obtain ⟨sc0, e3, hsc0, hscle⟩ := index_head_sorted secs hsecs s hs
  have hspec := findHour_spec t.Hour t.Minute t.Second mn0 sc0 mins secs hmins hsecs hmn0 hmnle
    hsc0 hscle hours hhours
  unfold nextDateTime
  simp only [e1, e2, e3, Outcome.bind]
  cases hf : findHour t.Hour t.Minute t.Second mn0 sc0 mins secs hours with
  | none =>
      rw [hf] at hspec
      exact absurd hafter (hspec h hh m hm s hs)
  | some v =>
      rw [hf] at hspec
      obtain ⟨h0, m0, s0, h1, h2, h3, h4, h5, h6⟩ := hspec
      refine ⟨h0, m0, s0, h1, h2, h3, h5, h6, ?_⟩
      have b1 := hbh h0 h1
      have b2 := hbm m0 h2
      have b3 := hbs s0 h3
      unfold MaxInt32 at hd b1 b2 b3
      have w1 : wrapInt64 (h0 * 10000 + m0 * 100 + s0) = h0 * 10000 + m0 * 100 + s0 :=
        wrapInt64_eq _ (by unfold MinInt64; omega) (by unfold MaxInt64; omega)
      have w2 : wrapInt64 (d * 1000000 + (h0 * 10000 + m0 * 100 + s0)) =
          d * 1000000 + (h0 * 10000 + m0 * 100 + s0) :=
        wrapInt64_eq _ (by unfold MinInt64; omega) (by unfold MaxInt64; omega)
      simp only [Option.getD_some, h4, w1, w2]
      congr 1
      omega

/-- Witness for C27: the times `09:00:00`, `09:30:00`, `17:00:00`, `17:30:00` of a day, seen
at 09:30:00. -/
theorem nextDateTime_lex_least_witness :
    ∃ h0 m0 s0, h0 ∈ [9, 17] ∧ m0 ∈ [0, 30] ∧ s0 ∈ [(0 : Int)] ∧
      lexLt ((goDate 2024 3 15 9 30 0 0 0).Hour, (goDate 2024 3 15 9 30 0 0 0).Minute,
        (goDate 2024 3 15 9 30 0 0 0).Second) (h0, m0, s0) ∧
      (∀ h1 ∈ [9, 17], ∀ m1 ∈ [0, 30], ∀ s1 ∈ [(0 : Int)],
        lexLt ((goDate 2024 3 15 9 30 0 0 0).Hour, (goDate 2024 3 15 9 30 0 0 0).Minute,
          (goDate 2024 3 15 9 30 0 0 0).Second) (h1, m1, s1) →
        ¬ lexLt (h1, m1, s1) (h0, m0, s0)) ∧
      nextDateTime 20240315 (goDate 2024 3 15 9 30 0 0 0) [9, 17] [0, 30] [0] =
        Outcome.ret (20240315 * 1000000 + h0 * 10000 + m0 * 100 + s0) :=
  nextDateTime_lex_least 20240315 (goDate 2024 3 15 9 30 0 0 0) [9, 17] [0, 30] [0]
    (by decide) (by decide) (by decide) (by decide) (by decide) (by decide) (by decide)
    17 0 0 (by decide) (by decide) (by decide) (Or.inl (by decide))

/-- The value `nextDateTime` returns in the witness of C27: 17:00:00 of the day. -/
theorem nextDateTime_example :
    nextDateTime 20240315 (goDate 2024 3 15 9 30 0 0 0) [9, 17] [0, 30] [0] =
      Outcome.ret 20240315170000 := by decide

/-- C30 fails in the code: `copyJobSpec` copies `RequireCal` under the test
`spec.Rollback != nil`. A specification that provides `RequireCal` and no `Rollback` leaves
the `RequireCal` of the job as it was, whatever value the specification gives; one that
provides `Rollback` and no `RequireCal` makes the call read the nil pointer and panic. -/
theorem copyJobSpec_RequireCal_tested_on_Rollback {J : Type} (env : Env) (newUUID : String)
    (job : Job) (spec : JobSpecOf J) (r b : Bool) :
    ((copyJobSpec env newUUID job { spec with Rollback := none, RequireCal := some r }).bind
        fun p => Outcome.ret p.1.RequireCal) = Outcome.ret job.RequireCal ∧
      copyJobSpec env newUUID job { spec with Rollback := some b, RequireCal := none } =
        Outcome.panicked :=
  ⟨rfl, rfl⟩

/-- A call that returns after a bind: the first call returned, and so did the second. -/
theorem Outcome.bind_eq_ret {α β : Type} (x : Outcome α) (f : α → Outcome β) (b : β)
    (h : x.bind f = Outcome.ret b) : ∃ a, x = Outcome.ret a ∧ f a = Outcome.ret b := by
  cases x with
  | ret a => exact ⟨a, rfl, h⟩
  | panicked => exact absurd h (by simp [Outcome.bind])
  | fatal => exact absurd h (by simp [Outcome.bind])

/-- The test `x == y` on integers does not depend on the order of its arguments. -/
theorem any_beq_swap (l : List Int) (x : Int) :
    (l.any fun w => w == x) = l.any fun w => x == w := by
  congr 1
  funext w
  rw [Bool.eq_iff_iff]
  simp only [beq_iff_eq]
  exact eq_comm

/-- The test of the loop of `allDatesInMonth` for day `d` is the day filter of the
specification. -/
theorem specDayMatches_eq (year mon a b d : Int) (l1 l2 : List Int) :
    specDayMatches year mon (a :: l1) (b :: l2) d =
      ((if a = -1 then false else (a :: l1).any fun day => d == day) ||
        ((if b = -1 then false
          else (b :: l2).any fun w => w == (goDate year mon d 0 0 0 0 0).Weekday) ||
          (decide (a = -1) && decide (b = -1)))) := by
  have hw := any_beq_swap (b :: l2) (goDate year mon d 0 0 0 0 0).Weekday
  simp only [specDayMatches, List.head?_cons, List.contains_eq_any_beq, hw]
  have ea : (some a == some (-1)) = decide (a = -1) := by
    by_cases ha : a = -1 <;> simp [ha]
  have eb : (some b == some (-1)) = decide (b = -1) := by
    by_cases hb : b = -1 <;> simp [hb]
  rw [ea, eb]
  by_cases ha : a = -1 <;> by_cases hb : b = -1 <;> simp [ha, hb]

/-- The loop of `allDatesInMonth` keeps the matching days of `ds`, in order. -/
theorem allDatesLoop_spec (year mon a b : Int) (l1 l2 : List Int) :
    ∀ (ds acc : List Int),
      allDatesLoop year mon (a :: l1) (b :: l2) (decide (a = -1) && decide (b = -1)) ds acc =
        Outcome.ret (acc.reverse ++
          (ds.filter (specDayMatches year mon (a :: l1) (b :: l2))).map
            fun d => wrapInt64 (year * 10000 + mon * 100 + d)) := by
  intro ds
  induction ds with
  | nil => intro acc; simp [allDatesLoop]
  | cons d rest ih =>
      intro acc
      have hday : dayIsIn d (a :: l1) =
          Outcome.ret (if a = -1 then false else (a :: l1).any fun day => d == day) := by
        simp only [dayIsIn, index, Outcome.bind]
        by_cases ha : a = -1 <;> simp [ha]
      have hwd : weekdayIsIn year mon d (b :: l2) =
          Outcome.ret (if b = -1 then false
            else (b :: l2).any fun w => w == (goDate year mon d 0 0 0 0 0).Weekday) := by
        simp only [weekdayIsIn, index, Outcome.bind]
        by_cases hb : b = -1 <;> simp [hb]
      have hP := specDayMatches_eq year mon a b d l1 l2
      unfold allDatesLoop
      rw [hday, hwd]
      simp only [Outcome.bind]
      generalize (if a = -1 then false else (a :: l1).any fun day => d == day) = b1 at hP ⊢
      generalize ((if b = -1 then false
          else (b :: l2).any fun w => w == (goDate year mon d 0 0 0 0 0).Weekday) ||
          (decide (a = -1) && decide (b = -1))) = b2 at hP ⊢
      cases b1 <;> cases b2 <;>
        simp only [Bool.false_or, Bool.true_or, Bool.or_self, Bool.or_true] at hP <;>
        simp [ih, List.filter_cons, hP]

/-- The day of the month of a civil date is between 1 and 31. -/
theorem civilFromDays_day (z : Int) :
    1 ≤ (civilFromDays z).2.2 ∧ (civilFromDays z).2.2 ≤ 31 := by
  simp only [civilFromDays]
  omega

/-- `Time.Day` is between 1 and 31. -/
theorem Time.Day_bounds (t : Time) : 1 ≤ t.Day ∧ t.Day ≤ 31 :=
  civilFromDays_day _

/-- The elements of `intRange a b` are between `a` and `b`. -/
theorem mem_intRange (a b d : Int) (h : d ∈ intRange a b) : a ≤ d ∧ d ≤ b := by
  have e : intRange a b = (List.range (b - a + 1).toNat).map fun k : Nat => a + (k : Int) := by
    simp only [intRange, List.flatMap, List.map_map, Function.comp_def, Functor.map,
      List.pure_def, List.bind_eq_flatMap]
    generalize List.range (b - a + 1).toNat = l
    induction l with
    | nil => rfl
    | cons x t ih => simp [ih]
  rw [e] at h
  obtain ⟨k, hk, rfl⟩ := List.mem_map.1 h
  have := List.mem_range.1 hk
  omega

/-- `allDatesInMonth` on sets that are not empty, for a year and a month that fit 32 bits,
returns the dates of the specification. -/
theorem allDatesInMonth_eq_spec (year mon : Int) (mday wday : List Int)
    (hy : -MaxInt32 - 1 ≤ year ∧ year ≤ MaxInt32) (hmo : -MaxInt32 - 1 ≤ mon ∧ mon ≤ MaxInt32)
    (hm : mday ≠ []) (hw : wday ≠ []) :
    allDatesInMonth year mon mday wday = Outcome.ret (specAllDatesInMonth year mon mday wday) := by
  cases mday with
  | nil => exact absurd rfl hm
  | cons a l1 =>
    cases wday with
    | nil => exact absurd rfl hw
    | cons b l2 =>
      have hloop := allDatesLoop_spec year mon a b l1 l2
        (intRange 1 ((goDate year mon 1 0 0 0 0 0).AddDate 0 1 (-1)).Day) []
      have hday := Time.Day_bounds ((goDate year mon 1 0 0 0 0 0).AddDate 0 1 (-1))
      have hmap : ∀ l : List Int,
          (∀ d ∈ l, d ∈ intRange 1 ((goDate year mon 1 0 0 0 0 0).AddDate 0 1 (-1)).Day) →
          (l.map fun d => wrapInt64 (year * 10000 + mon * 100 + d)) =
            l.map fun d => year * 10000 + mon * 100 + d := by
        intro l hl
        refine List.map_congr_left ?_
        intro d hd
        have hb := mem_intRange _ _ _ (hl d hd)
        unfold MaxInt32 at hy hmo
        exact wrapInt64_eq _ (by unfold MinInt64; omega) (by unfold MaxInt64; omega)
      rw [hmap _ (fun d hd => (List.mem_filter.1 hd).1)] at hloop
      unfold allDatesInMonth specAllDatesInMonth
      simp only [index, Outcome.bind]
      by_cases ha : a = -1
      · simp only [ha, decide_True, Bool.true_and] at hloop
        simpa [ha] using hloop
      · simp only [ha, decide_False, Bool.false_and] at hloop
        simpa [ha] using hloop

/-- The integers `a, a+1, ..., b` are in strictly ascending order. -/
theorem intRange_sorted (a b : Int) : (intRange a b).Sorted (· < ·) := by
  have e : intRange a b = (List.range (b - a + 1).toNat).map fun k : Nat => a + (k : Int) := by
    simp only [intRange, List.flatMap, List.map_map, Function.comp_def, Functor.map,
      List.pure_def, List.bind_eq_flatMap]
    generalize List.range (b - a + 1).toNat = l
    induction l with
    | nil => rfl
    | cons x t ih => simp [ih]
  rw [e]
  refine List.Pairwise.map _ ?_ (List.pairwise_lt_range _)
  intro x y hxy
  omega

/-- The dates of the specification are in strictly ascending order. -/
theorem specAllDatesInMonth_sorted (year mon : Int) (mday wday : List Int) :
    (specAllDatesInMonth year mon mday wday).Sorted (· < ·) := by
  unfold specAllDatesInMonth
  refine List.Pairwise.map _ ?_ (List.Pairwise.filter _ (intRange_sorted _ _))
  intro x y hxy
  omega

/-- What holds of every result of `k` holds of every result of a call followed by `k`. -/
theorem Outcome.bind_preserves {α β : Type} (P : β → Prop) (k : α → Outcome β)
    (hk : ∀ a r, k a = Outcome.ret r → P r) (x : Outcome α) (r : β)
    (h : x.bind k = Outcome.ret r) : P r := by
  obtain ⟨a, _, h1⟩ := Outcome.bind_eq_ret x k r h
  exact hk a r h1

/-- The numeric branch of `ParseCron`: when it returns, a month-day field with `*` as the
weekday field leaves the weekday set `[-1]`, and a weekday field with `*` as the month-day
field leaves the month-day set `[-1]`. `off` is 1 when there is a field of seconds. -/
theorem parseNumeric_sentinel (env : Env) (timezone calendar : String)
    (calendarDirs : List String) (fields : List String) (off : Nat)
    (hoff : off = if fields.length = 6 then 1 else 0) :
    ∀ cron, parseNumeric env timezone calendar calendarDirs fields = Outcome.ret cron →
      (fields.getD (2 + off) "" ≠ "*" → fields.getD (4 + off) "" = "*" →
        cron.Spec.Wday = [-1]) ∧
      (fields.getD (2 + off) "" = "*" → fields.getD (4 + off) "" ≠ "*" →
        cron.Spec.Mday = [-1]) := by
  subst hoff
  unfold parseNumeric
  lift_lets
  intro nfields secOffset f jp5 jp4 jp3 jp2
  have hf2 : fields.getD (2 + if fields.length = 6 then 1 else 0) "" = f 2 := rfl
  have hf4 : fields.getD (4 + if fields.length = 6 then 1 else 0) "" = f 4 := rfl
  rw [hf2, hf4]
  clear hf2 hf4
  clear_value f secOffset nfields
  have h5 : ∀ c r, jp5 c = Outcome.ret r →
      (f 2 ≠ "*" → f 4 = "*" → r.Spec.Wday = [-1]) ∧
      (f 2 = "*" → f 4 ≠ "*" → r.Spec.Mday = [-1]) := by
    intro c r h
    simp only [jp5] at h
    refine ⟨fun h2 h4 => ?_, fun h2 h4 => ?_⟩
    · have e1 : (f 2 != "*" && f 4 == "*") = true := by simp [h2, h4]
      rw [if_pos e1] at h
      obtain ⟨p, _, h⟩ := Outcome.bind_eq_ret _ _ _ h
      have e := Outcome.ret.inj h
      rw [← e]
    · have e1 : ¬ (f 2 != "*" && f 4 == "*") = true := by simp [h2]
      have e2 : (f 2 == "*" && f 4 != "*") = true := by simp [h2, h4]
      rw [if_neg e1, if_pos e2] at h
      obtain ⟨p, _, h⟩ := Outcome.bind_eq_ret _ _ _ h
      have e := Outcome.ret.inj h
      rw [← e]
  have h4 : ∀ c r, jp4 c = Outcome.ret r →
      (f 2 ≠ "*" → f 4 = "*" → r.Spec.Wday = [-1]) ∧
      (f 2 = "*" → f 4 ≠ "*" → r.Spec.Mday = [-1]) := by
    intro c r h
    simp only [jp4] at h
    split at h <;> exact Outcome.bind_preserves _ jp5 h5 _ r h
  have h3 : ∀ c r, jp3 c = Outcome.ret r →
      (f 2 ≠ "*" → f 4 = "*" → r.Spec.Wday = [-1]) ∧
      (f 2 = "*" → f 4 ≠ "*" → r.Spec.Mday = [-1]) := by
    intro c r h
    simp only [jp3] at h
    split at h <;> exact Outcome.bind_preserves _ jp4 h4 _ r h
  have h2 : ∀ c r, jp2 c = Outcome.ret r →
      (f 2 ≠ "*" → f 4 = "*" → r.Spec.Wday = [-1]) ∧
      (f 2 = "*" → f 4 ≠ "*" → r.Spec.Mday = [-1]) := by
    intro c r h
    simp only [jp2] at h
    split at h <;> exact Outcome.bind_preserves _ jp3 h3 _ r h
  intro cron h
  obtain ⟨c0, _, h⟩ := Outcome.bind_eq_ret _ _ _ h
  simp only at h
  split at h
  · split at h <;> exact Outcome.bind_preserves _ jp2 h2 _ cron h
  · exact Outcome.bind_preserves _ jp2 h2 _ cron h

/-- `ParseCron` on a specification that is not a shortcut: when it returns without an
error, the month-day and weekday sets are as `parseNumeric_sentinel` says. -/
theorem ParseCron_sentinel (env : Env) (spec timezone calendar : String)
    (calendarDirs : List String) (rollback required : Bool) (jitter : Int) (cron : Cron)
    (off : Nat) (hoff : off = if (Fields spec).length = 6 then 1 else 0)
    (hat : HasPrefix spec "@" = false)
    (h : ParseCron env spec timezone calendar calendarDirs rollback required jitter =
      Outcome.ret (cron, none)) :
    ((Fields spec).getD (2 + off) "" ≠ "*" → (Fields spec).getD (4 + off) "" = "*" →
      cron.Spec.Wday = [-1]) ∧
    ((Fields spec).getD (2 + off) "" = "*" → (Fields spec).getD (4 + off) "" ≠ "*" →
      cron.Spec.Mday = [-1]) := by
  unfold ParseCron at h
  simp only [hat, Bool.false_eq_true, if_false] at h
  by_cases h0 : spec.toList.length = 0
  · have hnil : spec.toList = [] := List.length_eq_zero.mp h0
    have hF : Fields spec = [] := by
      unfold Fields
      rw [hnil]
      rfl
    rw [hF]
    simp
  · rw [if_neg h0] at h
    split at h
    · have e := Outcome.ret.inj h
      have e2 := congrArg Prod.snd e
      exact absurd e2 (by simp)
    · obtain ⟨c, hc, h⟩ := Outcome.bind_eq_ret _ _ _ h
      have e := Outcome.ret.inj h
      have e1 := congrArg Prod.fst e
      simp only at e1
      have hs := parseNumeric_sentinel env timezone calendar calendarDirs (Fields spec) off hoff
        c hc
      rw [← e1]
      exact hs

/-- The part of C28 that holds: for every year and month that fit 32 bits and all sets of
month days and weekdays that are not empty, `allDatesInMonth` returns, in ascending order,
exactly the dates `YYYYMMDD` of the days `1, 2, ...` up to the last day of the month whose
day is in the month-day set or whose weekday is in the weekday set, where a set that starts
with the sentinel `-1` matches no day and every day is returned when both sets start with
the sentinel; and `ParseCron`, when it returns a cron for a numeric specification, has set
the unspecified one of the two fields to `[-1]` when exactly one is specified. -/
theorem allDatesInMonth_exact (year mon : Int) (mday wday : List Int)
    (hy : -MaxInt32 - 1 ≤ year ∧ year ≤ MaxInt32) (hmo : -MaxInt32 - 1 ≤ mon ∧ mon ≤ MaxInt32)
    (hm : mday ≠ []) (hw : wday ≠ []) :
    allDatesInMonth year mon mday wday =
        Outcome.ret (specAllDatesInMonth year mon mday wday) ∧
      (specAllDatesInMonth year mon mday wday).Sorted (· < ·) ∧
      ∀ (env : Env) (spec timezone calendar : String) (calendarDirs : List String)
        (rollback required : Bool) (jitter : Int) (cron : Cron) (off : Nat),
        off = (if (Fields spec).length = 6 then 1 else 0) →
        HasPrefix spec "@" = false →
        ParseCron env spec timezone calendar calendarDirs rollback required jitter =
          Outcome.ret (cron, none) →
        ((Fields spec).getD (2 + off) "" ≠ "*" → (Fields spec).getD (4 + off) "" = "*" →
          cron.Spec.Wday = [-1]) ∧
        ((Fields spec).getD (2 + off) "" = "*" → (Fields spec).getD (4 + off) "" ≠ "*" →
          cron.Spec.Mday = [-1]) :=
  ⟨allDatesInMonth_eq_spec year mon mday wday hy hmo hm hw,
   specAllDatesInMonth_sorted year mon mday wday,
   fun env spec timezone calendar calendarDirs rollback required jitter cron off hoff hat h =>
     ParseCron_sentinel env spec timezone calendar calendarDirs rollback required jitter cron
       off hoff hat h⟩

/-- The Mondays and Wednesdays of March 2024, the month-day set being the sentinel: an
instance of `allDatesInMonth_exact`. -/
theorem allDatesInMonth_exact_witness :
    allDatesInMonth 2024 3 [-1] [1, 3] =
        Outcome.ret (specAllDatesInMonth 2024 3 [-1] [1, 3]) ∧
      (specAllDatesInMonth 2024 3 [-1] [1, 3]).Sorted (· < ·) ∧
      ∀ (env : Env) (spec timezone calendar : String) (calendarDirs : List String)
        (rollback required : Bool) (jitter : Int) (cron : Cron) (off : Nat),
        off = (if (Fields spec).length = 6 then 1 else 0) →
        HasPrefix spec "@" = false →
        ParseCron env spec timezone calendar calendarDirs rollback required jitter =
          Outcome.ret (cron, none) →
        ((Fields spec).getD (2 + off) "" ≠ "*" → (Fields spec).getD (4 + off) "" = "*" →
          cron.Spec.Wday = [-1]) ∧
        ((Fields spec).getD (2 + off) "" = "*" → (Fields spec).getD (4 + off) "" ≠ "*" →
          cron.Spec.Mday = [-1]) :=
  allDatesInMonth_exact 2024 3 [-1] [1, 3] (by decide) (by decide) (by decide) (by decide)

set_option maxRecDepth 100000 in
/-- C28 fails in the code: for the empty month-day set `allDatesInMonth` panics on
`mday[0]`, whatever the year, the month and the weekday set are, and so it does for the
empty weekday set after a month-day set that starts with the sentinel; the claim describes
the Mondays and Wednesdays of March 2024 for the empty month-day set and the weekdays 1
and 3. `ParseCron` returns the empty month-day set with a nil error for the field `5-4`
(a range that ends before it starts), and `NextStart` on that cron panics. -/
theorem allDatesInMonth_empty_set_panics :
    (∀ (year mon : Int) (wday : List Int),
        allDatesInMonth year mon [] wday = Outcome.panicked) ∧
      (∀ (year mon : Int) (rest : List Int),
        allDatesInMonth year mon (-1 :: rest) [] = Outcome.panicked) ∧
      specAllDatesInMonth 2024 3 [] [1, 3] =
        [20240304, 20240306, 20240311, 20240313, 20240318, 20240320, 20240325, 20240327] ∧
      ((ParseCron (utcEnv 2024 3 15 12 0 0 []) "0 0 5-4 * *" "UTC" "" [] false false 0).bind
        fun p => Outcome.ret (p.1.Spec.Mday, p.1.Spec.Wday, p.2)) =
        Outcome.ret ([], [-1], none) ∧
      parseThenNext (utcEnv 2024 3 15 12 0 0 []) "0 0 5-4 * *" "UTC" "" false =
        Outcome.panicked := by
  refine ⟨fun _ _ _ => rfl, fun _ _ _ => rfl, by decide, by decide!, by decide!⟩

/-- The dates of the witness of C28. -/
theorem allDatesInMonth_example :
    allDatesInMonth 2024 3 [-1] [1, 3] =
      Outcome.ret [20240304, 20240306, 20240311, 20240313, 20240318, 20240320, 20240325,
        20240327] := by decide

/-- `ParseCron` returns for `0 9 15 * *` and for `0 9 * * 1`: the month day 15 with the
weekday sentinel, and the weekday 1 with the month-day sentinel. -/
theorem ParseCron_sentinel_examples :
    ((ParseCron (utcEnv 2024 3 15 12 0 0 []) "0 9 15 * *" "UTC" "" [] false false 0).bind
        fun p => Outcome.ret (p.1.Spec.Mday, p.1.Spec.Wday, p.2)) =
        Outcome.ret ([15], [-1], none) ∧
      ((ParseCron (utcEnv 2024 3 15 12 0 0 []) "0 9 * * 1" "UTC" "" [] false false 0).bind
        fun p => Outcome.ret (p.1.Spec.Mday, p.1.Spec.Wday, p.2)) =
        Outcome.ret ([-1], [1], none) := by
  constructor <;> decide!

set_option maxRecDepth 100000 in
/-- C29 fails in the code: the six-field expression `* 30 9 15 3 *` parses with a nil error
into a cron whose seconds are 0 to 60 (`NewCron` fills them with `makerange(0, 61, 1)` and a
`*` keeps that set); at 09:30:59 `nextDateTime` selects the second 60, the timestamp
`20240315093060` does not parse, and `NextStart` returns the zero instant with a nil
error. -/
theorem NextStart_selects_second_60 :
    ((ParseCron (utcEnv 2024 3 15 9 30 59 []) "* 30 9 15 3 *" "UTC" "" [] false false 0).bind
        fun p => Outcome.ret (p.1.Hours, p.1.Minutes, p.1.Seconds.getLast?, p.2)) =
        Outcome.ret ([9], [30], some 60, none) ∧
      nextDateTime 20240315 (goDate 2024 3 15 9 30 59 0 0) [9] [30] (intRange 0 60) =
        Outcome.ret 20240315093060 ∧
      ParseInLocation "20240315093060" 0 = none ∧
      parseThenNext (utcEnv 2024 3 15 9 30 59 []) "* 30 9 15 3 *" "UTC" "" false =
        Outcome.ret (none, { d := MinInt64, next := ZeroTime, err := none }) := by
  decide!

/-- The job `copyJobSpec` returns is disabled when the specification is. -/
theorem copyJobSpec_Disabled {J : Type} (env : Env) (newUUID : String) (job : Job)
    (spec : JobSpecOf J) (r : Job × JobSpecOf J)
    (h : copyJobSpec env newUUID job spec = Outcome.ret r) : r.1.Disabled = spec.Disabled := by
  unfold copyJobSpec at h
  rcases hR : spec.Rollback with _ | b <;> rcases hC : spec.RequireCal with _ | c <;>
    simp only [hR, hC, Outcome.bind] at h
  all_goals first
    | (have e := Outcome.ret.inj h; rw [← e])
    | exact absurd h (by simp)

/-- C21 as stated fails: `LoadJobSpec` on the controller `etl` with
`JobsControl.MaxFailures = 3` gives the parent a `completed_failed` dependency with
condition `any` and `N = 1`, not 3. -/
theorem LoadJobSpec_completed_failed_ignores_MaxFailures :
    ∃ out job dep, LoadJobSpec (utcEnv 2024 3 15 12 0 0 []) freshIds [specEtlMaxFailures] none
        "jobs.json" 10 [] "server" "key" "" JobLogging.zero 30 15 = Outcome.ret out ∧
      (specEtlMaxFailures.JobsControl.map fun c => c.MaxFailures) = some 3 ∧
      out.jobs.get? 0 = some job ∧ job.Name = "etl" ∧ job.Dependency.get? 2 = some dep ∧
      dep.Action = "completed_failed" ∧ dep.Condition = "any" ∧ dep.N = 1 ∧ dep.N ≠ 3 ∧
      dep.Dependencies = [(idExtract, "failed"), (idLoad, "failed")] :=
  ⟨_, _, _, rfl, rfl, rfl, rfl, rfl, rfl, rfl, rfl, by decide, rfl⟩

/-- C21, amended: for every enabled controller (a specification with `Jobs` and
`JobsControl`) for which the turn of the loop of `LoadJobSpec` returns, the parent job is
the entry written at `j`, and its third dependency is the `completed_failed` rollup with
condition `any`, delay `100ms` and `N = 1`, whatever `JobsControl.MaxFailures` is. -/
theorem loadStep_completed_failed (env : Env) (fresh : Nat → String) (a : LoadArgs)
    (all : List JobSpec) (spec : JobSpec) (st st1 : LoadState) (specJobs : List ChildSpec)
    (control : JobsControl)
    (hjobs : spec.Jobs = some specJobs) (hcontrol : spec.JobsControl = some control)
    (henabled : spec.Disabled = false)
    (h : loadStep env fresh a all spec st = Outcome.ret st1) :
    ∃ controller dep, st1.done.get? st.done.length = some controller ∧
      controller.Dependency.get? 2 = some dep ∧
      dep.Action = "completed_failed" ∧ dep.Condition = "any" ∧ dep.Delay = "100ms" ∧
      dep.N = 1 := by
  unfold loadStep at h
  simp only [hjobs, hcontrol] at h
  obtain ⟨p1, _, h⟩ := Outcome.bind_eq_ret _ _ _ h
  obtain ⟨r, hr, h⟩ := Outcome.bind_eq_ret _ _ _ h
  obtain ⟨parentJob, hp, h⟩ := Outcome.bind_eq_ret _ _ _ h
  have hd : r.1.Disabled = false := (copyJobSpec_Disabled _ _ _ _ _ hr).trans henabled
  have hpd : parentJob.Disabled = false := by
    split at hp
    · obtain ⟨sj, _, hp⟩ := Outcome.bind_eq_ret _ _ _ hp
      have e := Outcome.ret.inj hp
      rw [← e]
      split <;> exact hd
    · have e := Outcome.ret.inj hp
      rw [← e]; exact hd
  simp only [hpd, Bool.false_eq_true, if_false] at h
  obtain ⟨g0, _, h⟩ := Outcome.bind_eq_ret _ _ _ h
  obtain ⟨cs, _, h⟩ := Outcome.bind_eq_ret _ _ _ h
  have e := Outcome.ret.inj h
  rw [← e]
  have key : ∀ (l1 l2 : List Job) (x : Job), (l1 ++ [x] ++ l2).get? l1.length = some x := by
    intro l1 l2 x
    induction l1 with
    | nil => rfl
    | cons y t ih => simpa using ih
  exact ⟨_, _, key _ _ _, rfl, rfl, rfl, rfl, rfl⟩

/-- Witness for C21: the turn of the loop for the controller `etl` with `MaxFailures = 3`. -/
theorem loadStep_completed_failed_witness :
    ∃ controller dep, loadedEtl.done.get? loadStart.done.length = some controller ∧
      controller.Dependency.get? 2 = some dep ∧
      dep.Action = "completed_failed" ∧ dep.Condition = "any" ∧ dep.Delay = "100ms" ∧
      dep.N = 1 :=
  loadStep_completed_failed (utcEnv 2024 3 15 12 0 0 []) freshIds argsOfTest
    [specEtlMaxFailures] specEtlMaxFailures loadStart loadedEtl childrenOfEtl
    { Delay := "", MaxConcurrent := 0, MaxFailures := 3, nfailures := 0 } rfl rfl rfl rfl

/-- The comparison of the permissions of a job with themselves. -/
theorem permissionsEqual_self (p : Option Permission) : permissionsEqual p p = true := by
  cases p with
  | none => rfl
  | some m => simp [permissionsEqual]

/-- C22 fails in the code: `areEqualSpec` never looks at `Dependency`, so for every job
record with a command and every list of dependencies it returns `true` for the record and
the record with the other dependencies (here `nightly` with and without its dependency);
and for every job record without a command, compared with itself, it panics on `*(x.Cmd)`
instead of returning. -/
theorem areEqualSpec_misses_Dependency_and_panics (x : Job) (cmd : String)
    (deps : List Dependency) :
    areEqualSpec { x with Cmd := some cmd } { x with Cmd := some cmd, Dependency := deps } =
        Outcome.ret true ∧
      areEqualSpec { x with Cmd := none } { x with Cmd := none } = Outcome.panicked ∧
      nightlyAfterJobA.JobUUID = nightlyWithoutDependency.JobUUID ∧
      nightlyAfterJobA.Dependency ≠ nightlyWithoutDependency.Dependency ∧
      areEqualSpec nightlyAfterJobA nightlyWithoutDependency = Outcome.ret true ∧
      areEqualSpec jobWithoutCmd jobWithoutCmd = Outcome.panicked := by
  refine ⟨?_, ?_, rfl, by decide, by decide, by decide⟩
  · simp [areEqualSpec, isNilAndNot, permissionsEqual_self]
    cases x.CronStart <;> simp
  · simp [areEqualSpec, isNilAndNot, permissionsEqual_self]
    cases x.CronStart <;> simp

/-- C23 fails in the code: when the first directory of the list exists and does not hold
the calendar, `ReadCalendar` returns calendar-not-found without looking at the other
directories of the list, whatever they hold. -/
theorem ReadCalendar_first_dir_only (fs : Files) (calendar path : String) (rest : List String)
    (e : String) (hdir : fs.Stat path = none) (hfile : fs.Stat (fs.Join path calendar) = some e) :
    ReadCalendar fs calendar (path :: rest) =
      (Cal.zero, some { Exception := CalendarException.CalendarNotFound, Calendar := calendar,
                        CalendarDirs := path :: rest, fileErr := some e }) := by
  simp [ReadCalendar, findCalendarFile, FileExists, hdir, hfile]

/-- Witness for C23: the calendar `NYSE` is a file of `/opt/cal`, the second directory of the
list, and is read from there when `/opt/cal` comes first. -/
theorem ReadCalendar_first_dir_only_witness :
    (ReadCalendar filesOfTwoDirs "NYSE" ["/opt/cal", "/etc/cal"]).2 = none ∧
      ReadCalendar filesOfTwoDirs "NYSE" ["/etc/cal", "/opt/cal"] =
        (Cal.zero, some { Exception := CalendarException.CalendarNotFound, Calendar := "NYSE",
                          CalendarDirs := ["/etc/cal", "/opt/cal"],
                          fileErr := some "stat /etc/cal/NYSE: no such file or directory" }) :=
  ⟨by decide,
   ReadCalendar_first_dir_only filesOfTwoDirs "NYSE" "/etc/cal" ["/opt/cal"]
     "stat /etc/cal/NYSE: no such file or directory" (by decide) (by decide)⟩

/-- C24 fails in the code: for every calendar file that is found and opened, `ReadCalendar`
returns a nil error, whatever its lines are; a line that is not a number leaves the date 0
at its place. -/
theorem ReadCalendar_nil_error_for_all_lines (fs : Files) (calendar path : String)
    (rest lines : List String) (hdir : fs.Stat path = none)
    (hfile : fs.Stat (fs.Join path calendar) = none) (hname : fs.Join path calendar ≠ "")
    (hopen : fs.Open (fs.Join path calendar) = Except.ok lines) :
    ReadCalendar fs calendar (path :: rest) =
      ({ NewCal calendar with DatesIn := lines.map fun txt => (ParseInt32 txt).1 }, none) := by
  simp [ReadCalendar, findCalendarFile, FileExists, hdir, hfile, hname, hopen]

/-- Witness for C24: the calendar `NYSE` with the line `holiday`, which does not parse
(`ParseInt` returns 0 and an error for it). -/
theorem ReadCalendar_nil_error_for_all_lines_witness :
    ParseInt32 "holiday" = (0, false) ∧
      ReadCalendar filesOfTwoDirs "NYSE" ["/opt/cal"] =
        ({ NewCal "NYSE" with
           DatesIn := ["20240101", "holiday", "20240527"].map fun txt => (ParseInt32 txt).1 },
         none) ∧
      (ReadCalendar filesOfTwoDirs "NYSE" ["/opt/cal"]).1.DatesIn = [20240101, 0, 20240527] :=
  ⟨by decide,
   ReadCalendar_nil_error_for_all_lines filesOfTwoDirs "NYSE" "/opt/cal" []
     ["20240101", "holiday", "20240527"] (by decide) (by decide) (by decide) (by rfl),
   by decide⟩

theorem sorted_getD_mono (a : List Int) (hs : a.Sorted (· ≤ ·)) (k l : Nat) (hkl : k ≤ l)
    (hl : l < a.length) : a.getD k 0 ≤ a.getD l 0 := by
  have hk : k < a.length := lt_of_le_of_lt hkl hl
  rw [List.getD_eq_getElem _ _ hk, List.getD_eq_getElem _ _ hl]
  exact List.Sorted.rel_get_of_le hs (a := ⟨k, hk⟩) (b := ⟨l, hl⟩) hkl

theorem searchLoop_spec (a : List Int) (x : Int) (hs : a.Sorted (· ≤ ·)) :
    ∀ (fuel i j : Nat), i ≤ j → j ≤ a.length → j - i ≤ fuel →
      (∀ k, k < i → a.getD k 0 < x) → (∀ k, j ≤ k → k < a.length → x ≤ a.getD k 0) →
      searchLoop a x fuel i j ≤ a.length ∧
        (∀ k, k < searchLoop a x fuel i j → a.getD k 0 < x) ∧
        (∀ k, searchLoop a x fuel i j ≤ k → k < a.length → x ≤ a.getD k 0) := by
  intro fuel
  induction fuel with
  | zero =>
      intro i j hij hj hf hlo hhi
      have : i = j := by omega
      subst this
      exact ⟨hj, hlo, hhi⟩
  | succ fuel ih =>
      intro i j hij hj hf hlo hhi
      unfold searchLoop
      by_cases hlt : i < j
      · rw [if_pos hlt]
        have hh : (i + j) / 2 < j := by omega
        have hh2 : i ≤ (i + j) / 2 := by omega
        by_cases hge : a.getD ((i + j) / 2) 0 ≥ x
        · simp only [hge, if_true]
          refine ih i ((i + j) / 2) hh2 (by omega) (by omega) hlo ?_
          intro k hk hkl
          exact le_trans hge (sorted_getD_mono a hs _ _ hk hkl)
        · simp only [hge, if_false]
          refine ih ((i + j) / 2 + 1) j (by omega) hj (by omega) ?_ hhi
          intro k hk
          have := sorted_getD_mono a hs k ((i + j) / 2) (by omega) (by omega)
          omega
      · rw [if_neg hlt]
        have : i = j := by omega
        subst this
        exact ⟨hj, hlo, hhi⟩

theorem float64OfInt_small (n : Int) (h : n.natAbs < 2 ^ 53) : float64OfInt n = n := by
  have he : ((List.range 11).filter fun k => decide (2 ^ (53 + k) ≤ n.natAbs)).length = 0 := by
    rw [List.length_eq_zero, List.filter_eq_nil_iff]
    intro k _
    have : 2 ^ 53 ≤ 2 ^ (53 + k) := Nat.pow_le_pow_right (by decide) (by omega)
    simp only [decide_eq_true_eq]
    omega
  unfold float64OfInt
  simp only [he, pow_zero, Nat.div_one, Nat.mod_one, Nat.mul_zero, Nat.mul_one]
  simp
  split_ifs with hn
  · rw [abs_of_neg hn]; exact neg_neg n
  · exact abs_of_nonneg (not_lt.1 hn)

theorem calendar_date_decode (Y M D : Int) (hY : 0 ≤ Y) (hM0 : 0 ≤ M) (hM : M < 100)
    (hD0 : 0 ≤ D) (hD : D < 100) (hb : Y * 10000 + M * 100 + D < 2 ^ 53) :
    (Y * 10000 + M * 100 + D).tdiv 10000 = Y ∧
      (float64OfInt ((Y * 10000 + M * 100 + D).tdiv 100)).tmod 100 = M ∧
      (float64OfInt (Y * 10000 + M * 100 + D)).tmod 100 = D := by
  have h1 : (Y * 10000 + M * 100 + D).tdiv 10000 = Y := by
    rw [Int.tdiv_eq_ediv (by omega) (by omega)]; omega
  have h2 : (Y * 10000 + M * 100 + D).tdiv 100 = Y * 100 + M := by
    rw [Int.tdiv_eq_ediv (by omega) (by omega)]; omega
  have hb2 : (2 : Int) ^ 53 = 9007199254740992 := by norm_num
  have hn2 : (2 : Nat) ^ 53 = 9007199254740992 := by norm_num
  refine ⟨h1, ?_, ?_⟩
  · rw [h2, float64OfInt_small _ (by omega), Int.tmod_eq_emod (by omega) (by omega)]; omega
  · rw [float64OfInt_small _ (by omega), Int.tmod_eq_emod (by omega) (by omega)]; omega

theorem float64OfInt_examples :
    float64OfInt 20240105 = 20240105 ∧ float64OfInt (2 ^ 53 + 1) = 2 ^ 53 ∧
      float64OfInt (2 ^ 53 + 3) = 2 ^ 53 + 4 ∧ float64OfInt (-(2 ^ 63)) = -(2 ^ 63) ∧
      float64OfInt (2 ^ 63 - 1) = 2 ^ 63 := by
  decide

theorem SearchInts_spec (a : List Int) (x : Int) (hs : a.Sorted (· ≤ ·)) :
    ∃ r : Nat, SearchInts a x = (r : Int) ∧ r ≤ a.length ∧
      (∀ k, k < r → a.getD k 0 < x) ∧ (∀ k, r ≤ k → k < a.length → x ≤ a.getD k 0) := by
  refine ⟨searchLoop a x a.length 0 a.length, rfl, ?_⟩
  exact searchLoop_spec a x hs a.length 0 a.length (Nat.zero_le _) le_rfl (by omega)
    (by intro k hk; omega) (by intro k hk hk2; omega)

theorem index_of_get? {α : Type} (xs : List α) (i : Int) (x : α) (h0 : 0 ≤ i)
    (h : xs.get? i.toNat = some x) : index xs i = Outcome.ret x := by
  have h1 : ¬ (i < 0) := by omega
  simp only [index, h1, if_false, h]

theorem mem_getD {α : Type} (xs : List α) (d x : α) (hx : x ∈ xs) :
    ∃ k, k < xs.length ∧ xs.getD k d = x := by
  obtain ⟨k, hk, rfl⟩ := List.getElem_of_mem hx
  exact ⟨k, hk, List.getD_eq_getElem _ _ hk⟩

theorem addDateWithCal_eval (t : Time) (years months n : Int) (cal : Cal) (p : Nat)
    (Y M D : Int)
    (hidx : (if !cal.Forward then
        (index cal.DatesIn
            (SearchInts cal.DatesIn (t.Year * 10000 + t.Month * 100 + t.Day))).bind fun v =>
          Outcome.ret (if v > t.Year * 10000 + t.Month * 100 + t.Day then
            SearchInts cal.DatesIn (t.Year * 10000 + t.Month * 100 + t.Day) - 1
            else SearchInts cal.DatesIn (t.Year * 10000 + t.Month * 100 + t.Day))
      else Outcome.ret (SearchInts cal.DatesIn (t.Year * 10000 + t.Month * 100 + t.Day))) =
      Outcome.ret (p : Int))
    (hn : 0 ≤ (p : Int) + n)
    (hget : cal.DatesIn.get? ((p : Int) + n).toNat = some (Y * 10000 + M * 100 + D))
    (hY : 0 ≤ Y) (hM0 : 0 ≤ M) (hM : M < 100) (hD0 : 0 ≤ D) (hD : D < 100)
    (hb : Y * 10000 + M * 100 + D < 2 ^ 53) :
    addDateWithCal t years months n cal = Outcome.ret (goDate Y M D 0 0 0 0 0) := by
  obtain ⟨e1, e2, e3⟩ := calendar_date_decode Y M D hY hM0 hM hD0 hD hb
  unfold addDateWithCal
  simp only [Time.Year, Time.Month, Time.Day] at hidx
  generalize t.Date = ymd at hidx ⊢
  obtain ⟨y, m, d⟩ := ymd
  simp only [] at hidx ⊢
  rw [hidx]
  simp only [Outcome.bind, index_of_get? _ _ _ hn hget, e1, e2, e3]

/-- C25: for a calendar in ascending order and a date between its first and last entry,
there is a position `p` of the calendar whose entry `v` is the smallest entry not before the
date when `Forward` is set, and the largest entry not after it when `Forward` is not set;
for every shift `n` such that position `p + n` exists and holds a date `YYYYMMDD`,
`addDateWithCal` returns that date (at midnight UTC). The shift 0 returns `v` itself. -/
theorem addDateWithCal_nearest_and_shift (t : Time) (cal : Cal) (first last : Int)
    (hs : cal.DatesIn.Sorted (· ≤ ·))
    (hfirst : cal.DatesIn.head? = some first) (hlast : cal.DatesIn.getLast? = some last)
    (hlo : first ≤ t.Year * 10000 + t.Month * 100 + t.Day)
    (hhi : t.Year * 10000 + t.Month * 100 + t.Day ≤ last) :
    ∃ (p : Nat) (v : Int), cal.DatesIn.get? p = some v ∧
      (if cal.Forward = true then
         t.Year * 10000 + t.Month * 100 + t.Day ≤ v ∧
           ∀ w ∈ cal.DatesIn, t.Year * 10000 + t.Month * 100 + t.Day ≤ w → v ≤ w
       else
         v ≤ t.Year * 10000 + t.Month * 100 + t.Day ∧
           ∀ w ∈ cal.DatesIn, w ≤ t.Year * 10000 + t.Month * 100 + t.Day → w ≤ v) ∧
      ∀ (years months n Y M D : Int), 0 ≤ (p : Int) + n →
        cal.DatesIn.get? ((p : Int) + n).toNat = some (Y * 10000 + M * 100 + D) →
        0 ≤ Y → 0 ≤ M → M < 100 → 0 ≤ D → D < 100 → Y * 10000 + M * 100 + D < 2 ^ 53 →
        addDateWithCal t years months n cal = Outcome.ret (goDate Y M D 0 0 0 0 0) := by
  generalize hdate : t.Year * 10000 + t.Month * 100 + t.Day = date at hlo hhi ⊢
  obtain ⟨r, hr, hrle, hlt, hge⟩ := SearchInts_spec cal.DatesIn date hs
  have hne : cal.DatesIn ≠ [] := by
    intro h; rw [h] at hfirst; simp at hfirst
  have hlen : 0 < cal.DatesIn.length := List.length_pos.2 hne
  have hf : cal.DatesIn.getD 0 0 = first := by
    cases hc : cal.DatesIn with
    | nil => exact absurd hc hne
    | cons x xs => rw [hc] at hfirst; simp at hfirst; simp [hfirst]
  have hl : cal.DatesIn.getD (cal.DatesIn.length - 1) 0 = last := by
    rw [List.getLast?_eq_getElem?] at hlast
    simp [List.getD_eq_getElem?_getD, hlast]
  have hrlt : r < cal.DatesIn.length := by
    by_contra hcon
    have := hlt (cal.DatesIn.length - 1) (by omega)
    omega
  have hrge : date ≤ cal.DatesIn.getD r 0 := hge r le_rfl hrlt
  have hget : ∀ k, k < cal.DatesIn.length →
      cal.DatesIn.get? k = some (cal.DatesIn.getD k 0) := by
    intro k hk
    simp [List.getD_eq_getElem _ _ hk, List.getElem?_eq_getElem hk]
  have hidx := index_getD cal.DatesIn r 0 hrlt
  cases hF : cal.Forward with
  | true =>
      refine ⟨r, cal.DatesIn.getD r 0, hget r hrlt, ?_, ?_⟩
      · simp only [if_true]
        refine ⟨hrge, ?_⟩
        intro w hw hdw
        obtain ⟨k, hk, rfl⟩ := mem_getD cal.DatesIn 0 w hw
        by_cases hkr : k < r
        · have := hlt k hkr; omega
        · exact sorted_getD_mono _ hs r k (by omega) hk
      · intro years months n Y M D hn hg hY hM0 hM hD0 hD hb
        refine addDateWithCal_eval t years months n cal r Y M D ?_ hn hg hY hM0 hM hD0 hD hb
        rw [hdate, hF, hr]
        rfl
  | false =>
      by_cases hgt : cal.DatesIn.getD r 0 > date
      · have hr0 : 0 < r := by
          by_contra hcon
          have : r = 0 := by omega
          rw [this, hf] at hgt
          omega
        have hprev := hlt (r - 1) (by omega)
        refine ⟨r - 1, cal.DatesIn.getD (r - 1) 0, hget (r - 1) (by omega), ?_, ?_⟩
        · simp only [Bool.false_eq_true, if_false]
          refine ⟨le_of_lt hprev, ?_⟩
          intro w hw hdw
          obtain ⟨k, hk, rfl⟩ := mem_getD cal.DatesIn 0 w hw
          by_cases hkr : r ≤ k
          · have := sorted_getD_mono _ hs r k hkr hk; omega
          · exact sorted_getD_mono _ hs k (r - 1) (by omega) (by omega)
        · intro years months n Y M D hn hg hY hM0 hM hD0 hD hb
          refine addDateWithCal_eval t years months n cal (r - 1) Y M D ?_ hn hg hY hM0 hM hD0
            hD hb
          rw [hdate, hF, hr, hidx]
          simp only [Bool.not_false, if_true, Outcome.bind, hgt]
          congr 1
          omega
      · have heq : cal.DatesIn.getD r 0 = date := by omega
        refine ⟨r, cal.DatesIn.getD r 0, hget r hrlt, ?_, ?_⟩
        · simp only [Bool.false_eq_true, if_false]
          refine ⟨le_of_eq heq, ?_⟩
          intro w hw hdw
          omega
        · intro years months n Y M D hn hg hY hM0 hM hD0 hD hb
          refine addDateWithCal_eval t years months n cal r Y M D ?_ hn hg hY hM0 hM hD0 hD hb
          rw [hdate, hF, hr, hidx]
          simp only [Bool.not_false, if_true, Outcome.bind, hgt, if_false]

/-- Witness for C25: the calendar of 2, 3, 5 and 8 January 2024 and the date 4 January. -/
theorem addDateWithCal_nearest_and_shift_witness :
    (calOfJanuary false).DatesIn.Sorted (· ≤ ·) ∧
      noonOfJanuary4.Year * 10000 + noonOfJanuary4.Month * 100 + noonOfJanuary4.Day =
        20240104 ∧
      ∃ (p : Nat) (v : Int), (calOfJanuary false).DatesIn.get? p = some v ∧
        (if (calOfJanuary false).Forward = true then
           noonOfJanuary4.Year * 10000 + noonOfJanuary4.Month * 100 + noonOfJanuary4.Day ≤ v ∧
             ∀ w ∈ (calOfJanuary false).DatesIn,
               noonOfJanuary4.Year * 10000 + noonOfJanuary4.Month * 100 + noonOfJanuary4.Day
                 ≤ w → v ≤ w
         else
           v ≤ noonOfJanuary4.Year * 10000 + noonOfJanuary4.Month * 100 + noonOfJanuary4.Day ∧
             ∀ w ∈ (calOfJanuary false).DatesIn,
               w ≤ noonOfJanuary4.Year * 10000 + noonOfJanuary4.Month * 100 +
                 noonOfJanuary4.Day → w ≤ v) ∧
        ∀ (years months n Y M D : Int), 0 ≤ (p : Int) + n →
          (calOfJanuary false).DatesIn.get? ((p : Int) + n).toNat =
            some (Y * 10000 + M * 100 + D) →
          0 ≤ Y → 0 ≤ M → M < 100 → 0 ≤ D → D < 100 → Y * 10000 + M * 100 + D < 2 ^ 53 →
          addDateWithCal noonOfJanuary4 years months n (calOfJanuary false) =
            Outcome.ret (goDate Y M D 0 0 0 0 0) :=
  ⟨by decide, by decide,
   addDateWithCal_nearest_and_shift noonOfJanuary4 (calOfJanuary false) 20240102 20240108
     (by decide) (by decide) (by decide) (by decide) (by decide)⟩

/-- The calendar of 2, 3, 5 and 8 January 2024 at 4 January: forward gives the 5th, backward
the 3rd; a shift of two days backward from there is out of the calendar (a panic), a shift
of one day forward gives the 8th. -/
theorem addDateWithCal_examples :
    addDateWithCal noonOfJanuary4 0 0 0 (calOfJanuary true) =
        Outcome.ret (goDate 2024 1 5 0 0 0 0 0) ∧
      addDateWithCal noonOfJanuary4 0 0 0 (calOfJanuary false) =
        Outcome.ret (goDate 2024 1 3 0 0 0 0 0) ∧
      addDateWithCal noonOfJanuary4 0 0 1 (calOfJanuary true) =
        Outcome.ret (goDate 2024 1 8 0 0 0 0 0) ∧
      addDateWithCal noonOfJanuary4 0 0 (-1) (calOfJanuary false) =
        Outcome.ret (goDate 2024 1 2 0 0 0 0 0) ∧
      addDateWithCal noonOfJanuary4 0 0 (-2) (calOfJanuary false) = Outcome.panicked := by
  decide

theorem ConvertDate_plus_month_reduces (env : Env) (fs : Files) (timezone : String)
    (calendarPath : List String) (asof : String) :
    ConvertDate env fs "CCYY-MM,+1M" timezone calendarPath asof =
      convertAt env fs "2006-01" timezone calendarPath asof (some ("M", 1)) false "" := by
  rfl

theorem Format_year_month (t : Time) :
    t.Format "2006-01" = some (String.mk (appendInt t.Year 4 ++ '-' :: appendInt t.Month 2)) := by
  have h : formatLoop t 7 ['2', '0', '0', '6', '-', '0', '1'] =
      some (appendInt t.Year 4 ++ '-' :: appendInt t.Month 2) := by
    simp [formatLoop, nextStd, startsWith, stdText]
  show (formatLoop t 7 ['2', '0', '0', '6', '-', '0', '1']).map String.mk = _
  rw [h]
  rfl

theorem AddDate_month_on_31 (t : Time) (y m : Int) (hd : t.Date = (y, m, 31)) :
    (t.AddDate 0 1 0).Date = civilFromDays (daysFromCivil (y + m / 12) (m % 12 + 1) 1 + 30) := by
  have hy : t.Year = y := by simp [Time.Year, hd]
  have hm : t.Month = m := by simp [Time.Month, hd]
  have hdd : t.Day = 31 := by simp [Time.Day, hd]
  have e1 : y + 0 + (m + 1 - 1) / 12 = y + m / 12 := by simp
  have e2 : (m + 1 - 1) % 12 + 1 = m % 12 + 1 := by simp
  unfold Time.AddDate
  rw [hy, hm, hdd]
  simp only [Time.Date, Time.wall, goDate, Time.Hour, Time.Minute, Time.Second, Time.Nanosecond]
  rw [e1, e2]
  congr 1
  generalize daysFromCivil (y + m / 12) (m % 12 + 1) 1 = K
  generalize t.ns + t.off * 1000000000 = w
  omega

theorem shiftDate_month (fs : Files) (t : Time) (n : Int) (calendar : String)
    (calendarPath : List String) :
    shiftDate fs t "M" n false calendar calendarPath = some (Outcome.ret (t.AddDate 0 n 0)) := by
  rfl

/-- C26 fails in the code: at every instant of 2020-03-31 (the clock read in the location of
the job, `RPEAT_NOW` and `asof` not set), `ConvertDate` turns `CCYY-MM,+1M` into `2020-05`:
`AddDate(0, 1, 0)` makes the 31st of April of it, which is the 1st of May. -/
theorem ConvertDate_plus_month_on_March_31 (env : Env) (fs : Files) (timezone : String)
    (calendarPath : List String) (hnow : env.rpeatNow = none)
    (hdate : Time.Date { ns := env.clock, off := (env.loadLocation timezone).getD 0 } =
      (2020, 3, 31)) :
    ConvertDate env fs "CCYY-MM,+1M" timezone calendarPath "" =
      ConvertResult.returns "2020-05" none := by
  have hn : now env timezone "" =
      Outcome.ret { ns := env.clock, off := (env.loadLocation timezone).getD 0 } := by
    simp [now, hnow]
  have hd := AddDate_month_on_31 _ 2020 3 hdate
  have hc : civilFromDays (daysFromCivil (2020 + 3 / 12) (3 % 12 + 1) 1 + 30) = (2020, 5, 1) := by
    decide
  rw [hc] at hd
  have hy : (Time.AddDate { ns := env.clock, off := (env.loadLocation timezone).getD 0 }
      0 1 0).Year = 2020 := by simp [Time.Year, hd]
  have hm : (Time.AddDate { ns := env.clock, off := (env.loadLocation timezone).getD 0 }
      0 1 0).Month = 5 := by simp [Time.Month, hd]
  have hs : String.mk (appendInt 2020 4 ++ '-' :: appendInt 5 2) = "2020-05" := by decide
  have hq : ContainsString "2020-05" "QTR" = false := by decide
  rw [ConvertDate_plus_month_reduces]
  unfold convertAt
  simp only [hn, shiftDate_month, Format_year_month, hy, hm, hs, hq, Bool.false_eq_true,
    if_false]

/-- Witness for C26: noon of 2020-03-31, UTC. -/
theorem ConvertDate_plus_month_on_March_31_witness :
    (utcEnv 2020 3 31 12 0 0 []).rpeatNow = none ∧
      Time.Date { ns := (utcEnv 2020 3 31 12 0 0 []).clock,
                  off := ((utcEnv 2020 3 31 12 0 0 []).loadLocation "UTC").getD 0 } =
        (2020, 3, 31) ∧
      ConvertDate (utcEnv 2020 3 31 12 0 0 []) filesOfNothing "CCYY-MM,+1M" "UTC" [] "" =
        ConvertResult.returns "2020-05" none :=
  ⟨rfl, by decide,
   ConvertDate_plus_month_on_March_31 (utcEnv 2020 3 31 12 0 0 []) filesOfNothing "UTC" [] rfl
     (by decide)⟩

set_option maxRecDepth 100000 in
/-- The examples of the comment of `ConvertDate` that need no calendar, at noon UTC:
`CCYY-MM,+1M` gives `2020-04` on the first 30 days of March 2020 and `2020-05` on the 31st,
also when the instant is given by `asof`. -/
theorem ConvertDate_examples :
    (∀ d ∈ intRange 1 30,
        ConvertDate (utcEnv 2020 3 d 12 0 0 []) filesOfNothing "CCYY-MM,+1M" "UTC" [] "" =
          ConvertResult.returns "2020-04" none) ∧
      ConvertDate (utcEnv 2024 1 1 0 0 0 []) filesOfNothing "CCYY-MM,+1M" "UTC" []
          "20200331235959" = ConvertResult.returns "2020-05" none ∧
      ConvertDate (utcEnv 2020 3 15 12 0 0 []) filesOfNothing "CCYY-MM" "UTC" [] "" =
        ConvertResult.returns "2020-03" none ∧
      ConvertDate (utcEnv 2020 3 31 12 0 0 []) filesOfNothing "CCYYMM,+1D" "UTC" [] "" =
        ConvertResult.returns "202004" none ∧
      ConvertDate (utcEnv 2020 4 1 12 0 0 []) filesOfNothing "CCYY/MM,-5D" "UTC" [] "" =
        ConvertResult.returns "2020/03" none ∧
      ConvertDate (utcEnv 2020 3 30 12 0 0 []) filesOfNothing "CCYY-MM-DD,-1D" "UTC" [] "" =
        ConvertResult.returns "2020-03-29" none := by
  decide

end Rpeat
